import Mathlib

/-!
# DPAA bus: FMan interface discovery (drivers/bus/dpaa)

A shallow embedding of `drivers/bus/dpaa/base/fman/fman.c`, together with
theorems about the behaviour of that code.  The headers `fman.h` and `of.h`
are not among the sources: the constants of `fman.h` are a parameter of the
embedding, and the accessors of `of.h` are modelled on a tree of nodes.

C integers are natural numbers or integers with explicit reduction modulo
`2 ^ w` wherever a value is stored in a field of width `w`.  A `goto err`
is the `err` result of the monad `M`; a failed `assert` is `abort`; a read
outside an object is `undefined`.
-/

namespace Dpaa

/-! ## errno values (Linux, `errno-base.h`) -/

/-- The value of `EINVAL`. -/
def EINVAL : Int := 22
/-- The value of `ENXIO`. -/
def ENXIO : Int := 6
/-- The value of `ENOMEM`. -/
def ENOMEM : Int := 12

/-! ## `fman_get_mac_index` -/

/-- The function `fman_get_mac_index` of fman.c.  The second argument is the
value held by `*mac_idx` before the call; the result is the returned `int`
and the value held by `*mac_idx` after the call. -/
def fman_get_mac_index (regs_addr_host : Nat) (mac_idx : Nat) : Int × Nat :=
  match regs_addr_host with
  | 0xE0000 => (0, 1)
  | 0xE2000 => (0, 2)
  | 0xE4000 => (0, 3)
  | 0xE6000 => (0, 4)
  | 0xE8000 => (0, 5)
  | 0xEA000 => (0, 6)
  | 0xEC000 => (0, 7)
  | 0xEE000 => (0, 8)
  | 0xF0000 => (0, 9)
  | 0xF2000 => (0, 10)
  | _ => (-EINVAL, mac_idx)

/-- The ten register offsets of the comment in `fman_get_mac_index`, MAC1 to
MAC10 in order. -/
def mac_offsets : List Nat :=
  [0xE0000, 0xE2000, 0xE4000, 0xE6000, 0xE8000, 0xEA000, 0xEC000, 0xEE000,
   0xF0000, 0xF2000]

/-! ## The hardware description tree (`of.h`) -/

/-- A property value or any other byte buffer: one number below 256 per byte. -/
abbrev Bytes := List Nat

/-- Modelled from the spec: what `of_get_address(node, 0, &size, NULL)` and
`of_translate_address` (of.h, not among the sources) report for a node that
has a register bank, "translates a node's register-bank address into a
physical address via the tree's translation rules". -/
structure reg_entry where
  /-- the bytes at the pointer returned by `of_get_address` -/
  addr : Bytes
  /-- the value stored in `*size` -/
  size : Nat
  /-- the result of `of_translate_address(node, addr)`; 0 when it fails -/
  phys : Nat
deriving DecidableEq, Repr

/-- Modelled from the spec: `struct device_node` and what the accessors of
of.h (not among the sources) report for one node: its path, whether it is
marked available, its compatibility strings, its raw properties, the phandle
other nodes use to refer to it, the position of its parent in the tree, the
address-cell count of `of_n_addr_cells` and its first register bank. -/
structure device_node where
  full_name : String
  available : Bool
  compatible : List String
  properties : List (String × Bytes)
  phandle : Option Nat
  parent : Option Nat
  n_addr_cells : Nat
  reg : Option reg_entry
deriving DecidableEq, Repr

/-- Modelled from the spec: `of_device_is_available` (of.h), false for a node
marked unavailable. -/
def of_device_is_available (n : device_node) : Bool := n.available

/-- Modelled from the spec: `of_device_is_compatible` (of.h), whether the
string is one of the compatibility strings of the node. -/
def of_device_is_compatible (n : device_node) (compat : String) : Bool :=
  decide (compat ∈ n.compatible)

/-- Modelled from the spec: `of_get_property` (of.h), "returns the raw byte
property and its length, or a not-found condition".  `lenp` is the length of
the returned list. -/
def of_get_property (n : device_node) (name : String) : Option Bytes :=
  (n.properties.find? (fun p => p.1 == name)).map (fun p => p.2)

/-- Modelled from the spec: `of_find_node_by_phandle` (of.h), "resolves a
phandle to its target node or fails with NotFound".  The code passes the cell
it read from a property; a phandle is taken as the big-endian value of its
cell on both sides of the comparison. -/
def of_find_node_by_phandle (tree : List device_node) (ph : Nat) : Option device_node :=
  tree.find? (fun n => n.phandle == some ph)

/-- Modelled from the spec: `of_get_parent` (of.h), the parent of a node in the
"hierarchical hardware-description database", NULL for a node without one. -/
def of_get_parent (tree : List device_node) (n : device_node) : Option device_node :=
  n.parent.bind (fun i => tree.get? i)

/-- Modelled from the spec: `of_n_addr_cells` (of.h), the address-cell width
determined by the ancestry of the node. -/
def of_n_addr_cells (n : device_node) : Nat := n.n_addr_cells

/-- Modelled from the spec: `for_each_compatible_node` (of.h), the nodes of the
tree that are compatible with the string, in tree order. -/
def for_each_compatible_node (tree : List device_node) (compat : String) : List device_node :=
  tree.filter (fun n => of_device_is_compatible n compat)

/-- The 32-bit big-endian cell number `i` of a buffer (`be32toh(cell[i])`),
`none` when the four bytes are not all inside the buffer. -/
def be32 (p : Bytes) (i : Nat) : Option Nat :=
  match p.drop (4 * i) with
  | b0 :: b1 :: b2 :: b3 :: _ =>
    some ((((b0 % 256) * 256 + b1 % 256) * 256 + b2 % 256) * 256 + b3 % 256)
  | _ => none

/-- The loop of `of_read_number`: `while (size--) r = (r << 32) | be32toh(*(cell++))`
on a `uint64_t r`, reading from cell `i` on. -/
def of_read_number_loop (p : Bytes) : Nat → Nat → Nat → Option Nat
  | _, 0, r => some r
  | i, size + 1, r =>
    match be32 p i with
    | none => none
    | some c => of_read_number_loop p (i + 1) size (((r * 2 ^ 32) % 2 ^ 64) ||| c)

/-- Modelled from the spec: `of_read_number(&cell[i], size)` (of.h), "decodes
multi-cell big-endian integers into host-order 32/64-bit values"; `none` when
a cell read lies outside the buffer. -/
def of_read_number (p : Bytes) (i : Nat) (size : Nat) : Option Nat :=
  of_read_number_loop p i size 0

/-- The C string that starts a buffer: the bytes before the first NUL, `none`
when the buffer holds no NUL. -/
def c_string : Bytes → Option Bytes
  | [] => none
  | b :: rest => if b = 0 then some [] else (c_string rest).map (fun s => b :: s)

/-- The bytes of a string literal of the source. -/
def lit (s : String) : Bytes := s.data.map Char.toNat

/-- The libc function `strstr` on two C strings: the tail of the haystack from
the first occurrence of the needle on, `none` (NULL) when there is none. -/
def strstr : Bytes → Bytes → Option Bytes
  | [], needle => if needle = [] then some [] else none
  | b :: rest, needle =>
    if needle.isPrefixOf (b :: rest) then some (b :: rest) else strstr rest needle


/-! ## Data of `fman.h` -/

/-- The constants and enumerators of fman.h that fman.c uses; the header is
not among the sources, so every definition below takes them as a parameter. -/
structure fman_h where
  /-- enumerator `fman_offline` of `enum fman_mac_type` -/
  fman_offline : Nat
  /-- enumerator `fman_mac_1g` of `enum fman_mac_type` -/
  fman_mac_1g : Nat
  /-- enumerator `fman_mac_10g` of `enum fman_mac_type` -/
  fman_mac_10g : Nat
  FMAN_IP_REV_1 : Nat
  FMAN_IP_REV_1_MAJOR_MASK : Nat
  FMAN_IP_REV_1_MAJOR_SHIFT : Nat
  FMAN_V3 : Nat
  FMAN_V3_CONTEXTA_EN_A2V : Nat
  FMAN_V3_CONTEXTA_EN_OVOM : Nat
  FMAN_V3_CONTEXTA_EN_EBD : Nat

/-- The value of `sizeof(phandle)`, one 32-bit cell. -/
def sizeof_phandle : Nat := 4
/-- The value of `ETHER_ADDR_LEN`. -/
def ETHER_ADDR_LEN : Nat := 6
/-- The value of `PATH_MAX`. -/
def PATH_MAX : Nat := 4096

/-- Modelled from the spec: `struct fman_if_bpool` (fman.h), "pool id; buffer
count; buffer size; base address"; `bpid` is 32 bits wide, the others 64. -/
structure fman_if_bpool where
  bpid : Nat
  count : Nat
  size : Nat
  addr : Nat
deriving DecidableEq, Repr

/-- Modelled from the spec: `struct fman_if` (fman.h), the fields fman.c
writes.  `fman_idx` and `mac_idx` are 8 bits wide, `tx_channel_id` 16, the
four frame queue ids 32; `mac_type` holds a value of `enum fman_mac_type`. -/
structure fman_if where
  fman_idx : Nat
  mac_type : Nat
  is_memac : Int
  is_rgmii : Int
  mac_idx : Nat
  mac_addr : Bytes
  tx_channel_id : Nat
  fqid_rx_def : Nat
  fqid_rx_err : Nat
  fqid_tx_err : Nat
  fqid_tx_confirm : Nat
  bpool_list : List fman_if_bpool
deriving DecidableEq, Repr

/-- Modelled from the spec: `struct __fman_if` (fman.h), the public `fman_if`
with the node path and the two register-window mappings. -/
structure __fman_if where
  __if : fman_if
  node_path : String
  regs_size : Nat
  ccsr_map : Nat
  bmi_map : Nat
deriving DecidableEq, Repr

/-- The object after `memset(__if, 0, sizeof(*__if))` and
`INIT_LIST_HEAD(&__if->__if.bpool_list)`. -/
def __fman_if.zeroed : __fman_if :=
  { __if := { fman_idx := 0, mac_type := 0, is_memac := 0, is_rgmii := 0, mac_idx := 0,
              mac_addr := List.replicate ETHER_ADDR_LEN 0, tx_channel_id := 0,
              fqid_rx_def := 0, fqid_rx_err := 0, fqid_tx_err := 0, fqid_tx_confirm := 0,
              bpool_list := [] },
    node_path := "", regs_size := 0, ccsr_map := 0, bmi_map := 0 }

/-! ## The environment of the process -/

/-- The result of an `mmap` call; `errno` is positive after a failure. -/
inductive mmap_result where
  | MAP_FAILED (errno : ℕ+)
  | mapped (addr : Nat)

/-- The pointer value an `mmap` call returns, `(void *)-1` for `MAP_FAILED`. -/
def mmap_result.ptr : mmap_result → Nat
  | .MAP_FAILED _ => 2 ^ 64 - 1
  | .mapped addr => addr

/-- What the code can observe of its environment: the hardware description
tree, the result of opening the device path, the result of each `mmap`
(length, descriptor, offset), the register contents, and whether the
allocation made after `n` earlier ones succeeds. -/
structure World where
  tree : List device_node
  open_ : Option Nat
  mmap : Nat → Int → Nat → mmap_result
  in_be32 : Nat → Nat
  rte_malloc : Nat → Bool

/-- The system and register operations the code performs, in order. -/
inductive Event where
  | open_
  | close (fd : Int)
  | mmap (length : Nat) (fd : Int) (offset : Nat)
  | munmap (addr : Nat) (length : Nat)
  | in_be32 (addr : Nat)
  | out_be32 (val : Nat) (addr : Nat)
deriving DecidableEq, Repr

/-- The file-scope variables of fman.c, followed by two records of the run:
the number of allocations made so far and the operations performed so far. -/
structure Globals where
  fman_ccsr_map : Nat
  fman_ip_rev : Nat
  get_once : Int
  fman_dealloc_bufs_mask_hi : Nat
  fman_dealloc_bufs_mask_lo : Nat
  fman_ccsr_map_fd : Int
  __ifs : List __fman_if
  heap_allocs : Nat
  log : List Event
deriving DecidableEq, Repr

/-- The variables as initialised at program start: `fman_ccsr_map_fd = -1`,
an empty `__ifs`, everything else zero. -/
def Globals.init : Globals :=
  { fman_ccsr_map := 0, fman_ip_rev := 0, get_once := 0, fman_dealloc_bufs_mask_hi := 0,
    fman_dealloc_bufs_mask_lo := 0, fman_ccsr_map_fd := -1, __ifs := [], heap_allocs := 0,
    log := [] }

/-! ## Control flow -/

/-- How a piece of code ends: it runs to its end with a value, it jumps to the
label `err` with `_errno` set, a failed `assert` aborts the process, or it
reads outside an object. -/
inductive Result (α : Type) where
  | ok (a : α) (g : Globals)
  | err (_errno : Int) (g : Globals)
  | abort
  | undefined
deriving DecidableEq, Repr

/-- A piece of code acting on the file-scope variables. -/
def M (α : Type) : Type := Globals → Result α

/-- Sequential composition: the second piece runs only when the first runs to
its end. -/
def M.bind {α β : Type} (m : M α) (f : α → M β) : M β := fun g =>
  match m g with
  | .ok a g1 => f a g1
  | .err e g1 => .err e g1
  | .abort => .abort
  | .undefined => .undefined

instance : Monad M where
  pure a := fun g => .ok a g
  bind := M.bind

/-- The statements `_errno = rc; goto err`. -/
def goto_err {α : Type} (rc : Int) : M α := fun g => .err rc g

/-- Modelled from the spec: the macro `FMAN_ERR(cond, rc, fmt, ...)` of fman.h
(not among the sources), "any failure returns the failure to the caller".
As fman.c uses it, with the label `err` that returns `_errno`: when `cond`
holds it sets `_errno = rc`, prints the message and jumps to `err`. -/
def FMAN_ERR (cond : Bool) (rc : Int) : M Unit :=
  if cond then goto_err rc else pure ()

/-- The macro `assert` (assert.h). -/
def assert (c : Bool) : M Unit := fun g => if c then .ok () g else .abort

/-- A read outside an object or through a null pointer. -/
def undefined {α : Type} : M α := fun _ => .undefined

/-- Read the file-scope variables. -/
def getG : M Globals := fun g => .ok g g

/-- Write the file-scope variables. -/
def modifyG (f : Globals → Globals) : M Unit := fun g => .ok () (f g)

/-- The call `rte_malloc(NULL, size, RTE_CACHE_LINE_SIZE)`: whether the result
is non-null. -/
def rte_malloc (W : World) : M Bool := fun g =>
  .ok (W.rte_malloc g.heap_allocs) { g with heap_allocs := g.heap_allocs + 1 }

/-- The call `mmap(NULL, length, PROT_READ | PROT_WRITE, MAP_SHARED,
fman_ccsr_map_fd, offset)`. -/
def mmap (W : World) (length offset : Nat) : M mmap_result := fun g =>
  .ok (W.mmap length g.fman_ccsr_map_fd offset)
    { g with log := g.log ++ [Event.mmap length g.fman_ccsr_map_fd offset] }

/-- The call `munmap(addr, length)`. -/
def munmap (addr length : Nat) : M Unit :=
  modifyG (fun g => { g with log := g.log ++ [Event.munmap addr length] })

/-- The register read `in_be32(addr)`. -/
def in_be32 (W : World) (addr : Nat) : M Nat := fun g =>
  .ok (W.in_be32 addr) { g with log := g.log ++ [Event.in_be32 addr] }

/-- The register write `out_be32(addr, val)`. -/
def out_be32 (addr val : Nat) : M Unit :=
  modifyG (fun g => { g with log := g.log ++ [Event.out_be32 val addr] })


/-! ## fman.c -/

/-- The function `fman_get_ip_rev` of fman.c; the value is the returned `int`. -/
def fman_get_ip_rev (W : World) (H : fman_h) (fman_node : device_node) : M Int := do
  let some fman_addr := fman_node.reg | pure (-EINVAL)
  let regs_size := fman_addr.size
  let phys_addr := fman_addr.phys
  if phys_addr == 0 then
    pure (-EINVAL)
  else
    let m ← mmap W regs_size phys_addr
    modifyG (fun g => { g with fman_ccsr_map := m.ptr })
    match m with
    | .MAP_FAILED _ => pure (-EINVAL)
    | .mapped fman_ccsr_map =>
      let ip_rev_1 ← in_be32 W (fman_ccsr_map + H.FMAN_IP_REV_1)
      modifyG (fun g => { g with
        fman_ip_rev :=
          ((ip_rev_1 &&& H.FMAN_IP_REV_1_MAJOR_MASK) >>> H.FMAN_IP_REV_1_MAJOR_SHIFT) % 2 ^ 16 })
      munmap fman_ccsr_map regs_size
      pure 0

/-- One round of the `while (lenp)` loop of `fman_if_init`: the pool object
built from cell `i` of the "fsl,bman-buffer-pools" property. -/
def fman_if_init_bpool (W : World) (mac_node : device_node) (pools_phandle : Bytes)
    (i : Nat) : M fman_if_bpool := do
  let bpool ← rte_malloc W
  FMAN_ERR (!bpool) (-ENOMEM)
  let some ph := be32 pools_phandle i | undefined
  let some pool_node := of_find_node_by_phandle W.tree ph | goto_err (- ENXIO)
  let some prop := of_get_property pool_node "fsl,bpid" | goto_err (-EINVAL)
  assert (prop.length == 4)
  let na := of_n_addr_cells mac_node
  let some bpid_host := of_read_number prop 0 na | undefined
  let bpid := bpid_host % 2 ^ 32
  let prop :=
    match of_get_property pool_node "fsl,bpool-cfg" with
    | some prop => some prop
    | none => of_get_property pool_node "fsl,bpool-ethernet-cfg"
  match prop with
  | none => pure { bpid := bpid, count := 0, size := 0, addr := 0 }
  | some prop =>
    assert (prop.length == 6 * 4)
    let na := of_n_addr_cells mac_node
    let some h0 := of_read_number prop 0 na | undefined
    let some h1 := of_read_number prop 1 na | undefined
    let some h2 := of_read_number prop 2 na | undefined
    let some h3 := of_read_number prop 3 na | undefined
    let some h4 := of_read_number prop 4 na | undefined
    let some h5 := of_read_number prop 5 na | undefined
    pure { bpid := bpid,
           count := ((h0 * 2 ^ 32) % 2 ^ 64) ||| h1,
           size := ((h2 * 2 ^ 32) % 2 ^ 64) ||| h3,
           addr := ((h4 * 2 ^ 32) % 2 ^ 64) ||| h5 }

/-- The `while (lenp)` loop of `fman_if_init`.  After the `assert` before it
`lenp` is a multiple of `sizeof(phandle)`, so with `lenp -= sizeof(phandle)`
in each round the loop makes `lenp / sizeof(phandle)` rounds; the first
argument is the number of rounds left, the second the cell `pools_phandle`
points to. -/
def fman_if_init_bpools (W : World) (mac_node : device_node) (pools_phandle : Bytes) :
    Nat → Nat → __fman_if → M __fman_if
  | 0, _, __if => pure __if
  | rounds + 1, i, __if => do
    let bpool ← fman_if_init_bpool W mac_node pools_phandle i
    fman_if_init_bpools W mac_node pools_phandle rounds (i + 1)
      { __if with __if := { __if.__if with bpool_list := __if.__if.bpool_list ++ [bpool] } }


/-- The statements of `fman_if_init` from the allocation of `__if` to the
setting of the two dealloc masks.  The value is the MAC node, the register
offset `regs_addr_host` and the object `*__if` as filled so far. -/
def fman_if_init_head (W : World) (H : fman_h) (dpa_node : device_node) :
    M (device_node × Nat × __fman_if) := do
  let mprop := "fsl,fman-mac"
  /- Allocate an object for this network interface.  When the allocation
  fails the code jumps to `err`, where `if_destructor` reads through the
  null pointer. -/
  let allocated ← rte_malloc W
  (if !allocated then undefined else pure ())
  let __if : __fman_if :=
    { __fman_if.zeroed with node_path := ⟨dpa_node.full_name.data.take (PATH_MAX - 1)⟩ }
  /- Obtain the MAC node used by this interface -/
  let some mac_phandle := of_get_property dpa_node mprop | goto_err (-EINVAL)
  assert (mac_phandle.length == sizeof_phandle)
  let some ph := be32 mac_phandle 0 | undefined
  let some mac_node := of_find_node_by_phandle W.tree ph | goto_err (- ENXIO)
  /- Map the CCSR regs for the MAC node -/
  let some regs_addr := mac_node.reg | goto_err (-EINVAL)
  let __if := { __if with regs_size := regs_addr.size }
  let phys_addr := regs_addr.phys
  FMAN_ERR (phys_addr == 0) (-EINVAL)
  let m ← mmap W __if.regs_size phys_addr
  let __if := { __if with ccsr_map := m.ptr }
  (match m with
   | .MAP_FAILED errno => goto_err (-(errno : Int))
   | .mapped _ => pure ())
  let na := of_n_addr_cells mac_node
  let some regs_addr_host := of_read_number regs_addr.addr 0 na | undefined
  /- Get the index of the Fman this i/f belongs to -/
  let some fman_node := of_get_parent W.tree mac_node | goto_err (- ENXIO)
  let some cell_idx := of_get_property fman_node "cell-index" | goto_err (- ENXIO)
  assert (cell_idx.length == 4)
  let some cell_idx_host := of_read_number cell_idx 0 (cell_idx.length / sizeof_phandle) | undefined
  let __if := { __if with __if := { __if.__if with fman_idx := cell_idx_host % 2 ^ 8 } }
  let g ← getG
  (if g.get_once == 0 then do
     let _errno ← fman_get_ip_rev W H fman_node
     FMAN_ERR (_errno != 0) (- ENXIO)
   else pure ())
  let g ← getG
  (if g.fman_ip_rev ≥ H.FMAN_V3 then
     /- Set A2V, OVOM, EBD bits in contextA to allow external buffer
     deallocation by fman. -/
     modifyG (fun g => { g with
       fman_dealloc_bufs_mask_hi :=
         (H.FMAN_V3_CONTEXTA_EN_A2V ||| H.FMAN_V3_CONTEXTA_EN_OVOM) % 2 ^ 32,
       fman_dealloc_bufs_mask_lo := H.FMAN_V3_CONTEXTA_EN_EBD % 2 ^ 32 })
   else
     modifyG (fun g => { g with fman_dealloc_bufs_mask_hi := 0, fman_dealloc_bufs_mask_lo := 0 }))
  pure (mac_node, regs_addr_host, __if)

/-- The statements of `fman_if_init` under "Is the MAC node 1G, 10G?", from
`__if->__if.is_memac = 0` to `FMAN_ERR(1, -EINVAL, "%s: unknown MAC type\n", mname)`.
The value is the object `*__if` after them. -/
def fman_if_init_mac_type (H : fman_h) (mac_node : device_node) (__if : __fman_if) :
    M __fman_if :=
  let __if := { __if with __if := { __if.__if with is_memac := 0 } }
  if of_device_is_compatible mac_node "fsl,fman-1g-mac" then
    pure { __if with __if := { __if.__if with mac_type := H.fman_mac_1g } }
  else if of_device_is_compatible mac_node "fsl,fman-10g-mac" then
    pure { __if with __if := { __if.__if with mac_type := H.fman_mac_10g } }
  else if of_device_is_compatible mac_node "fsl,fman-memac" then
    let __if := { __if with __if := { __if.__if with is_memac := 1 } }
    match of_get_property mac_node "phy-connection-type" with
    | none =>
      /- Right now forcing memac to 1g in case of error -/
      pure { __if with __if := { __if.__if with mac_type := H.fman_mac_1g } }
    | some char_prop =>
      match c_string char_prop with
      | none => undefined
      | some char_prop =>
        if (strstr char_prop (lit "sgmii")).isSome then
          pure { __if with __if := { __if.__if with mac_type := H.fman_mac_1g } }
        else if (strstr char_prop (lit "rgmii")).isSome then
          pure { __if with __if := { __if.__if with mac_type := H.fman_mac_1g, is_rgmii := 1 } }
        else if (strstr char_prop (lit "xgmii")).isSome then
          pure { __if with __if := { __if.__if with mac_type := H.fman_mac_10g } }
        else
          pure __if
  else
    goto_err (-EINVAL)

/-- The statements of `fman_if_init` from the call of `fman_get_mac_index` to
the end of the pool loop.  The value is the object `*__if` that is then added
to the list. -/
def fman_if_init_tail (W : World) (dpa_node mac_node : device_node) (regs_addr_host : Nat)
    (__if : __fman_if) : M __fman_if := do
  let rprop := "fsl,qman-frame-queues-rx"
  /- Deduce the index from the address of the port -/
  let r := fman_get_mac_index regs_addr_host __if.__if.mac_idx
  let __if := { __if with __if := { __if.__if with mac_idx := r.2 } }
  FMAN_ERR (r.1 != 0) (-EINVAL)
  /- Extract the MAC address for private and shared interfaces -/
  let some mac_addr := of_get_property mac_node "local-mac-address" | goto_err (-EINVAL)
  (if mac_addr.length < ETHER_ADDR_LEN then undefined else pure ())
  let __if := { __if with __if := { __if.__if with mac_addr := mac_addr.take ETHER_ADDR_LEN } }
  /- Extract the Tx port (the second of the two port handles) and its channel ID -/
  let some ports_phandle := of_get_property mac_node "fsl,port-handles" | goto_err (-EINVAL)
  assert (ports_phandle.length == 2 * sizeof_phandle)
  let some ph1 := be32 ports_phandle 1 | undefined
  let some tx_node := of_find_node_by_phandle W.tree ph1 | goto_err (- ENXIO)
  let some tx_channel_id := of_get_property tx_node "fsl,qman-channel-id" | goto_err (-EINVAL)
  let lenp := tx_channel_id.length
  let some ph0 := be32 ports_phandle 0 | undefined
  let some rx_node := of_find_node_by_phandle W.tree ph0 | goto_err (- ENXIO)
  let some regs_addr := rx_node.reg | goto_err (-EINVAL)
  let __if := { __if with regs_size := regs_addr.size }
  let phys_addr := regs_addr.phys
  FMAN_ERR (phys_addr == 0) (-EINVAL)
  let m ← mmap W __if.regs_size phys_addr
  let __if := { __if with bmi_map := m.ptr }
  (match m with
   | .MAP_FAILED errno => goto_err (-(errno : Int))
   | .mapped _ => pure ())
  /- No channel ID for MAC-less -/
  assert (lenp == 4)
  let na := of_n_addr_cells mac_node
  let some tx_channel_id_host := of_read_number tx_channel_id 0 na | undefined
  let __if :=
    { __if with __if := { __if.__if with tx_channel_id := tx_channel_id_host % 2 ^ 16 } }
  /- Extract the Rx FQIDs -/
  let some rx_phandle := of_get_property dpa_node rprop | goto_err (-EINVAL)
  assert (rx_phandle.length == 4 * sizeof_phandle)
  let na := of_n_addr_cells mac_node
  let some rx0 := of_read_number rx_phandle 0 na | undefined
  let some rx1 := of_read_number rx_phandle 1 na | undefined
  let some rx2 := of_read_number rx_phandle 2 na | undefined
  let some rx3 := of_read_number rx_phandle 3 na | undefined
  assert (rx1 == 1 && rx3 == 1)
  let __if := { __if with __if := { __if.__if with
    fqid_rx_err := rx0 % 2 ^ 32, fqid_rx_def := rx2 % 2 ^ 32 } }
  /- Extract the Tx FQIDs -/
  let some tx_phandle := of_get_property dpa_node "fsl,qman-frame-queues-tx" | goto_err (-EINVAL)
  assert (tx_phandle.length == 4 * sizeof_phandle)
  let na := of_n_addr_cells mac_node
  let some tx0 := of_read_number tx_phandle 0 na | undefined
  let some tx1 := of_read_number tx_phandle 1 na | undefined
  let some tx2 := of_read_number tx_phandle 2 na | undefined
  let some tx3 := of_read_number tx_phandle 3 na | undefined
  assert (tx1 == 1 && tx3 == 1)
  let __if := { __if with __if := { __if.__if with
    fqid_tx_err := tx0 % 2 ^ 32, fqid_tx_confirm := tx2 % 2 ^ 32 } }
  /- Obtain the buffer pool nodes used by this interface -/
  let some pools_phandle := of_get_property dpa_node "fsl,bman-buffer-pools" | goto_err (-EINVAL)
  let lenp := pools_phandle.length
  assert (lenp != 0 && lenp % sizeof_phandle == 0)
  fman_if_init_bpools W mac_node pools_phandle (lenp / sizeof_phandle) 0 __if

/-- The body of `fman_if_init` from the allocation of `__if` to the end of the
pool loop: it ends with the interface that is then added to the list, or at
the label `err`. -/
def fman_if_init_body (W : World) (H : fman_h) (dpa_node : device_node) : M __fman_if := do
  let (mac_node, regs_addr_host, __if) ← fman_if_init_head W H dpa_node
  let __if ← fman_if_init_mac_type H mac_node __if
  fman_if_init_tail W dpa_node mac_node regs_addr_host __if

/-- The function `fman_if_init` of fman.c; the value is the returned `int`.
At the label `err` the object is freed by `if_destructor` and `_errno` is
returned. -/
def fman_if_init (W : World) (H : fman_h) (dpa_node : device_node) : M Int := fun g =>
  if of_device_is_available dpa_node == false then .ok 0 g
  else
    match fman_if_init_body W H dpa_node g with
    | .ok __if g1 => .ok 0 { g1 with __ifs := g1.__ifs ++ [__if] }
    | .err _errno g1 => .ok _errno g1
    | .abort => .abort
    | .undefined => .undefined

/-- The loop `list_for_each_entry_safe(__if, tmpif, &__ifs, __if.node)` of
`fman_finish`, over the entries the list holds when the loop starts; each
round ends with `list_del` of the entry, which is the first of the list. -/
def fman_finish_loop (W : World) (H : fman_h) : List __fman_if → M Unit
  | [] => pure ()
  | __if :: rest => do
    /- disable Rx and Tx -/
    (if __if.__if.mac_type == H.fman_mac_1g && __if.__if.is_memac == 0 then do
       let v ← in_be32 W (__if.ccsr_map + 0x100)
       out_be32 (__if.ccsr_map + 0x100) (v &&& (2 ^ 32 - 1 - 0x5))
     else do
       let v ← in_be32 W (__if.ccsr_map + 8)
       out_be32 (__if.ccsr_map + 8) (v &&& (2 ^ 32 - 1 - 3)))
    /- release the mapping -/
    munmap __if.ccsr_map __if.regs_size
    modifyG (fun g => { g with __ifs := g.__ifs.tail })
    fman_finish_loop W H rest

/-- The function `fman_finish` of fman.c. -/
def fman_finish (W : World) (H : fman_h) : M Unit := do
  let g ← getG
  assert (g.fman_ccsr_map_fd != -1)
  fman_finish_loop W H g.__ifs
  modifyG (fun g => { g with log := g.log ++ [Event.close g.fman_ccsr_map_fd] })
  modifyG (fun g => { g with fman_ccsr_map_fd := -1 })

/-- The loop `for_each_compatible_node(dpa_node, NULL, "fsl,dpa-ethernet-init")`
of `fman_init`. -/
def fman_init_loop (W : World) (H : fman_h) : List device_node → M Unit
  | [] => pure ()
  | dpa_node :: rest => do
    let _errno ← fman_if_init W H dpa_node
    FMAN_ERR (_errno != 0) _errno
    fman_init_loop W H rest

/-- The function `fman_init` of fman.c; the value is the returned `int`. -/
def fman_init (W : World) (H : fman_h) : M Int := fun g =>
  /- If multiple dependencies try to initialise the Fman driver, don't panic. -/
  if g.fman_ccsr_map_fd != -1 then .ok 0 g
  else
    let fd : Int := match W.open_ with
      | some fd => fd
      | none => -1
    let g1 := { g with fman_ccsr_map_fd := fd, log := g.log ++ [Event.open_] }
    if fd < 0 then .ok fd g1
    else
      match fman_init_loop W H (for_each_compatible_node W.tree "fsl,dpa-ethernet-init") g1 with
      | .ok _ g2 => .ok 0 g2
      | .err _errno g2 =>
        match fman_finish W H g2 with
        | .ok _ g3 => .ok _errno g3
        | .err e g3 => .err e g3
        | .abort => .abort
        | .undefined => .undefined
      | .abort => .abort
      | .undefined => .undefined


/-- The returned value of a piece of code that ran to its end. -/
def Result.value {α : Type} : Result α → Option α
  | .ok a _ => some a
  | _ => none

/-- The file-scope variables after a piece of code ran to its end or jumped to
the label `err`. -/
def Result.globals {α : Type} : Result α → Option Globals
  | .ok _ g => some g
  | .err _ g => some g
  | _ => none

/-! ## Properties of pieces of code -/

/-- The second state has the list `__ifs`, the descriptor `fman_ccsr_map_fd`
and the flag `get_once` of the first. -/
def same_registry (g g1 : Globals) : Prop :=
  g1.__ifs = g.__ifs ∧ g1.fman_ccsr_map_fd = g.fman_ccsr_map_fd ∧ g1.get_once = g.get_once

/-- A result reached from `g` that is either an abort, an undefined read, or
a state with the `__ifs`, `fman_ccsr_map_fd` and `get_once` of `g`, and whose
`_errno` is non-zero when it is a jump to `err`. -/
def ends_well {α : Type} (g : Globals) : Result α → Prop
  | .ok _ g1 => same_registry g g1
  | .err e g1 => same_registry g g1 ∧ e ≠ 0
  | .abort => True
  | .undefined => True

/-- The piece of code leaves `__ifs`, `fman_ccsr_map_fd` and `get_once` alone
on every way to its end or to the label `err`, and jumps to `err` only with a
non-zero `_errno`. -/
structure Frame {α : Type} (m : M α) : Prop where
  ends : ∀ g, ends_well g (m g)

/-- Every value with which the piece of code runs to its end satisfies `Q`. -/
structure Post {α : Type} (m : M α) (Q : α → Prop) : Prop where
  out : ∀ g a g1, m g = .ok a g1 → Q a

/-- What `fman_if_init_head` needs of the tree to reach its end with the MAC
node `mac_node`: the "fsl,fman-mac" phandle resolves to it, its register bank
exists and translates, and its parent has a "cell-index". -/
def head_requirements (W : World) (n mac_node : device_node) : Prop :=
  ∃ mac_phandle ph regs fman_node cell_idx,
    of_get_property n "fsl,fman-mac" = some mac_phandle ∧
    be32 mac_phandle 0 = some ph ∧
    of_find_node_by_phandle W.tree ph = some mac_node ∧
    mac_node.reg = some regs ∧ (regs.phys == 0) = false ∧
    of_get_parent W.tree mac_node = some fman_node ∧
    of_get_property fman_node "cell-index" = some cell_idx

/-- What `fman_if_init_tail` needs of the tree to reach the pool loop: the
MAC address, the two port handles and the nodes they resolve to, the channel
id of the Tx port, the translated register bank of the Rx port and the two
frame queue properties. -/
def tail_requirements (W : World) (n mac_node : device_node) : Prop :=
  ∃ mac_addr ports ph1 tx_node chan ph0 rx_node regs rxq txq,
    of_get_property mac_node "local-mac-address" = some mac_addr ∧
    of_get_property mac_node "fsl,port-handles" = some ports ∧
    be32 ports 1 = some ph1 ∧ of_find_node_by_phandle W.tree ph1 = some tx_node ∧
    of_get_property tx_node "fsl,qman-channel-id" = some chan ∧
    be32 ports 0 = some ph0 ∧ of_find_node_by_phandle W.tree ph0 = some rx_node ∧
    rx_node.reg = some regs ∧ (regs.phys == 0) = false ∧
    of_get_property n "fsl,qman-frame-queues-rx" = some rxq ∧
    of_get_property n "fsl,qman-frame-queues-tx" = some txq

/-! ## A small hardware description -/

/-- The header used in the examples: the enumerators of `enum fman_mac_type`
numbered 0, 1, 2 in the order `fman_offline`, `fman_mac_1g`, `fman_mac_10g`,
the major revision in bits 8 to 15 of the revision word, and 3 for `FMAN_V3`. -/
def hdr : fman_h :=
  { fman_offline := 0, fman_mac_1g := 1, fman_mac_10g := 2,
    FMAN_IP_REV_1 := 0xC30C4, FMAN_IP_REV_1_MAJOR_MASK := 0x0000FF00,
    FMAN_IP_REV_1_MAJOR_SHIFT := 8, FMAN_V3 := 3,
    FMAN_V3_CONTEXTA_EN_A2V := 0x10000000, FMAN_V3_CONTEXTA_EN_OVOM := 0x02000000,
    FMAN_V3_CONTEXTA_EN_EBD := 0x80000000 }

/-- The four bytes of a 32-bit cell, most significant first. -/
def cell (v : Nat) : Bytes := [v / 2 ^ 24 % 256, v / 2 ^ 16 % 256, v / 2 ^ 8 % 256, v % 256]

/-- A node with nothing but a path. -/
def node0 (path : String) : device_node :=
  { full_name := path, available := true, compatible := [], properties := [],
    phandle := none, parent := none, n_addr_cells := 1, reg := none }

/-- The controller node. -/
def ex_fman : device_node :=
  { node0 "/soc/fman@400000" with
    properties := [("cell-index", cell 0)],
    reg := some { addr := cell 0x400000, size := 0x100000, phys := 0x1a00000 } }

/-- A MAC node at register offset `off` with phandle `ph` and the given
compatibility string and PHY connection type. -/
def ex_mac (off ph : Nat) (compat : String) (phy : Option Bytes) : device_node :=
  { node0 "/soc/fman@400000/ethernet" with
    compatible := [compat], phandle := some ph, parent := some 0,
    reg := some { addr := cell off, size := 0x1000, phys := 0x1a00000 + off },
    properties :=
      [("local-mac-address", [0, 4, 159, 1, 2, ph]),
       ("fsl,port-handles", cell 10 ++ cell 11)] ++
      (match phy with
       | some s => [("phy-connection-type", s)]
       | none => []) }

/-- The receive port node. -/
def ex_rx_port : device_node :=
  { node0 "/soc/fman@400000/port@88000" with
    phandle := some 10, parent := some 0,
    reg := some { addr := cell 0x88000, size := 0x1000, phys := 0x1a88000 } }

/-- The transmit port node. -/
def ex_tx_port : device_node :=
  { node0 "/soc/fman@400000/port@a8000" with
    phandle := some 11, parent := some 0,
    properties := [("fsl,qman-channel-id", cell 0x802)] }

/-- A buffer pool node with a 6-cell configuration. -/
def ex_pool : device_node :=
  { node0 "/bp7" with
    phandle := some 20,
    properties := [("fsl,bpid", cell 7),
                   ("fsl,bpool-ethernet-cfg", cell 0 ++ cell 0 ++ cell 0 ++ cell 1728 ++
                      cell 0 ++ cell 0)] }

/-- A network node that refers to the MAC with phandle `mac`. -/
def ex_dpa (path : String) (mac : Nat) (avail : Bool) : device_node :=
  { node0 path with
    available := avail, compatible := ["fsl,dpa-ethernet-init"],
    properties :=
      [("fsl,fman-mac", cell mac),
       ("fsl,qman-frame-queues-rx", cell 0x50 ++ cell 1 ++ cell 0x51 ++ cell 1),
       ("fsl,qman-frame-queues-tx", cell 0x52 ++ cell 1 ++ cell 0x53 ++ cell 1),
       ("fsl,bman-buffer-pools", cell 20)] }

/-- The environment around a tree: the device opens as descriptor 3, every
mapping succeeds at its own offset, the revision register reads `0x0603`,
every allocation succeeds. -/
def ex_world (tree : List device_node) : World :=
  { tree := tree, open_ := some 3, mmap := fun _ _ offset => .mapped offset,
    in_be32 := fun _ => 0x0603, rte_malloc := fun _ => true }

/-- Two available network nodes at offsets `0xE0000` and `0xE2000` and one
unavailable node between them. -/
def ex_tree : List device_node :=
  [ex_fman, ex_mac 0xE0000 1 "fsl,fman-memac" (some (lit "sgmii" ++ [0])),
   ex_mac 0xE2000 2 "fsl,fman-1g-mac" none, ex_rx_port, ex_tx_port, ex_pool,
   ex_dpa "/fsl,dpaa/ethernet@0" 1 true, ex_dpa "/fsl,dpaa/ethernet@9" 1 false,
   ex_dpa "/fsl,dpaa/ethernet@1" 2 true]

/-- A network node that has the MAC reference and nothing else: the frame
queue properties are absent. -/
def ex_dpa_bad (path : String) (mac : Nat) : device_node :=
  { ex_dpa path mac true with properties := [("fsl,fman-mac", cell mac)] }

/-- One well-formed network node followed by one without frame queues. -/
def ex_tree_bad : List device_node :=
  [ex_fman, ex_mac 0xE0000 1 "fsl,fman-memac" (some (lit "sgmii" ++ [0])),
   ex_mac 0xE2000 2 "fsl,fman-1g-mac" none, ex_rx_port, ex_tx_port, ex_pool,
   ex_dpa "/fsl,dpaa/ethernet@0" 1 true, ex_dpa_bad "/fsl,dpaa/ethernet@1" 2]

/-- The state in which the descriptor has just been opened as descriptor 3. -/
def ex_opened : Globals :=
  { Globals.init with fman_ccsr_map_fd := 3, log := [Event.open_] }

/-- The state after `fman_init` on `ex_tree` from the initial state. -/
def ex_bound : Globals :=
  match fman_init (ex_world ex_tree) hdr Globals.init with
  | .ok _ g => g
  | _ => Globals.init

/-- The state after `fman_if_init` on a node of a tree, or the initial state
when the call does not return. -/
def ex_after (tree : List device_node) (n : device_node) (g : Globals) : Globals :=
  ((fman_if_init (ex_world tree) hdr n g).globals).getD Globals.init

/-- The network node "/fsl,dpaa/ethernet@0" of the examples below. -/
def ex_dpa0 : device_node := ex_dpa "/fsl,dpaa/ethernet@0" 1 true

/-- A tree with one network node, whose MAC node has the given compatibility
string and PHY connection type. -/
def ex_tree_mac (compat : String) (phy : Option Bytes) : List device_node :=
  [ex_fman, ex_mac 0xE0000 1 compat phy, ex_rx_port, ex_tx_port, ex_pool, ex_dpa0]

/-- The interfaces in `__ifs` after `fman_if_init` on the one network node of
`ex_tree_mac`. -/
def ex_bound_mac (H : fman_h) (compat : String) (phy : Option Bytes) : List __fman_if :=
  match fman_if_init (ex_world (ex_tree_mac compat phy)) H ex_dpa0 ex_opened with
  | .ok _ g => g.__ifs
  | _ => []

/-- The number of reads `in_be32(addr)` of one register among the operations
performed. -/
def register_reads (addr : Nat) (log : List Event) : Nat :=
  log.count (Event.in_be32 addr)

/-! ## Values read from the tree -/

/-- The configuration property of a pool node as the pool loop of
`fman_if_init` chooses it: "fsl,bpool-cfg" when present, otherwise
"fsl,bpool-ethernet-cfg". -/
def bpool_cfg_property (pool_node : device_node) : Option Bytes :=
  match of_get_property pool_node "fsl,bpool-cfg" with
  | some prop => some prop
  | none => of_get_property pool_node "fsl,bpool-ethernet-cfg"

/-- A buffer pool node with pool id 7 and the given further properties. -/
def ex_pool_with (props : List (String × Bytes)) : device_node :=
  { node0 "/bp7" with phandle := some 20, properties := ("fsl,bpid", cell 7) :: props }

/-- A tree with one network node whose one pool reference resolves to the
given pool node. -/
def ex_tree_pool (pool : device_node) : List device_node :=
  [ex_fman, ex_mac 0xE0000 1 "fsl,fman-1g-mac" none, ex_rx_port, ex_tx_port, pool, ex_dpa0]

/-- A pool configuration of five cells. -/
def ex_cfg5 : Bytes := cell 0 ++ cell 64 ++ cell 0 ++ cell 1728 ++ cell 0

/-- A pool configuration of six cells: count `2 * 2^32 + 64`, size 1728,
address `0x1_0000_2000`. -/
def ex_cfg6 : Bytes := cell 2 ++ cell 64 ++ cell 0 ++ cell 1728 ++ cell 1 ++ cell 0x2000

/-! ## Code over other variables -/

/-- How a function over the variables `σ` ends: it returns a value, a failed
`assert` aborts the process, or it reads or writes outside an object. -/
inductive Run (σ α : Type) where
  | ok (a : α) (s : σ)
  | abort
  | undefined
deriving DecidableEq, Repr

/-- A piece of code acting on the variables `σ`. -/
def Code (σ α : Type) : Type := σ → Run σ α

/-- Sequential composition of pieces of code over `σ`. -/
def Code.bind {σ α β : Type} (m : Code σ α) (f : α → Code σ β) : Code σ β := fun s =>
  match m s with
  | .ok a s1 => f a s1
  | .abort => .abort
  | .undefined => .undefined

instance {σ : Type} : Monad (Code σ) where
  pure a := fun s => .ok a s
  bind := Code.bind

/-- Read the variables. -/
def getS {σ : Type} : Code σ σ := fun s => .ok s s

/-- Write the variables. -/
def modifyS {σ : Type} (f : σ → σ) : Code σ Unit := fun s => .ok () (f s)

/-- A read or write outside an object or through a null pointer. -/
def Code.undefined {σ α : Type} : Code σ α := fun _ => .undefined

/-! ## netcfg_layer.c -/

/-- Modelled from the spec: `struct fm_eth_port_cfg` (netcfg.h, not among the
sources), one entry of the "ordered collection of references into the
registry": `fman_if` points to an entry of the interface list and is given
by the position of that entry, `none` for a null pointer; `rx_def` is the
default receive queue id. -/
structure fm_eth_port_cfg where
  fman_if : Option Nat
  rx_def : Nat
deriving DecidableEq, Repr

/-- Modelled from the spec: `struct netcfg_info` (netcfg.h, not among the
sources), "ordered collection of references into the registry plus a count".
`port_cfg` is the array that ends the allocation; its length is the number of
entries the allocation has room for. -/
structure netcfg_info where
  num_ethports : Nat
  port_cfg : List fm_eth_port_cfg
deriving DecidableEq, Repr

/-- The variables of fman.c together with the file-scope variables `netcfg`
and `skfd` of netcfg_layer.c. -/
structure NetGlobals where
  fman : Globals
  netcfg : Option netcfg_info
  skfd : Int
deriving DecidableEq, Repr

/-- The variables of netcfg_layer.c at program start, `skfd = -1`, around
given variables of fman.c. -/
def NetGlobals.init (g : Globals) : NetGlobals := { fman := g, netcfg := none, skfd := -1 }

/-- A call of `fman_init` from netcfg_layer.c.  No run of `fman_init` ends at
a label, so the case `err` stands for no run of the code. -/
def call_fman_init (W : World) (H : fman_h) : Code NetGlobals Int := fun s =>
  match fman_init W H s.fman with
  | .ok r g => .ok r { s with fman := g }
  | .err _ _ => .undefined
  | .abort => .abort
  | .undefined => .undefined

/-- The configuration `netcfg_acquire` builds on `ex_tree`: two ports, both
with default receive queue `0x51`. -/
def ex_netcfg : netcfg_info :=
  { num_ethports := 2,
    port_cfg := [{ fman_if := some 0, rx_def := 0x51 }, { fman_if := some 1, rx_def := 0x51 }] }

/-- The variables after `netcfg_acquire` on `ex_tree` from program start, when
the socket opens as descriptor 4. -/
def ex_net_bound : NetGlobals :=
  { fman := { ex_bound with heap_allocs := ex_bound.heap_allocs + 1 },
    netcfg := some ex_netcfg, skfd := 4 }

/-! ## Data of `rte_dpaa_bus.h` -/

/-- The constants of rte_dpaa_bus.h that dpaa_bus.c uses, and the widths in
bits of the three number fields of `struct dpaa_device_id`; the header is not
among the sources, so every definition below takes them as a parameter. -/
structure rte_dpaa_bus_h where
  /-- enumerator `FSL_DPAA_ETH` of the device type -/
  FSL_DPAA_ETH : Nat
  /-- enumerator `FSL_DPAA_CRYPTO` of the device type -/
  FSL_DPAA_CRYPTO : Nat
  FSL_DPAA_MAX_CRYPTO_DEV : Nat
  /-- the width of the field `fman_id` -/
  fman_id_bits : Nat
  /-- the width of the field `mac_id` -/
  mac_id_bits : Nat
  /-- the width of the field `dev_id` -/
  dev_id_bits : Nat

/-- Modelled from the spec: `struct dpaa_device_id` (rte_dpaa_bus.h),
"controller id, port id, device-type tag, sequence index". -/
structure dpaa_device_id where
  fman_id : Nat
  mac_id : Nat
  device_type : Nat
  dev_id : Nat
deriving DecidableEq, Repr

/-- Modelled from the spec: `struct rte_dpaa_device` (rte_dpaa_bus.h), the
"bus-visible identity" and the "display name". -/
structure rte_dpaa_device where
  id : dpaa_device_id
  name : String
deriving DecidableEq, Repr

/-- The object that `rte_zmalloc` returns: every field zero, an empty name. -/
def rte_dpaa_device.zeroed : rte_dpaa_device :=
  { id := { fman_id := 0, mac_id := 0, device_type := 0, dev_id := 0 }, name := "" }

/-- The text that `sprintf` writes for a `%d` conversion of a value that is
not negative. -/
def sprintf_d (v : Nat) : String := String.mk (Nat.toDigits 10 v)

/-- The variables that `dpaa_create_device_list` works on: those of fman.c
(the registry that the `fman_if` pointers of the configuration point into,
and the count of allocations), the pointer `dpaa_netcfg`, the device list and
the device count of `rte_dpaa_bus`, and the cell last passed through
`INTL_SEC_ERA` to `rta_set_sec_era` (hw/rta.h is not among the sources). -/
structure BusGlobals where
  fman : Globals
  dpaa_netcfg : Option netcfg_info
  device_list : List rte_dpaa_device
  device_count : Nat
  rta_sec_era : Option Nat
deriving DecidableEq, Repr

/-- The variables of dpaa_bus.c once `dpaa_netcfg = netcfg_acquire()` has
run in `rte_dpaa_bus_scan`: an empty device list, a device count of 0. -/
def BusGlobals.init (s : NetGlobals) : BusGlobals :=
  { fman := s.fman, dpaa_netcfg := s.netcfg, device_list := [], device_count := 0,
    rta_sec_era := none }

/-! ## dpaa_bus.c: the device list -/

/-- The function `dpaa_add_to_device_list`: `TAILQ_INSERT_TAIL`. -/
def dpaa_add_to_device_list (dev : rte_dpaa_device) : Code BusGlobals Unit :=
  modifyS (fun s => { s with device_list := s.device_list ++ [dev] })

/-- The function `dpaa_clean_device_list`: every device is removed from the
list and freed. -/
def dpaa_clean_device_list : Code BusGlobals Unit :=
  modifyS (fun s => { s with device_list := [] })

/-- The call `rte_zmalloc(NULL, sizeof(struct rte_dpaa_device), ...)`; the
value says whether the pointer is not NULL. -/
def rte_zmalloc_device (W : World) : Code BusGlobals Bool := do
  let s ← getS
  modifyS (fun s => { s with fman := { s.fman with heap_allocs := s.fman.heap_allocs + 1 } })
  pure (W.rte_malloc s.fman.heap_allocs)

/-- The function `dpaa_sec_available`: 0 at the first node compatible with
"fsl,sec-v4.0", whose "fsl,sec-era" cell is cached when present; -1 when
there is no such node. -/
def dpaa_sec_available (W : World) : Code BusGlobals Int :=
  match for_each_compatible_node W.tree "fsl,sec-v4.0" with
  | caam_node :: _ => do
    (match of_get_property caam_node "fsl,sec-era" with
     | some prop =>
       (match be32 prop 0 with
        | some era => modifyS (fun s => { s with rta_sec_era := some era })
        | none => Code.undefined)
     | none => pure ())
    pure 0
  | [] => pure (-1)

/-- The loop "Creating Ethernet Devices" of `dpaa_create_device_list` with
`n` iterations to go from index `i`.  The value is `none` when the loop runs
to its end and `some ret` when it leaves by `goto cleanup`. -/
def dpaa_create_eth_devices (W : World) (B : rte_dpaa_bus_h) :
    Nat → Nat → Code BusGlobals (Option Int)
  | 0, _ => pure none
  | n + 1, i => do
    let dev ← rte_zmalloc_device W
    if !dev then
      pure (some (- ENOMEM))
    else do
      let s ← getS
      let some netcfg := s.dpaa_netcfg | Code.undefined
      let some cfg := netcfg.port_cfg.get? i | Code.undefined
      let some p := cfg.fman_if | Code.undefined
      let some fman_intf := s.fman.__ifs.get? p | Code.undefined
      /- Device identifiers, then the device name -/
      dpaa_add_to_device_list
        { id := { fman_id := (fman_intf.__if.fman_idx + 1) % 2 ^ B.fman_id_bits,
                  mac_id := fman_intf.__if.mac_idx % 2 ^ B.mac_id_bits,
                  device_type := B.FSL_DPAA_ETH,
                  dev_id := i % 2 ^ B.dev_id_bits },
          name := "fm" ++ sprintf_d (fman_intf.__if.fman_idx + 1) ++ "-mac" ++
            sprintf_d fman_intf.__if.mac_idx }
      dpaa_create_eth_devices W B n (i + 1)

/-- The loop "Creating SEC Devices" of `dpaa_create_device_list` with `n`
iterations to go from index `i`; the value is as for the first loop. -/
def dpaa_create_sec_devices (W : World) (B : rte_dpaa_bus_h) :
    Nat → Nat → Code BusGlobals (Option Int)
  | 0, _ => pure none
  | n + 1, i => do
    let dev ← rte_zmalloc_device W
    if !dev then
      pure (some (-1))
    else do
      let s ← getS
      dpaa_add_to_device_list
        { rte_dpaa_device.zeroed with
          id := { rte_dpaa_device.zeroed.id with
                  device_type := B.FSL_DPAA_CRYPTO,
                  dev_id := (s.device_count + i) % 2 ^ B.dev_id_bits },
          name := "dpaa-sec" ++ sprintf_d i }
      dpaa_create_sec_devices W B n (i + 1)

/-- The function `dpaa_create_device_list` of dpaa_bus.c. -/
def dpaa_create_device_list (W : World) (B : rte_dpaa_bus_h) : Code BusGlobals Int := do
  let s ← getS
  let some netcfg := s.dpaa_netcfg | Code.undefined
  /- Creating Ethernet Devices -/
  let ret ← dpaa_create_eth_devices W B netcfg.num_ethports 0
  match ret with
  | some ret => do
    dpaa_clean_device_list
    pure ret
  | none => do
    modifyS (fun s => { s with device_count := netcfg.num_ethports })
    let sec ← dpaa_sec_available W
    if sec != 0 then
      pure 0
    else do
      /- Creating SEC Devices -/
      let ret ← dpaa_create_sec_devices W B B.FSL_DPAA_MAX_CRYPTO_DEV 0
      match ret with
      | some ret => do
        dpaa_clean_device_list
        pure ret
      | none => do
        modifyS (fun s => { s with device_count := s.device_count + B.FSL_DPAA_MAX_CRYPTO_DEV })
        pure 0

/-- An example header: network type 0, crypto type 1, four crypto devices,
8-bit controller and port ids, a 16-bit sequence index. -/
def ex_bus_h : rte_dpaa_bus_h :=
  { FSL_DPAA_ETH := 0, FSL_DPAA_CRYPTO := 1, FSL_DPAA_MAX_CRYPTO_DEV := 4,
    fman_id_bits := 8, mac_id_bits := 8, dev_id_bits := 16 }

/-- A node compatible with "fsl,sec-v4.0" that states era 8. -/
def ex_sec : device_node :=
  { node0 "/soc/crypto@300000" with
    compatible := ["fsl,sec-v4.0"], properties := [("fsl,sec-era", cell 8)] }

/-- The two network devices that `dpaa_create_device_list` makes for
`ex_netcfg`. -/
def ex_eth_devices : List rte_dpaa_device :=
  [{ id := { fman_id := 1, mac_id := 1, device_type := 0, dev_id := 0 }, name := "fm1-mac1" },
   { id := { fman_id := 1, mac_id := 2, device_type := 0, dev_id := 1 }, name := "fm1-mac2" }]

/-- The four crypto devices that follow two network devices. -/
def ex_sec_devices : List rte_dpaa_device :=
  [{ id := { fman_id := 0, mac_id := 0, device_type := 1, dev_id := 2 }, name := "dpaa-sec0" },
   { id := { fman_id := 0, mac_id := 0, device_type := 1, dev_id := 3 }, name := "dpaa-sec1" },
   { id := { fman_id := 0, mac_id := 0, device_type := 1, dev_id := 4 }, name := "dpaa-sec2" },
   { id := { fman_id := 0, mac_id := 0, device_type := 1, dev_id := 5 }, name := "dpaa-sec3" }]

/-- The variables after `dpaa_create_device_list` on `ex_tree`, which has no
node compatible with "fsl,sec-v4.0". -/
def ex_bus_bound : BusGlobals :=
  { fman := { ex_net_bound.fman with heap_allocs := ex_net_bound.fman.heap_allocs + 2 },
    dpaa_netcfg := some ex_netcfg, device_list := ex_eth_devices, device_count := 2,
    rta_sec_era := none }

/-- The variables after `dpaa_create_device_list` on `ex_tree` followed by
`ex_sec`. -/
def ex_bus_bound_sec : BusGlobals :=
  { fman := { ex_net_bound.fman with heap_allocs := ex_net_bound.fman.heap_allocs + 6 },
    dpaa_netcfg := some ex_netcfg, device_list := ex_eth_devices ++ ex_sec_devices,
    device_count := 6, rta_sec_era := some 8 }

/-! ## dpaa_bus.c: probing -/

/-- Modelled from the spec: `struct rte_dpaa_driver` (rte_dpaa_bus.h), a
"type tag" and the probe callback, `none` for a null pointer.  The callback
is given the device and returns an `int`. -/
structure rte_dpaa_driver where
  driver_type : Nat
  probe : Option (rte_dpaa_device → Int)

/-- One call `drv->probe(drv, dev)` made by `rte_dpaa_bus_probe`: the places
of the device and of the driver in their lists, and the value returned. -/
structure probe_call where
  dev : Nat
  drv : Nat
  ret : Int
deriving DecidableEq, Repr

/-- The function `rte_dpaa_device_match` of dpaa_bus.c, for a driver and a
device that are not null pointers. -/
def rte_dpaa_device_match (drv : rte_dpaa_driver) (dev : rte_dpaa_device) : Int :=
  if drv.driver_type == dev.id.device_type then 0 else -1

/-- The inner loop `TAILQ_FOREACH(drv, &rte_dpaa_bus.driver_list, next)` of
`rte_dpaa_bus_probe` for the device at place `i`, from the driver at place
`k` on: the call it makes, if any. -/
def rte_dpaa_bus_probe_drivers (i : Nat) (dev : rte_dpaa_device) :
    List rte_dpaa_driver → Nat → Option probe_call
  | [], _ => none
  | drv :: rest, k =>
    if rte_dpaa_device_match drv dev != 0 then
      rte_dpaa_bus_probe_drivers i dev rest (k + 1)
    else
      match drv.probe with
      | none => rte_dpaa_bus_probe_drivers i dev rest (k + 1)
      | some probe => some { dev := i, drv := k, ret := probe dev }

/-- The outer loop `TAILQ_FOREACH(dev, &rte_dpaa_bus.device_list, next)` of
`rte_dpaa_bus_probe`, from the device at place `i` on: the calls it makes, in
order. -/
def rte_dpaa_bus_probe_devices (driver_list : List rte_dpaa_driver) :
    List rte_dpaa_device → Nat → List probe_call
  | [], _ => []
  | dev :: rest, i =>
    (rte_dpaa_bus_probe_drivers i dev driver_list 0).toList ++
      rte_dpaa_bus_probe_devices driver_list rest (i + 1)

/-- The function `rte_dpaa_bus_probe` of dpaa_bus.c on the two lists of
`rte_dpaa_bus`: the value returned and the probe calls made, in order. -/
def rte_dpaa_bus_probe (device_list : List rte_dpaa_device)
    (driver_list : List rte_dpaa_driver) : Int × List probe_call :=
  (0, rte_dpaa_bus_probe_devices driver_list device_list 0)

/-- Three drivers: a network driver without probe callback, a network driver
whose probe fails with -1, a crypto driver whose probe returns 0. -/
def ex_drivers : List rte_dpaa_driver :=
  [{ driver_type := 0, probe := none },
   { driver_type := 0, probe := some (fun _ => -1) },
   { driver_type := 1, probe := some (fun _ => 0) }]

/-! ## dpaa_bus.c: portals -/

/-- Modelled from the spec: `struct dpaa_portal` (rte_dpaa_bus.h), the
PortalHandle, a "pair of hardware channel indices, owning thread id". -/
structure dpaa_portal where
  bman_idx : Nat
  qman_idx : Nat
  tid : Nat
deriving DecidableEq, Repr

/-- What `_dpaa_portal_init` can observe of its environment: the constants
`LCORE_ID_ANY` and `RTE_MAX_LCORE` (rte_lcore.h is not among the sources),
the logical core of the calling thread and the master core, and the results
of the calls it makes.  `pthread_setaffinity_np` is given the core and
`pthread_setspecific` the value to bind, `none` for NULL. -/
structure PortalWorld where
  LCORE_ID_ANY : Nat
  RTE_MAX_LCORE : Nat
  rte_lcore_id : Nat
  rte_get_master_lcore : Nat
  pthread_setaffinity_np : Nat → Int
  bman_thread_init : Int
  qman_thread_init : Int
  rte_malloc : Bool
  bman_get_portal_index : Nat
  qman_get_portal_index : Nat
  gettid : Nat
  pthread_setspecific : Option dpaa_portal → Int

/-- The calls that the portal code makes, in order. -/
inductive PortalEvent where
  | pthread_setaffinity_np (cpu : Nat)
  | bman_thread_init
  | qman_thread_init
  | bman_thread_finish
  | qman_thread_finish
  | rte_malloc
  | pthread_setspecific (value : Option dpaa_portal)
  | rte_free (ptr : dpaa_portal)
deriving DecidableEq, Repr

/-- The state of one thread: the per-lcore variable `_dpaa_io`, the value
bound to `dpaa_portal_key`, then, modelled from the spec, whether each of the
two channel subsystems is initialised for the thread, the handles allocated
and not freed, the core the thread is pinned to, and the calls made so far. -/
structure PortalState where
  _dpaa_io : Bool
  dpaa_portal_key : Option dpaa_portal
  bman_portal : Bool
  qman_portal : Bool
  handles : List dpaa_portal
  affinity : Option Nat
  calls : List PortalEvent
deriving DecidableEq, Repr

/-- A thread on which nothing has run yet. -/
def PortalState.init : PortalState :=
  { _dpaa_io := false, dpaa_portal_key := none, bman_portal := false, qman_portal := false,
    handles := [], affinity := none, calls := [] }

/-- Record a call. -/
def called (e : PortalEvent) : Code PortalState Unit :=
  modifyS (fun s => { s with calls := s.calls ++ [e] })

/-- The call `pthread_setaffinity_np(id, sizeof(cpu_set_t), &cpuset)` with
only `cpu` in the set. -/
def pthread_setaffinity_np (P : PortalWorld) (cpu : Nat) : Code PortalState Int := do
  called (.pthread_setaffinity_np cpu)
  let ret := P.pthread_setaffinity_np cpu
  (if ret == 0 then modifyS (fun s => { s with affinity := some cpu }) else pure ())
  pure ret

/-- Modelled from the spec: `bman_thread_init`, which initialises channel
subsystem A for the thread unless it fails. -/
def bman_thread_init (P : PortalWorld) : Code PortalState Int := do
  called .bman_thread_init
  (if P.bman_thread_init == 0 then modifyS (fun s => { s with bman_portal := true })
   else pure ())
  pure P.bman_thread_init

/-- Modelled from the spec: `qman_thread_init`, which initialises channel
subsystem B for the thread unless it fails. -/
def qman_thread_init (P : PortalWorld) : Code PortalState Int := do
  called .qman_thread_init
  (if P.qman_thread_init == 0 then modifyS (fun s => { s with qman_portal := true })
   else pure ())
  pure P.qman_thread_init

/-- Modelled from the spec: `bman_thread_finish`, the teardown of channel
subsystem A for the thread. -/
def bman_thread_finish : Code PortalState Unit := do
  called .bman_thread_finish
  modifyS (fun s => { s with bman_portal := false })

/-- Modelled from the spec: `qman_thread_finish`, the teardown of channel
subsystem B for the thread. -/
def qman_thread_finish : Code PortalState Unit := do
  called .qman_thread_finish
  modifyS (fun s => { s with qman_portal := false })

/-- The call `pthread_setspecific(dpaa_portal_key, value)`: the binding
changes when the call succeeds. -/
def pthread_setspecific (P : PortalWorld) (value : Option dpaa_portal) :
    Code PortalState Int := do
  called (.pthread_setspecific value)
  let ret := P.pthread_setspecific value
  (if ret == 0 then modifyS (fun s => { s with dpaa_portal_key := value }) else pure ())
  pure ret

/-- The call `rte_free(ptr)` on a handle; freeing what is not allocated is
undefined. -/
def rte_free_portal (ptr : dpaa_portal) : Code PortalState Unit := do
  called (.rte_free ptr)
  let s ← getS
  (if ptr ∈ s.handles then modifyS (fun s => { s with handles := s.handles.erase ptr })
   else Code.undefined)

/-- The function `dpaa_portal_finish` of dpaa_bus.c; `arg` is `none` for a
null pointer. -/
def dpaa_portal_finish (P : PortalWorld) (arg : Option dpaa_portal) : Code PortalState Unit :=
  match arg with
  | none => pure ()
  | some dpaa_io_portal => do
    bman_thread_finish
    qman_thread_finish
    let _ ← pthread_setspecific P none
    rte_free_portal dpaa_io_portal
    modifyS (fun s => { s with _dpaa_io := false })

/-- The statements of `_dpaa_portal_init` from "Set CPU affinity for this
thread" to its end, for the core `cpu` chosen before them.  Each `else`
stands for the code after a `return`. -/
def _dpaa_portal_init_on (P : PortalWorld) (cpu : Nat) : Code PortalState Int := do
  /- Set CPU affinity for this thread -/
  let ret ← pthread_setaffinity_np P cpu
  if ret != 0 then
    pure ret
  else do
    /- Initialise bman thread portals -/
    let ret ← bman_thread_init P
    if ret != 0 then
      pure ret
    else do
      /- Initialise qman thread portals -/
      let ret ← qman_thread_init P
      if ret != 0 then do
        bman_thread_finish
        pure ret
      else do
        called .rte_malloc
        if !P.rte_malloc then do
          bman_thread_finish
          qman_thread_finish
          pure (- ENOMEM)
        else do
          let dpaa_io_portal : dpaa_portal :=
            { qman_idx := P.qman_get_portal_index, bman_idx := P.bman_get_portal_index,
              tid := P.gettid }
          modifyS (fun s => { s with handles := s.handles ++ [dpaa_io_portal] })
          let ret ← pthread_setspecific P (some dpaa_io_portal)
          if ret != 0 then do
            dpaa_portal_finish P none
            pure ret
          else do
            modifyS (fun s => { s with _dpaa_io := true })
            pure 0

/-- The function `_dpaa_portal_init` of dpaa_bus.c; `arg` is the pointer
value, compared with 1 in the code. -/
def _dpaa_portal_init (P : PortalWorld) (arg : Nat) : Code PortalState Int :=
  let cpu := P.rte_lcore_id
  if arg == 1 || cpu == P.LCORE_ID_ANY then
    _dpaa_portal_init_on P P.rte_get_master_lcore
  /- if the core id is not supported -/
  else if cpu ≥ P.RTE_MAX_LCORE then
    pure (-1)
  else
    _dpaa_portal_init_on P cpu

/-- The function `rte_dpaa_portal_init` of dpaa_bus.c. -/
def rte_dpaa_portal_init (P : PortalWorld) (arg : Nat) : Code PortalState Int := do
  let s ← getS
  if !s._dpaa_io then
    _dpaa_portal_init P arg
  else
    pure 0

/-- An environment in which the thread runs on core 2 of 128, the master
core is 0, pinning succeeds, and the other calls return what is given. -/
def ex_portal_world (bman qman : Int) (malloc : Bool) (setspecific : Int) : PortalWorld :=
  { LCORE_ID_ANY := 2 ^ 32 - 1, RTE_MAX_LCORE := 128, rte_lcore_id := 2,
    rte_get_master_lcore := 0, pthread_setaffinity_np := fun _ => 0,
    bman_thread_init := bman, qman_thread_init := qman, rte_malloc := malloc,
    bman_get_portal_index := 5, qman_get_portal_index := 6, gettid := 4242,
    pthread_setspecific := fun value => if value.isSome then setspecific else 0 }

/-- The handle that `_dpaa_portal_init` allocates in `ex_portal_world`. -/
def ex_portal : dpaa_portal := { bman_idx := 5, qman_idx := 6, tid := 4242 }

/-- The thread state after a successful `rte_dpaa_portal_init` in
`ex_portal_world` from `PortalState.init`. -/
def ex_portal_bound : PortalState :=
  { _dpaa_io := true, dpaa_portal_key := some ex_portal, bman_portal := true,
    qman_portal := true, handles := [ex_portal], affinity := some 2,
    calls := [.pthread_setaffinity_np 2, .bman_thread_init, .qman_thread_init, .rte_malloc,
              .pthread_setspecific (some ex_portal)] }

/-- The thread state after `dpaa_portal_finish` on the handle of
`ex_portal_bound`. -/
def ex_portal_released : PortalState :=
  { _dpaa_io := false, dpaa_portal_key := none, bman_portal := false,
    qman_portal := false, handles := [], affinity := some 2,
    calls := ex_portal_bound.calls ++
      [.bman_thread_finish, .qman_thread_finish, .pthread_setspecific none,
       .rte_free ex_portal] }

/-- The second state has the cached revision `fman_ip_rev` and the two dealloc
masks of the first. -/
def same_masks (g g1 : Globals) : Prop :=
  g1.fman_ip_rev = g.fman_ip_rev ∧
  g1.fman_dealloc_bufs_mask_hi = g.fman_dealloc_bufs_mask_hi ∧
  g1.fman_dealloc_bufs_mask_lo = g.fman_dealloc_bufs_mask_lo

/-- The piece of code leaves `fman_ip_rev` and the two dealloc masks alone
whenever it runs to its end. -/
structure KeepsMasks {α : Type} (m : M α) : Prop where
  out : ∀ g a g1, m g = .ok a g1 → same_masks g g1

/-- Every state in which the piece of code runs to its end satisfies `Q`. -/
structure After {α : Type} (m : M α) (Q : Globals → Prop) : Prop where
  out : ∀ g a g1, m g = .ok a g1 → Q g1

/-- The environment `ex_portal_world` with every call successful, for a
thread whose logical core id is 200, beyond `RTE_MAX_LCORE = 128` and not
`LCORE_ID_ANY`. -/
def ex_portal_world_far : PortalWorld :=
  { ex_portal_world 0 0 true 0 with rte_lcore_id := 200 }

/-- The environment `ex_world` with a revision register that reads `0x0203`,
major revision 2. -/
def ex_world_v2 (tree : List device_node) : World :=
  { ex_world tree with in_be32 := fun _ => 0x0203 }

/-- The thread state after a successful `_dpaa_portal_init` with the hint 1 in
`ex_portal_world` from `PortalState.init`: pinned to the master core 0. -/
def ex_portal_bound_master : PortalState :=
  { ex_portal_bound with
      affinity := some 0,
      calls := [.pthread_setaffinity_np 0, .bman_thread_init, .qman_thread_init, .rte_malloc,
                .pthread_setspecific (some ex_portal)] }

/-! ## Theorems -/

theorem same_registry_refl (g : Globals) : same_registry g g := ⟨rfl, rfl, rfl⟩

theorem same_registry_trans {g g1 g2 : Globals} (h1 : same_registry g g1)
    (h2 : same_registry g1 g2) : same_registry g g2 :=
  ⟨h2.1.trans h1.1, h2.2.1.trans h1.2.1, h2.2.2.trans h1.2.2⟩

theorem frame_pure {α : Type} (a : α) : Frame (pure a : M α) := ⟨fun g => same_registry_refl g⟩

theorem frame_bind {α β : Type} {m : M α} {f : α → M β} (hm : Frame m)
    (hf : ∀ a, Frame (f a)) : Frame (m >>= f) := by
  constructor
  intro g
  have h1 := hm.ends g
  show ends_well g (M.bind m f g)
  unfold M.bind
  cases hmg : m g with
  | ok a g1 =>
    rw [hmg] at h1
    have h2 := (hf a).ends g1
    show ends_well g (f a g1)
    cases hfg : f a g1 with
    | ok b g2 => rw [hfg] at h2; exact same_registry_trans h1 h2
    | err e g2 => rw [hfg] at h2; exact ⟨same_registry_trans h1 h2.1, h2.2⟩
    | abort => exact True.intro
    | undefined => exact True.intro
  | err e g1 => rw [hmg] at h1; exact h1
  | abort => exact True.intro
  | undefined => exact True.intro

theorem frame_goto_err {α : Type} {rc : Int} (h : rc ≠ 0) : Frame (goto_err rc : M α) :=
  ⟨fun g => ⟨same_registry_refl g, h⟩⟩

theorem frame_FMAN_ERR {cond : Bool} {rc : Int} (h : cond = true → rc ≠ 0) :
    Frame (FMAN_ERR cond rc) := by
  unfold FMAN_ERR
  cases cond
  · exact frame_pure _
  · exact frame_goto_err (h rfl)

theorem frame_assert (c : Bool) : Frame (assert c) := by
  constructor
  intro g
  unfold assert
  cases c
  · exact True.intro
  · exact same_registry_refl g

theorem frame_undefined {α : Type} : Frame (undefined : M α) := ⟨fun _ => True.intro⟩

theorem frame_getG : Frame getG := ⟨fun g => same_registry_refl g⟩

theorem frame_modifyG {f : Globals → Globals} (h : ∀ g, same_registry g (f g)) :
    Frame (modifyG f) := ⟨fun g => h g⟩

theorem frame_rte_malloc (W : World) : Frame (rte_malloc W) := ⟨fun _ => ⟨rfl, rfl, rfl⟩⟩

theorem frame_mmap (W : World) (l o : Nat) : Frame (mmap W l o) := ⟨fun _ => ⟨rfl, rfl, rfl⟩⟩

theorem frame_munmap (a l : Nat) : Frame (munmap a l) := ⟨fun _ => ⟨rfl, rfl, rfl⟩⟩

theorem frame_in_be32 (W : World) (a : Nat) : Frame (in_be32 W a) := ⟨fun _ => ⟨rfl, rfl, rfl⟩⟩

theorem frame_out_be32 (a v : Nat) : Frame (out_be32 a v) := ⟨fun _ => ⟨rfl, rfl, rfl⟩⟩

theorem neg_errno_ne_zero (errno : ℕ+) : -((errno : Nat) : Int) ≠ 0 := by
  have := errno.pos
  omega

theorem neg_EINVAL_ne_zero : -EINVAL ≠ 0 := by decide

theorem neg_ENXIO_ne_zero : - ENXIO ≠ 0 := by decide

theorem neg_ENOMEM_ne_zero : -ENOMEM ≠ 0 := by decide

theorem frame_fman_get_ip_rev (W : World) (H : fman_h) (n : device_node) :
    Frame (fman_get_ip_rev W H n) := by
  unfold fman_get_ip_rev
  repeat (first
    | apply frame_pure
    | apply frame_mmap
    | apply frame_munmap
    | apply frame_in_be32
    | (apply frame_modifyG; intro g; exact ⟨rfl, rfl, rfl⟩)
    | apply frame_bind
    | split
    | intro _
    | dsimp only)

theorem frame_fman_if_init_bpool (W : World) (mac_node : device_node) (p : Bytes) (i : Nat) :
    Frame (fman_if_init_bpool W mac_node p i) := by
  unfold fman_if_init_bpool
  repeat (first
    | apply frame_pure
    | apply frame_rte_malloc
    | apply frame_undefined
    | apply frame_assert
    | exact frame_FMAN_ERR (fun _ => neg_ENOMEM_ne_zero)
    | exact frame_goto_err neg_EINVAL_ne_zero
    | exact frame_goto_err neg_ENXIO_ne_zero
    | apply frame_bind
    | split
    | intro _
    | dsimp only)

theorem frame_fman_if_init_bpools (W : World) (mac_node : device_node) (p : Bytes) (n : Nat) :
    ∀ (i : Nat) (__if : __fman_if), Frame (fman_if_init_bpools W mac_node p n i __if) := by
  induction n with
  | zero => intro i __if; exact frame_pure _
  | succ n ih =>
    intro i __if
    unfold fman_if_init_bpools
    exact frame_bind (frame_fman_if_init_bpool W mac_node p i) (fun b => ih _ _)

set_option maxRecDepth 4000 in
theorem frame_fman_if_init_head (W : World) (H : fman_h) (n : device_node) :
    Frame (fman_if_init_head W H n) := by
  unfold fman_if_init_head
  repeat (first
    | apply frame_pure
    | apply frame_rte_malloc
    | apply frame_mmap
    | apply frame_undefined
    | apply frame_assert
    | apply frame_getG
    | apply frame_fman_get_ip_rev
    | (apply frame_modifyG; intro g; exact ⟨rfl, rfl, rfl⟩)
    | exact frame_FMAN_ERR (fun _ => neg_EINVAL_ne_zero)
    | exact frame_FMAN_ERR (fun _ => neg_ENXIO_ne_zero)
    | exact frame_goto_err neg_EINVAL_ne_zero
    | exact frame_goto_err neg_ENXIO_ne_zero
    | exact frame_goto_err (neg_errno_ne_zero _)
    | apply frame_bind
    | split
    | intro _
    | dsimp only)

theorem frame_fman_if_init_mac_type (H : fman_h) (mac_node : device_node) (__if : __fman_if) :
    Frame (fman_if_init_mac_type H mac_node __if) := by
  unfold fman_if_init_mac_type
  repeat (first
    | apply frame_pure
    | apply frame_undefined
    | exact frame_goto_err neg_EINVAL_ne_zero
    | split
    | dsimp only)

set_option maxRecDepth 4000 in
theorem frame_fman_if_init_tail (W : World) (n mac_node : device_node) (a : Nat)
    (__if : __fman_if) : Frame (fman_if_init_tail W n mac_node a __if) := by
  unfold fman_if_init_tail
  repeat (first
    | apply frame_pure
    | apply frame_mmap
    | apply frame_undefined
    | apply frame_assert
    | apply frame_fman_if_init_bpools
    | exact frame_FMAN_ERR (fun _ => neg_EINVAL_ne_zero)
    | exact frame_FMAN_ERR (fun _ => neg_ENXIO_ne_zero)
    | exact frame_goto_err neg_EINVAL_ne_zero
    | exact frame_goto_err neg_ENXIO_ne_zero
    | exact frame_goto_err (neg_errno_ne_zero _)
    | apply frame_bind
    | split
    | intro _
    | dsimp only)

theorem frame_fman_if_init_body (W : World) (H : fman_h) (n : device_node) :
    Frame (fman_if_init_body W H n) := by
  unfold fman_if_init_body
  refine frame_bind (frame_fman_if_init_head W H n) ?_
  rintro ⟨mac_node, a, __if⟩
  exact frame_bind (frame_fman_if_init_mac_type H mac_node __if)
    (fun i => frame_fman_if_init_tail W n mac_node a i)

/-! ### Runs that reach the end -/

theorem bind_ok {α β : Type} {m : M α} {f : α → M β} {g g2 : Globals} {b : β}
    (h : (m >>= f) g = .ok b g2) : ∃ a g1, m g = .ok a g1 ∧ f a g1 = .ok b g2 := by
  change M.bind m f g = .ok b g2 at h
  unfold M.bind at h
  cases hm : m g with
  | ok a g1 => rw [hm] at h; exact ⟨a, g1, rfl, h⟩
  | err e g1 => rw [hm] at h; cases h
  | abort => rw [hm] at h; cases h
  | undefined => rw [hm] at h; cases h

theorem post_pure {α : Type} {a : α} {Q : α → Prop} (h : Q a) : Post (pure a : M α) Q := by
  constructor
  intro g b g1 hb
  cases hb
  exact h

theorem post_bind {α β : Type} {m : M α} {f : α → M β} {Q : β → Prop}
    (hf : ∀ a, Post (f a) Q) : Post (m >>= f) Q := by
  constructor
  intro g b g2 h
  obtain ⟨a, g1, _, h2⟩ := bind_ok h
  exact (hf a).out g1 b g2 h2

theorem post_goto_err {α : Type} (rc : Int) (Q : α → Prop) : Post (goto_err rc : M α) Q := by
  constructor
  intro g a g1 h
  cases h

theorem post_undefined {α : Type} (Q : α → Prop) : Post (undefined : M α) Q := by
  constructor
  intro g a g1 h
  cases h

theorem post_mono {α : Type} {m : M α} {P Q : α → Prop} (h : Post m P)
    (hPQ : ∀ a, P a → Q a) : Post m Q :=
  ⟨fun g a g1 hm => hPQ a (h.out g a g1 hm)⟩

/-- The pool loop appends one pool per round to the list of the interface and
changes nothing else in the object; pool `k` of the new ones is what
`fman_if_init_bpool` builds from cell `j + k`. -/
theorem fman_if_init_bpools_spec (W : World) (mac_node : device_node) (p : Bytes) (n : Nat) :
    ∀ (j : Nat) (i r : __fman_if) (g g1 : Globals),
      fman_if_init_bpools W mac_node p n j i g = .ok r g1 →
      ∃ new : List fman_if_bpool,
        r = { i with __if := { i.__if with bpool_list := i.__if.bpool_list ++ new } } ∧
        new.length = n ∧
        ∀ k (hk : k < new.length), ∃ ga gb,
          fman_if_init_bpool W mac_node p (j + k) ga = .ok (new.get ⟨k, hk⟩) gb := by
  induction n with
  | zero =>
    intro j i r g g1 h
    cases h
    exact ⟨[], by simp, rfl, fun k hk => absurd hk (Nat.not_lt_zero k)⟩
  | succ n ih =>
    intro j i r g g1 h
    unfold fman_if_init_bpools at h
    obtain ⟨b, g0, hb, hrest⟩ := bind_ok h
    obtain ⟨new, hr, hlen, hget⟩ := ih _ _ _ _ _ hrest
    refine ⟨b :: new, ?_, by simp [hlen], ?_⟩
    · rw [hr]
      simp
    · intro k hk
      cases k with
      | zero => exact ⟨g, g0, hb⟩
      | succ k =>
        have hk2 : k < new.length := by simpa using hk
        obtain ⟨ga, gb, hab⟩ := hget k hk2
        refine ⟨ga, gb, ?_⟩
        have : j + (k + 1) = j + 1 + k := by omega
        rw [this]
        simpa using hab

theorem post_bind_FMAN_ERR {β : Type} {cond : Bool} {rc : Int} {f : Unit → M β} {Q : β → Prop}
    (hf : cond = false → Post (f ()) Q) : Post (FMAN_ERR cond rc >>= f) Q := by
  constructor
  intro g b g2 h
  obtain ⟨a, g1, h1, h2⟩ := bind_ok h
  cases cond with
  | false => exact (hf rfl).out g1 b g2 h2
  | true => cases h1

theorem post_bind_assert {β : Type} {c : Bool} {f : Unit → M β} {Q : β → Prop}
    (hf : c = true → Post (f ()) Q) : Post (assert c >>= f) Q := by
  constructor
  intro g b g2 h
  obtain ⟨a, g1, h1, h2⟩ := bind_ok h
  cases c with
  | false => cases h1
  | true => exact (hf rfl).out g1 b g2 h2

set_option maxRecDepth 4000 in
/-- What `fman_if_init_tail` leaves in the object: the fields written before
it are kept, `mac_idx` is the index of the register offset, and the pool list
grows by one pool per cell of "fsl,bman-buffer-pools", in cell order. -/
theorem fman_if_init_tail_spec (W : World) (n mac_node : device_node) (a : Nat)
    (i : __fman_if) :
    Post (fman_if_init_tail W n mac_node a i) (fun r =>
      r.node_path = i.node_path ∧ r.ccsr_map = i.ccsr_map ∧
      r.__if.fman_idx = i.__if.fman_idx ∧ r.__if.mac_type = i.__if.mac_type ∧
      r.__if.is_memac = i.__if.is_memac ∧ r.__if.is_rgmii = i.__if.is_rgmii ∧
      fman_get_mac_index a i.__if.mac_idx = (0, r.__if.mac_idx) ∧
      tail_requirements W n mac_node ∧
      ∃ pools new, of_get_property n "fsl,bman-buffer-pools" = some pools ∧
        r.__if.bpool_list = i.__if.bpool_list ++ new ∧
        new.length = pools.length / sizeof_phandle ∧
        ∀ k (hk : k < new.length), ∃ ga gb,
          fman_if_init_bpool W mac_node pools k ga = .ok (new.get ⟨k, hk⟩) gb) := by
  unfold fman_if_init_tail
  dsimp only
  refine post_bind_FMAN_ERR (fun hidx => ?_)
  repeat' (first
    | exact post_goto_err _ _
    | exact post_undefined _
    | refine post_bind_FMAN_ERR (fun _ => ?_)
    | refine post_bind_assert (fun _ => ?_)
    | refine post_bind (fun _ => ?_)
    | split)
  rename_i pools hpools _
  refine post_mono ⟨fun g r g1 h => fman_if_init_bpools_spec W mac_node pools _ 0 _ r g g1 h⟩ ?_
  rintro r ⟨new, hr, hlen, hget⟩
  subst hr
  refine ⟨rfl, rfl, rfl, rfl, rfl, rfl, ?_, ?_, pools, new, hpools, rfl, hlen, ?_⟩
  · have h0 : (fman_get_mac_index a i.__if.mac_idx).1 = 0 := by simpa using hidx
    exact Prod.ext h0 rfl
  · exact ⟨_, _, _, _, _, _, _, _, _, _, by assumption, by assumption, by assumption,
      by assumption, by assumption, by assumption, by assumption, by assumption,
      by assumption, by assumption, by assumption⟩
  · intro k hk
    simpa using hget k hk

set_option maxRecDepth 4000 in
/-- What `fman_if_init_head` leaves in the object and which MAC node it
resolves: the path is copied from the node, the fields not yet written are
zero, and the MAC node is the target of the "fsl,fman-mac" phandle. -/
theorem fman_if_init_head_spec (W : World) (H : fman_h) (n : device_node) :
    Post (fman_if_init_head W H n) (fun r =>
      r.2.2.node_path = ⟨n.full_name.data.take (PATH_MAX - 1)⟩ ∧
      r.2.2.__if.mac_type = 0 ∧ r.2.2.__if.is_rgmii = 0 ∧ r.2.2.__if.mac_idx = 0 ∧
      r.2.2.__if.bpool_list = [] ∧ head_requirements W n r.1) := by
  unfold fman_if_init_head
  dsimp only
  repeat' (first
    | exact post_goto_err _ _
    | exact post_undefined _
    | refine post_bind_FMAN_ERR (fun _ => ?_)
    | refine post_bind_assert (fun _ => ?_)
    | refine post_bind (fun _ => ?_)
    | split)
  refine post_pure ⟨rfl, rfl, rfl, rfl, rfl, ?_⟩
  exact ⟨_, _, _, _, _, by assumption, by assumption, by assumption, by assumption,
    by assumption, by assumption, by assumption⟩

theorem strstr_isSome_iff (h needle : Bytes) :
    (strstr h needle).isSome = true ↔ needle <:+: h := by
  induction h with
  | nil =>
    unfold strstr
    by_cases hn : needle = []
    · simp [hn]
    · simp [hn, List.infix_nil]
  | cons b rest ih =>
    unfold strstr
    rw [List.infix_cons_iff]
    by_cases hp : needle.isPrefixOf (b :: rest) = true
    · rw [if_pos hp]
      simp only [Option.isSome_some, true_iff]
      exact Or.inl (List.isPrefixOf_iff_prefix.mp hp)
    · rw [if_neg hp, ih]
      constructor
      · exact Or.inr
      · rintro (h1 | h2)
        · exact absurd (List.isPrefixOf_iff_prefix.mpr h1) hp
        · exact h2

/-- What the MAC classification of `fman_if_init` writes: `mac_type`,
`is_memac` and `is_rgmii` as the compatibility strings and the PHY connection
type decide, and nothing else. -/
theorem fman_if_init_mac_type_spec (H : fman_h) (m : device_node) (i : __fman_if) :
    Post (fman_if_init_mac_type H m i) (fun r =>
      (r.node_path = i.node_path ∧ r.ccsr_map = i.ccsr_map ∧
        r.__if.fman_idx = i.__if.fman_idx ∧ r.__if.mac_idx = i.__if.mac_idx ∧
        r.__if.bpool_list = i.__if.bpool_list) ∧
      (of_device_is_compatible m "fsl,fman-1g-mac" = true →
        r.__if.mac_type = H.fman_mac_1g ∧ r.__if.is_memac = 0 ∧
        r.__if.is_rgmii = i.__if.is_rgmii) ∧
      (of_device_is_compatible m "fsl,fman-1g-mac" = false →
        of_device_is_compatible m "fsl,fman-10g-mac" = true →
        r.__if.mac_type = H.fman_mac_10g ∧ r.__if.is_memac = 0 ∧
        r.__if.is_rgmii = i.__if.is_rgmii) ∧
      (of_device_is_compatible m "fsl,fman-1g-mac" = false →
        of_device_is_compatible m "fsl,fman-10g-mac" = false →
        of_device_is_compatible m "fsl,fman-memac" = true ∧ r.__if.is_memac = 1 ∧
        (of_get_property m "phy-connection-type" = none →
          r.__if.mac_type = H.fman_mac_1g ∧ r.__if.is_rgmii = i.__if.is_rgmii) ∧
        (∀ p, of_get_property m "phy-connection-type" = some p →
          ∃ s, c_string p = some s ∧
            ((strstr s (lit "sgmii")).isSome = true →
              r.__if.mac_type = H.fman_mac_1g ∧ r.__if.is_rgmii = i.__if.is_rgmii) ∧
            ((strstr s (lit "sgmii")).isSome = false →
              (strstr s (lit "rgmii")).isSome = true →
              r.__if.mac_type = H.fman_mac_1g ∧ r.__if.is_rgmii = 1) ∧
            ((strstr s (lit "sgmii")).isSome = false →
              (strstr s (lit "rgmii")).isSome = false →
              (strstr s (lit "xgmii")).isSome = true →
              r.__if.mac_type = H.fman_mac_10g ∧ r.__if.is_rgmii = i.__if.is_rgmii) ∧
            ((strstr s (lit "sgmii")).isSome = false →
              (strstr s (lit "rgmii")).isSome = false →
              (strstr s (lit "xgmii")).isSome = false →
              r.__if.mac_type = i.__if.mac_type ∧ r.__if.is_rgmii = i.__if.is_rgmii)))) := by
  unfold fman_if_init_mac_type
  dsimp only
  repeat' (first
    | exact post_goto_err _ _
    | exact post_undefined _
    | split)
  all_goals refine post_pure ?_
  all_goals simp_all
  all_goals (repeat' (first | constructor | intro _)) <;> simp_all

/-! ### `fman_if_init`, `fman_finish` and `fman_init` -/

/-- The ways a call of `fman_if_init` can end. -/
theorem fman_if_init_cases (W : World) (H : fman_h) (n : device_node) (g : Globals) :
    (of_device_is_available n = false ∧ fman_if_init W H n g = .ok 0 g) ∨
    (of_device_is_available n = true ∧
      ((∃ i g1, fman_if_init_body W H n g = .ok i g1 ∧ same_registry g g1 ∧
          fman_if_init W H n g = .ok 0 { g1 with __ifs := g1.__ifs ++ [i] }) ∨
       (∃ e g1, fman_if_init_body W H n g = .err e g1 ∧ same_registry g g1 ∧ e ≠ 0 ∧
          fman_if_init W H n g = .ok e g1) ∨
       fman_if_init W H n g = .abort ∨ fman_if_init W H n g = .undefined)) := by
  unfold fman_if_init
  cases hav : of_device_is_available n with
  | false => exact Or.inl ⟨rfl, by simp⟩
  | true =>
    refine Or.inr ⟨rfl, ?_⟩
    have hf := (frame_fman_if_init_body W H n).ends g
    cases hb : fman_if_init_body W H n g with
    | ok i g1 =>
      rw [hb] at hf
      exact Or.inl ⟨i, g1, rfl, hf, by simp⟩
    | err e g1 =>
      rw [hb] at hf
      exact Or.inr (Or.inl ⟨e, g1, rfl, hf.1, hf.2, by simp⟩)
    | abort => exact Or.inr (Or.inr (Or.inl (by simp)))
    | undefined => exact Or.inr (Or.inr (Or.inr (by simp)))

/-- A returning call of `fman_if_init` keeps the descriptor; it leaves the list
alone when the node is unavailable or the result is non-zero, and otherwise
adds one interface at the tail, with the path of the node. -/
theorem fman_if_init_ok (W : World) (H : fman_h) (n : device_node) (g g1 : Globals) (r : Int)
    (h : fman_if_init W H n g = .ok r g1) :
    g1.fman_ccsr_map_fd = g.fman_ccsr_map_fd ∧
    ((r ≠ 0 ∧ g1.__ifs = g.__ifs) ∨
     (r = 0 ∧ of_device_is_available n = false ∧ g1 = g) ∨
     (r = 0 ∧ of_device_is_available n = true ∧ ∃ i g0, fman_if_init_body W H n g = .ok i g0 ∧
        g1.__ifs = g.__ifs ++ [i])) := by
  rcases fman_if_init_cases W H n g with ⟨hav, h0⟩ | ⟨hav, h1 | h1 | h1 | h1⟩
  · rw [h0] at h
    cases h
    exact ⟨rfl, Or.inr (Or.inl ⟨rfl, hav, rfl⟩)⟩
  · obtain ⟨i, g0, hb, hs, h0⟩ := h1
    rw [h0] at h
    cases h
    exact ⟨hs.2.1, Or.inr (Or.inr ⟨rfl, hav, i, g0, hb, by simp [hs.1]⟩)⟩
  · obtain ⟨e, g0, hb, hs, he, h0⟩ := h1
    rw [h0] at h
    cases h
    exact ⟨hs.2.1, Or.inl ⟨he, hs.1⟩⟩
  · rw [h1] at h
    cases h
  · rw [h1] at h
    cases h

/-- The path stored in an interface that the body of `fman_if_init` builds. -/
theorem fman_if_init_body_node_path (W : World) (H : fman_h) (n : device_node)
    (g g1 : Globals) (i : __fman_if) (h : fman_if_init_body W H n g = .ok i g1) :
    i.node_path = ⟨n.full_name.data.take (PATH_MAX - 1)⟩ := by
  unfold fman_if_init_body at h
  obtain ⟨⟨mac_node, a, i0⟩, ga, hhead, h2⟩ := bind_ok h
  obtain ⟨i1, gb, hmac, htail⟩ := bind_ok h2
  have hh := (fman_if_init_head_spec W H n).out _ _ _ hhead
  have ht := (fman_if_init_tail_spec W n mac_node a i1).out _ _ _ htail
  have hm := (fman_if_init_mac_type_spec H mac_node i0).out _ _ _ hmac
  rw [ht.1, hm.1.1]
  exact hh.1


theorem bind_of_ok {α β : Type} {m : M α} {f : α → M β} {g g1 : Globals} {a : α}
    (h : m g = .ok a g1) : (m >>= f) g = f a g1 := by
  show M.bind m f g = f a g1
  unfold M.bind
  rw [h]

/-- One round of the loop of `fman_init`. -/
theorem fman_init_loop_cons (W : World) (H : fman_h) (n : device_node)
    (rest : List device_node) (g : Globals) :
    fman_init_loop W H (n :: rest) g =
      match fman_if_init W H n g with
      | .ok r g1 => if r = 0 then fman_init_loop W H rest g1 else .err r g1
      | .err e g1 => .err e g1
      | .abort => .abort
      | .undefined => .undefined := by
  simp only [fman_init_loop]
  show M.bind (fman_if_init W H n) _ g = _
  unfold M.bind
  cases fman_if_init W H n g with
  | ok r g1 =>
    show M.bind (FMAN_ERR (r != 0) r) _ g1 = _
    unfold M.bind FMAN_ERR
    by_cases hr : r = 0
    · subst hr
      rfl
    · have hb : (r != 0) = true := by simpa using hr
      simp only [hb, if_true, hr, if_false]
      rfl
  | err e g1 => rfl
  | abort => rfl
  | undefined => rfl

/-- A scan that runs to its end keeps the descriptor and adds one interface
per available node, in node order, each with the path of its node. -/
theorem fman_init_loop_ok (W : World) (H : fman_h) :
    ∀ (nodes : List device_node) (g g2 : Globals),
      fman_init_loop W H nodes g = .ok () g2 →
      g2.fman_ccsr_map_fd = g.fman_ccsr_map_fd ∧
      ∃ new : List __fman_if, g2.__ifs = g.__ifs ++ new ∧
        new.map (fun i => i.node_path) =
          (nodes.filter of_device_is_available).map
            (fun n => (⟨n.full_name.data.take (PATH_MAX - 1)⟩ : String)) := by
  intro nodes
  induction nodes with
  | nil =>
    intro g g2 h
    cases h
    exact ⟨rfl, [], by simp, rfl⟩
  | cons n rest ih =>
    intro g g2 h
    rw [fman_init_loop_cons] at h
    cases hn : fman_if_init W H n g with
    | ok r g1 =>
      rw [hn] at h
      by_cases hr : r = 0
      · simp only [hr, if_true] at h
        obtain ⟨hfd, new, hnew, hpaths⟩ := ih g1 g2 h
        obtain ⟨hfd1, hcase⟩ := fman_if_init_ok W H n g g1 r hn
        refine ⟨hfd.trans hfd1, ?_⟩
        rcases hcase with ⟨hne, _⟩ | ⟨_, hav, hg⟩ | ⟨_, hav, i, g0, hbody, hifs⟩
        · exact absurd hr hne
        · subst hg
          exact ⟨new, hnew, by simp [List.filter_cons, hav, hpaths]⟩
        · refine ⟨i :: new, by simp [hnew, hifs], ?_⟩
          have hp := fman_if_init_body_node_path W H n g g0 i hbody
          simp [List.filter_cons, hav, hpaths, hp]
      · simp only [hr, if_false] at h
        cases h
    | err e g1 => rw [hn] at h; cases h
    | abort => rw [hn] at h; cases h
    | undefined => rw [hn] at h; cases h

/-- A scan that jumps to `err` does so with a non-zero `_errno` and keeps the
descriptor. -/
theorem fman_init_loop_err (W : World) (H : fman_h) :
    ∀ (nodes : List device_node) (g g2 : Globals) (e : Int),
      fman_init_loop W H nodes g = .err e g2 →
      e ≠ 0 ∧ g2.fman_ccsr_map_fd = g.fman_ccsr_map_fd := by
  intro nodes
  induction nodes with
  | nil =>
    intro g g2 e h
    cases h
  | cons n rest ih =>
    intro g g2 e h
    rw [fman_init_loop_cons] at h
    cases hn : fman_if_init W H n g with
    | ok r g1 =>
      rw [hn] at h
      have hfd1 := (fman_if_init_ok W H n g g1 r hn).1
      by_cases hr : r = 0
      · simp only [hr, if_true] at h
        obtain ⟨he, hfd⟩ := ih g1 g2 e h
        exact ⟨he, hfd.trans hfd1⟩
      · simp only [hr, if_false] at h
        cases h
        exact ⟨hr, hfd1⟩
    | err e1 g1 =>
      rcases fman_if_init_cases W H n g with ⟨_, h0⟩ | ⟨_, h1 | h1 | h1 | h1⟩
      · rw [h0] at hn; cases hn
      · obtain ⟨_, _, _, _, h0⟩ := h1
        rw [h0] at hn; cases hn
      · obtain ⟨_, _, _, _, _, h0⟩ := h1
        rw [h0] at hn; cases hn
      · rw [h1] at hn; cases hn
      · rw [h1] at hn; cases hn
    | abort => rw [hn] at h; cases h
    | undefined => rw [hn] at h; cases h

/-- The scan of a node sequence whose first part runs to its end continues
with the rest. -/
theorem fman_init_loop_append (W : World) (H : fman_h) :
    ∀ (pre rest : List device_node) (g g1 : Globals),
      fman_init_loop W H pre g = .ok () g1 →
      fman_init_loop W H (pre ++ rest) g = fman_init_loop W H rest g1 := by
  intro pre
  induction pre with
  | nil =>
    intro rest g g1 h
    cases h
    rfl
  | cons n pre ih =>
    intro rest g g1 h
    rw [fman_init_loop_cons] at h
    rw [List.cons_append, fman_init_loop_cons]
    cases hn : fman_if_init W H n g with
    | ok r g0 =>
      rw [hn] at h
      by_cases hr : r = 0
      · simp only [hr, if_true] at h ⊢
        exact ih rest g0 g1 h
      · simp only [hr, if_false] at h
        cases h
    | err e g0 => rw [hn] at h; cases h
    | abort => rw [hn] at h; cases h
    | undefined => rw [hn] at h; cases h

/-- The loop of `fman_finish` removes the entries it visits from the head of
the list and keeps the descriptor. -/
theorem fman_finish_loop_spec (W : World) (H : fman_h) :
    ∀ (l rest : List __fman_if) (g : Globals), g.__ifs = l ++ rest →
      ∃ g1, fman_finish_loop W H l g = .ok () g1 ∧ g1.__ifs = rest ∧
        g1.fman_ccsr_map_fd = g.fman_ccsr_map_fd := by
  intro l
  induction l with
  | nil =>
    intro rest g hg
    exact ⟨g, rfl, by simpa using hg, rfl⟩
  | cons x l ih =>
    intro rest g hg
    unfold fman_finish_loop
    by_cases hc : (x.__if.mac_type == H.fman_mac_1g && x.__if.is_memac == 0) = true
    · simp only [hc, if_true]
      obtain ⟨g1, h1, h2, h3⟩ := ih rest
        { g with
          log := g.log ++ [Event.in_be32 (x.ccsr_map + 0x100)] ++
            [Event.out_be32 (W.in_be32 (x.ccsr_map + 0x100) &&& (2 ^ 32 - 1 - 0x5))
              (x.ccsr_map + 0x100)] ++ [Event.munmap x.ccsr_map x.regs_size],
          __ifs := g.__ifs.tail } (by simp [hg])
      exact ⟨g1, h1, h2, h3⟩
    · simp only [hc]
      obtain ⟨g1, h1, h2, h3⟩ := ih rest
        { g with
          log := g.log ++ [Event.in_be32 (x.ccsr_map + 8)] ++
            [Event.out_be32 (W.in_be32 (x.ccsr_map + 8) &&& (2 ^ 32 - 1 - 3))
              (x.ccsr_map + 8)] ++ [Event.munmap x.ccsr_map x.regs_size],
          __ifs := g.__ifs.tail } (by simp [hg])
      exact ⟨g1, h1, h2, h3⟩

/-- With an open descriptor, `fman_finish` returns with an empty list and the
descriptor set to -1. -/
theorem fman_finish_spec (W : World) (H : fman_h) (g : Globals)
    (hfd : g.fman_ccsr_map_fd ≠ -1) :
    ∃ g3, fman_finish W H g = .ok () g3 ∧ g3.__ifs = [] ∧ g3.fman_ccsr_map_fd = -1 := by
  obtain ⟨g1, h1, h2, h3⟩ := fman_finish_loop_spec W H g.__ifs [] g (by simp)
  have hb : (g.fman_ccsr_map_fd != -1) = true := by simpa using hfd
  refine ⟨{ g1 with log := g1.log ++ [Event.close g1.fman_ccsr_map_fd],
                    fman_ccsr_map_fd := -1 }, ?_, h2, rfl⟩
  unfold fman_finish
  show M.bind getG _ g = _
  simp only [M.bind, getG]
  show M.bind (assert _) _ g = _
  simp only [M.bind, assert, hb, if_true]
  show M.bind (fman_finish_loop W H g.__ifs) _ g = _
  simp only [M.bind, h1]
  rfl

/-- An interface that the body of `fman_if_init` builds comes from a node
whose required properties are present, and its pool list has one pool per
cell of "fsl,bman-buffer-pools", in cell order. -/
theorem fman_if_init_body_spec (W : World) (H : fman_h) (n : device_node)
    (g g1 : Globals) (i : __fman_if) (h : fman_if_init_body W H n g = .ok i g1) :
    ∃ mac_node pools, head_requirements W n mac_node ∧ tail_requirements W n mac_node ∧
      of_get_property n "fsl,bman-buffer-pools" = some pools ∧
      i.__if.bpool_list.length = pools.length / sizeof_phandle ∧
      ∀ k (hk : k < i.__if.bpool_list.length), ∃ ga gb,
        fman_if_init_bpool W mac_node pools k ga = .ok (i.__if.bpool_list.get ⟨k, hk⟩) gb := by
  unfold fman_if_init_body at h
  obtain ⟨⟨mac_node, a, i0⟩, ga, hhead, h2⟩ := bind_ok h
  obtain ⟨i1, gb, hmac, htail⟩ := bind_ok h2
  have hh := (fman_if_init_head_spec W H n).out _ _ _ hhead
  have hm := (fman_if_init_mac_type_spec H mac_node i0).out _ _ _ hmac
  have ht := (fman_if_init_tail_spec W n mac_node a i1).out _ _ _ htail
  obtain ⟨_, _, _, _, _, _, _, htr, pools, new, hpools, hlist, hlen, hget⟩ := ht
  have hnil : i1.__if.bpool_list = [] := hm.1.2.2.2.2.trans hh.2.2.2.2.1
  have hnew : i.__if.bpool_list = new := by rw [hlist, hnil, List.nil_append]
  refine ⟨mac_node, pools, hh.2.2.2.2.2, htr, hpools, by rw [hnew, hlen], ?_⟩
  rw [hnew]
  exact hget

/-- The MAC classification as it shows in an interface that the body of
`fman_if_init` builds, for the MAC node the "fsl,fman-mac" phandle resolves to. -/
theorem fman_if_init_body_classified (W : World) (H : fman_h) (n : device_node)
    (g g1 : Globals) (i : __fman_if) (h : fman_if_init_body W H n g = .ok i g1) :
    ∃ m : device_node, head_requirements W n m ∧
      (of_device_is_compatible m "fsl,fman-1g-mac" = true →
        i.__if.mac_type = H.fman_mac_1g ∧ i.__if.is_memac = 0 ∧ i.__if.is_rgmii = 0) ∧
      (of_device_is_compatible m "fsl,fman-1g-mac" = false →
        of_device_is_compatible m "fsl,fman-10g-mac" = true →
        i.__if.mac_type = H.fman_mac_10g ∧ i.__if.is_memac = 0 ∧ i.__if.is_rgmii = 0) ∧
      (of_device_is_compatible m "fsl,fman-1g-mac" = false →
        of_device_is_compatible m "fsl,fman-10g-mac" = false →
        of_device_is_compatible m "fsl,fman-memac" = true ∧ i.__if.is_memac = 1 ∧
        (of_get_property m "phy-connection-type" = none →
          i.__if.mac_type = H.fman_mac_1g ∧ i.__if.is_rgmii = 0) ∧
        (∀ p, of_get_property m "phy-connection-type" = some p →
          ∃ s, c_string p = some s ∧
            ((strstr s (lit "sgmii")).isSome = true →
              i.__if.mac_type = H.fman_mac_1g ∧ i.__if.is_rgmii = 0) ∧
            ((strstr s (lit "sgmii")).isSome = false →
              (strstr s (lit "rgmii")).isSome = true →
              i.__if.mac_type = H.fman_mac_1g ∧ i.__if.is_rgmii = 1) ∧
            ((strstr s (lit "sgmii")).isSome = false →
              (strstr s (lit "rgmii")).isSome = false →
              (strstr s (lit "xgmii")).isSome = true →
              i.__if.mac_type = H.fman_mac_10g ∧ i.__if.is_rgmii = 0) ∧
            ((strstr s (lit "sgmii")).isSome = false →
              (strstr s (lit "rgmii")).isSome = false →
              (strstr s (lit "xgmii")).isSome = false →
              i.__if.mac_type = 0 ∧ i.__if.is_rgmii = 0))) := by
  unfold fman_if_init_body at h
  obtain ⟨⟨mac_node, a, i0⟩, ga, hhead, h2⟩ := bind_ok h
  obtain ⟨i1, gb, hmac, htail⟩ := bind_ok h2
  have hh := (fman_if_init_head_spec W H n).out _ _ _ hhead
  have hm := (fman_if_init_mac_type_spec H mac_node i0).out _ _ _ hmac
  have ht := (fman_if_init_tail_spec W n mac_node a i1).out _ _ _ htail
  have e1 : i.__if.mac_type = i1.__if.mac_type := ht.2.2.2.1
  have e2 : i.__if.is_memac = i1.__if.is_memac := ht.2.2.2.2.1
  have e3 : i.__if.is_rgmii = i1.__if.is_rgmii := ht.2.2.2.2.2.1
  have z1 : i0.__if.mac_type = 0 := hh.2.1
  have z2 : i0.__if.is_rgmii = 0 := hh.2.2.1
  obtain ⟨_, hc1, hc10, hcm⟩ := hm
  rw [z2] at hc1 hc10 hcm
  rw [z1] at hcm
  rw [e1, e2, e3]
  exact ⟨mac_node, hh.2.2.2.2.2, hc1, hc10, hcm⟩

/-- The failure of `fman_if_init` on the first node that fails makes
`fman_init` return the error with an empty list and a closed descriptor. -/
theorem fman_init_err_of_loop (W : World) (H : fman_h) (g gK gE : Globals) (fd : Nat)
    (pre post : List device_node) (K : device_node) (e : Int)
    (hfd : g.fman_ccsr_map_fd = -1) (hopen : W.open_ = some fd)
    (hnodes : for_each_compatible_node W.tree "fsl,dpa-ethernet-init" = pre ++ K :: post)
    (hpre : fman_init_loop W H pre
      { g with fman_ccsr_map_fd := fd, log := g.log ++ [Event.open_] } = .ok () gK)
    (hKrun : fman_if_init W H K gK = .ok e gE) (he : e ≠ 0) :
    ∃ g3, fman_init W H g = .ok e g3 ∧ g3.__ifs = [] ∧ g3.fman_ccsr_map_fd = -1 := by
  have hloop : fman_init_loop W H (pre ++ K :: post)
      { g with fman_ccsr_map_fd := fd, log := g.log ++ [Event.open_] } = .err e gE := by
    rw [fman_init_loop_append W H pre (K :: post) _ gK hpre, fman_init_loop_cons, hKrun]
    simp only [he, if_false]
  have hfdK := (fman_init_loop_ok W H pre _ gK hpre).1
  have hfdE := (fman_if_init_ok W H K gK gE e hKrun).1
  have hne : gE.fman_ccsr_map_fd ≠ -1 := by
    rw [hfdE, hfdK]
    show (fd : Int) ≠ -1
    omega
  obtain ⟨g3, hfin, hifs, hclosed⟩ := fman_finish_spec W H gE hne
  refine ⟨g3, ?_, hifs, hclosed⟩
  unfold fman_init
  have h1 : (g.fman_ccsr_map_fd != -1) = false := by simp [hfd]
  have h2 : ¬ ((fd : Int) < 0) := by omega
  simp only [h1, hopen, hnodes, hloop, hfin, h2, if_false, Bool.false_eq_true]

/-- No returning call of `fman_if_init` writes `get_once`. -/
theorem fman_if_init_get_once (W : World) (H : fman_h) (n : device_node) (g g1 : Globals)
    (r : Int) (h : fman_if_init W H n g = .ok r g1) : g1.get_once = g.get_once := by
  rcases fman_if_init_cases W H n g with ⟨_, h0⟩ | ⟨_, h1 | h1 | h1 | h1⟩
  · rw [h0] at h
    cases h
    rfl
  · obtain ⟨i, g0, _, hs, h0⟩ := h1
    rw [h0] at h
    cases h
    exact hs.2.2
  · obtain ⟨e, g0, _, hs, _, h0⟩ := h1
    rw [h0] at h
    cases h
    exact hs.2.2
  · rw [h1] at h
    cases h
  · rw [h1] at h
    cases h

/-! ### Values read from the tree -/

theorem be32_lt (p : Bytes) (i c : Nat) (h : be32 p i = some c) : c < 2 ^ 32 := by
  unfold be32 at h
  split at h
  · cases h
    omega
  · cases h

theorem be32_none_of_length_le (p : Bytes) (i : Nat) (h : p.length ≤ 4 * i) :
    be32 p i = none := by
  unfold be32
  rw [List.drop_eq_nil_of_le h]

theorem of_read_number_zero (p : Bytes) (i : Nat) : of_read_number p i 0 = some 0 := rfl

theorem of_read_number_one (p : Bytes) (i : Nat) : of_read_number p i 1 = be32 p i := by
  unfold of_read_number of_read_number_loop
  cases h : be32 p i with
  | none => rfl
  | some c =>
    simp only [of_read_number_loop]
    simp

theorem of_read_number_two_none (p : Bytes) (i m : Nat) (h : p.length ≤ 4 * (i + 1)) :
    of_read_number p i (m + 2) = none := by
  unfold of_read_number of_read_number_loop
  cases h1 : be32 p i with
  | none => rfl
  | some c =>
    simp only []
    unfold of_read_number_loop
    rw [be32_none_of_length_le p (i + 1) h]

/-- Reads of `na` cells each at the cells 1 and 3 of a four-cell property,
the first of which gives 1, are reads of one cell. -/
theorem na_eq_one_of_quadruple (p : Bytes) (na v3 : Nat) (hlen : p.length = 16)
    (h1 : of_read_number p 1 na = some 1) (h3 : of_read_number p 3 na = some v3) :
    na = 1 := by
  match na, h1, h3 with
  | 0, h1, _ =>
    rw [of_read_number_zero] at h1
    cases h1
  | 1, _, _ => rfl
  | m + 2, _, h3 =>
    rw [of_read_number_two_none p 3 m (by omega)] at h3
    cases h3

set_option maxRecDepth 4000 in
/-- What `fman_if_init_bpool` reads for the pool it builds: the node that
cell `k` refers to, and either no configuration property and zeros, or a
configuration property of six cells whose reads give count, size and address. -/
theorem fman_if_init_bpool_cfg_spec (W : World) (mac_node : device_node) (p : Bytes) (k : Nat) :
    Post (fman_if_init_bpool W mac_node p k) (fun b =>
      ∃ ph pool_node, be32 p k = some ph ∧
        of_find_node_by_phandle W.tree ph = some pool_node ∧
        ((bpool_cfg_property pool_node = none ∧ b.count = 0 ∧ b.size = 0 ∧ b.addr = 0) ∨
         (∃ prop h0 h1 h2 h3 h4 h5, bpool_cfg_property pool_node = some prop ∧
            (prop.length == 6 * 4) = true ∧
            of_read_number prop 0 (of_n_addr_cells mac_node) = some h0 ∧
            of_read_number prop 1 (of_n_addr_cells mac_node) = some h1 ∧
            of_read_number prop 2 (of_n_addr_cells mac_node) = some h2 ∧
            of_read_number prop 3 (of_n_addr_cells mac_node) = some h3 ∧
            of_read_number prop 4 (of_n_addr_cells mac_node) = some h4 ∧
            of_read_number prop 5 (of_n_addr_cells mac_node) = some h5 ∧
            b.count = ((h0 * 2 ^ 32) % 2 ^ 64) ||| h1 ∧
            b.size = ((h2 * 2 ^ 32) % 2 ^ 64) ||| h3 ∧
            b.addr = ((h4 * 2 ^ 32) % 2 ^ 64) ||| h5))) := by
  unfold fman_if_init_bpool
  dsimp only
  repeat' (first
    | exact post_goto_err _ _
    | exact post_undefined _
    | refine post_bind_FMAN_ERR (fun _ => ?_)
    | refine post_bind_assert (fun _ => ?_)
    | refine post_bind (fun _ => ?_)
    | split)
  · refine post_pure ⟨_, _, by assumption, by assumption, Or.inl ⟨?_, rfl, rfl, rfl⟩⟩
    unfold bpool_cfg_property
    assumption
  · refine post_pure ⟨_, _, by assumption, by assumption,
      Or.inr ⟨_, _, _, _, _, _, _, ?_, by assumption, by assumption, by assumption,
        by assumption, by assumption, by assumption, by assumption, rfl, rfl, rfl⟩⟩
    unfold bpool_cfg_property
    assumption

set_option maxRecDepth 4000 in
/-- What `fman_if_init_tail` reads for the frame queue ids and the pools: the
two four-cell properties, the reads at their cells, and one pool per cell of
"fsl,bman-buffer-pools". -/
theorem fman_if_init_tail_values (W : World) (n mac_node : device_node) (a : Nat)
    (i : __fman_if) :
    Post (fman_if_init_tail W n mac_node a i) (fun r =>
      (∃ rxq rx0 rx1 rx2 rx3, of_get_property n "fsl,qman-frame-queues-rx" = some rxq ∧
        (rxq.length == 4 * sizeof_phandle) = true ∧
        of_read_number rxq 0 (of_n_addr_cells mac_node) = some rx0 ∧
        of_read_number rxq 1 (of_n_addr_cells mac_node) = some rx1 ∧
        of_read_number rxq 2 (of_n_addr_cells mac_node) = some rx2 ∧
        of_read_number rxq 3 (of_n_addr_cells mac_node) = some rx3 ∧
        (rx1 == 1 && rx3 == 1) = true ∧
        r.__if.fqid_rx_err = rx0 % 2 ^ 32 ∧ r.__if.fqid_rx_def = rx2 % 2 ^ 32) ∧
      (∃ txq tx0 tx1 tx2 tx3, of_get_property n "fsl,qman-frame-queues-tx" = some txq ∧
        (txq.length == 4 * sizeof_phandle) = true ∧
        of_read_number txq 0 (of_n_addr_cells mac_node) = some tx0 ∧
        of_read_number txq 1 (of_n_addr_cells mac_node) = some tx1 ∧
        of_read_number txq 2 (of_n_addr_cells mac_node) = some tx2 ∧
        of_read_number txq 3 (of_n_addr_cells mac_node) = some tx3 ∧
        (tx1 == 1 && tx3 == 1) = true ∧
        r.__if.fqid_tx_err = tx0 % 2 ^ 32 ∧ r.__if.fqid_tx_confirm = tx2 % 2 ^ 32) ∧
      ∃ pools new, of_get_property n "fsl,bman-buffer-pools" = some pools ∧
        r.__if.bpool_list = i.__if.bpool_list ++ new ∧
        new.length = pools.length / sizeof_phandle ∧
        ∀ k (hk : k < new.length), ∃ ga gb,
          fman_if_init_bpool W mac_node pools k ga = .ok (new.get ⟨k, hk⟩) gb) := by
  unfold fman_if_init_tail
  dsimp only
  repeat' (first
    | exact post_goto_err _ _
    | exact post_undefined _
    | refine post_bind_FMAN_ERR (fun _ => ?_)
    | refine post_bind_assert (fun _ => ?_)
    | refine post_bind (fun _ => ?_)
    | split)
  rename_i pools hpools _
  refine post_mono ⟨fun g r g1 h => fman_if_init_bpools_spec W mac_node pools _ 0 _ r g g1 h⟩ ?_
  rintro r ⟨new, hr, hlen, hget⟩
  subst hr
  refine ⟨?_, ?_, pools, new, hpools, rfl, hlen, ?_⟩
  · exact ⟨_, _, _, _, _, by assumption, by assumption, by assumption, by assumption,
      by assumption, by assumption, by assumption, rfl, rfl⟩
  · exact ⟨_, _, _, _, _, by assumption, by assumption, by assumption, by assumption,
      by assumption, by assumption, by assumption, rfl, rfl⟩
  · intro k hk
    simpa using hget k hk

/-- The values in an interface that the body of `fman_if_init` builds, for the
MAC node `m` of the node: the reads of the two frame queue properties with
`of_n_addr_cells(m)` cells each, and one pool per cell of
"fsl,bman-buffer-pools". -/
theorem fman_if_init_body_values (W : World) (H : fman_h) (n : device_node)
    (g g1 : Globals) (i : __fman_if) (h : fman_if_init_body W H n g = .ok i g1) :
    ∃ m : device_node, head_requirements W n m ∧
      (∃ rxq rx0 rx1 rx2 rx3, of_get_property n "fsl,qman-frame-queues-rx" = some rxq ∧
        (rxq.length == 4 * sizeof_phandle) = true ∧
        of_read_number rxq 0 (of_n_addr_cells m) = some rx0 ∧
        of_read_number rxq 1 (of_n_addr_cells m) = some rx1 ∧
        of_read_number rxq 2 (of_n_addr_cells m) = some rx2 ∧
        of_read_number rxq 3 (of_n_addr_cells m) = some rx3 ∧
        (rx1 == 1 && rx3 == 1) = true ∧
        i.__if.fqid_rx_err = rx0 % 2 ^ 32 ∧ i.__if.fqid_rx_def = rx2 % 2 ^ 32) ∧
      (∃ txq tx0 tx1 tx2 tx3, of_get_property n "fsl,qman-frame-queues-tx" = some txq ∧
        (txq.length == 4 * sizeof_phandle) = true ∧
        of_read_number txq 0 (of_n_addr_cells m) = some tx0 ∧
        of_read_number txq 1 (of_n_addr_cells m) = some tx1 ∧
        of_read_number txq 2 (of_n_addr_cells m) = some tx2 ∧
        of_read_number txq 3 (of_n_addr_cells m) = some tx3 ∧
        (tx1 == 1 && tx3 == 1) = true ∧
        i.__if.fqid_tx_err = tx0 % 2 ^ 32 ∧ i.__if.fqid_tx_confirm = tx2 % 2 ^ 32) ∧
      ∃ pools, of_get_property n "fsl,bman-buffer-pools" = some pools ∧
        i.__if.bpool_list.length = pools.length / sizeof_phandle ∧
        ∀ k (hk : k < i.__if.bpool_list.length), ∃ ga gb,
          fman_if_init_bpool W m pools k ga = .ok (i.__if.bpool_list.get ⟨k, hk⟩) gb := by
  unfold fman_if_init_body at h
  obtain ⟨⟨mac_node, a, i0⟩, ga, hhead, h2⟩ := bind_ok h
  obtain ⟨i1, gb, hmac, htail⟩ := bind_ok h2
  have hh := (fman_if_init_head_spec W H n).out _ _ _ hhead
  have hm := (fman_if_init_mac_type_spec H mac_node i0).out _ _ _ hmac
  obtain ⟨hrx, htx, pools, new, hpools, hlist, hlen, hget⟩ :=
    (fman_if_init_tail_values W n mac_node a i1).out _ _ _ htail
  have hnil : i1.__if.bpool_list = [] := hm.1.2.2.2.2.trans hh.2.2.2.2.1
  have hnew : i.__if.bpool_list = new := by rw [hlist, hnil, List.nil_append]
  refine ⟨mac_node, hh.2.2.2.2.2, hrx, htx, pools, hpools, by rw [hnew, hlen], ?_⟩
  rw [hnew]
  exact hget

/-- The four cells of a frame queue property as the reads of `fman_if_init`
see them in a run that gets past its `assert`: one cell per read, with 1 in
the cells 1 and 3. -/
theorem quadruple_cells (q : Bytes) (na v0 v1 v2 v3 : Nat)
    (hlen : (q.length == 4 * sizeof_phandle) = true)
    (h0 : of_read_number q 0 na = some v0) (h1 : of_read_number q 1 na = some v1)
    (h2 : of_read_number q 2 na = some v2) (h3 : of_read_number q 3 na = some v3)
    (hone : (v1 == 1 && v3 == 1) = true) :
    na = 1 ∧ q.length = 16 ∧ be32 q 0 = some (v0 % 2 ^ 32) ∧ be32 q 1 = some 1 ∧
      be32 q 2 = some (v2 % 2 ^ 32) ∧ be32 q 3 = some 1 := by
  have hl : q.length = 16 := by simpa [sizeof_phandle] using hlen
  have hv : v1 = 1 ∧ v3 = 1 := by simpa using hone
  obtain ⟨hv1, hv3⟩ := hv
  subst hv1 hv3
  have hna : na = 1 := na_eq_one_of_quadruple q na 1 hl h1 h3
  subst hna
  rw [of_read_number_one] at h0 h1 h2 h3
  have l0 := be32_lt q 0 v0 h0
  have l2 := be32_lt q 2 v2 h2
  rw [Nat.mod_eq_of_lt l0, Nat.mod_eq_of_lt l2]
  exact ⟨rfl, hl, h0, h1, h2, h3⟩

theorem hi_lo_pair (hi lo : Nat) (hhi : hi < 2 ^ 32) (hlo : lo < 2 ^ 32) :
    ((hi * 2 ^ 32) % 2 ^ 64) ||| lo = hi * 2 ^ 32 + lo := by
  have h1 : hi * 2 ^ 32 < 2 ^ 64 := by omega
  rw [Nat.mod_eq_of_lt h1, Nat.mul_comm, ← Nat.mul_add_lt_is_or hlo]

theorem be32_some_le (p : Bytes) (k c : Nat) (h : be32 p k = some c) :
    4 * k + 4 ≤ p.length := by
  unfold be32 at h
  split at h
  · rename_i heq
    have := congrArg List.length heq
    simp only [List.length_drop, List.length_cons] at this
    omega
  · cases h

/-- Every node of a scan that runs to its end made `fman_if_init` return 0. -/
theorem fman_init_loop_ok_all (W : World) (H : fman_h) :
    ∀ (nodes : List device_node) (g g2 : Globals),
      fman_init_loop W H nodes g = .ok () g2 →
      ∀ n ∈ nodes, ∃ ga gb, fman_if_init W H n ga = .ok 0 gb := by
  intro nodes
  induction nodes with
  | nil =>
    intro g g2 _ n hn
    cases hn
  | cons x rest ih =>
    intro g g2 h n hn
    rw [fman_init_loop_cons] at h
    cases hx : fman_if_init W H x g with
    | ok r g1 =>
      rw [hx] at h
      by_cases hr : r = 0
      · simp only [hr, if_true] at h
        subst hr
        rcases List.mem_cons.mp hn with rfl | hmem
        · exact ⟨g, g1, hx⟩
        · exact ih g1 g2 h n hmem
      · simp only [hr, if_false] at h
        cases h
    | err e g1 => rw [hx] at h; cases h
    | abort => rw [hx] at h; cases h
    | undefined => rw [hx] at h; cases h

/-- A scan with a node on which `fman_if_init` cannot return 0 makes
`fman_init` return a non-zero value, with no interface in a list that was
empty before. -/
theorem fman_init_never_zero (W : World) (H : fman_h) (K : device_node)
    (hK : ∀ ga gb, fman_if_init W H K ga ≠ .ok 0 gb)
    (hmem : K ∈ for_each_compatible_node W.tree "fsl,dpa-ethernet-init")
    (g g1 : Globals) (r : Int) (hfd : g.fman_ccsr_map_fd = -1) (hifs : g.__ifs = [])
    (h : fman_init W H g = .ok r g1) : r ≠ 0 ∧ g1.__ifs = [] := by
  unfold fman_init at h
  have h1 : (g.fman_ccsr_map_fd != -1) = false := by simp [hfd]
  simp only [h1, Bool.false_eq_true, if_false] at h
  cases hopen : W.open_ with
  | none =>
    simp only [hopen] at h
    have : ((-1 : Int) < 0) := by decide
    simp only [this, if_true] at h
    cases h
    exact ⟨by decide, hifs⟩
  | some fd =>
    simp only [hopen] at h
    have h2 : ¬ ((fd : Int) < 0) := by omega
    simp only [h2, if_false] at h
    cases hl : fman_init_loop W H (for_each_compatible_node W.tree "fsl,dpa-ethernet-init")
        { g with fman_ccsr_map_fd := fd, log := g.log ++ [Event.open_] } with
    | ok u g2 =>
      obtain ⟨ga, gb, hab⟩ := fman_init_loop_ok_all W H _ _ _ hl K hmem
      exact absurd hab (hK ga gb)
    | err e g2 =>
      rw [hl] at h
      dsimp only at h
      obtain ⟨he, hfd2⟩ := fman_init_loop_err W H _ _ _ _ hl
      have hne : g2.fman_ccsr_map_fd ≠ -1 := by
        rw [hfd2]
        show (fd : Int) ≠ -1
        omega
      obtain ⟨g3, hfin, hempty, _⟩ := fman_finish_spec W H g2 hne
      rw [hfin] at h
      cases h
      exact ⟨he, hempty⟩
    | abort => rw [hl] at h; cases h
    | undefined => rw [hl] at h; cases h

/-! ### netcfg_layer.c -/

theorem code_bind_ok {σ α β : Type} {m : Code σ α} {f : α → Code σ β} {s s2 : σ} {b : β}
    (h : (m >>= f) s = .ok b s2) : ∃ a s1, m s = .ok a s1 ∧ f a s1 = .ok b s2 := by
  change Code.bind m f s = .ok b s2 at h
  unfold Code.bind at h
  cases hm : m s with
  | ok a s1 => rw [hm] at h; exact ⟨a, s1, rfl, h⟩
  | abort => rw [hm] at h; cases h
  | undefined => rw [hm] at h; cases h

theorem code_pure_ok {σ α : Type} {a b : α} {s s1 : σ}
    (h : (pure a : Code σ α) s = .ok b s1) : a = b ∧ s = s1 := by
  cases h
  exact ⟨rfl, rfl⟩

/-- A returning `fman_init` called from netcfg_layer.c leaves `netcfg` and
`skfd` alone. -/
theorem call_fman_init_ok (W : World) (H : fman_h) (s s1 : NetGlobals) (r : Int)
    (h : call_fman_init W H s = .ok r s1) :
    fman_init W H s.fman = .ok r s1.fman ∧ s1.netcfg = s.netcfg ∧ s1.skfd = s.skfd := by
  unfold call_fman_init at h
  split at h
  · cases h
    rename_i heq
    exact ⟨heq, rfl, rfl⟩
  · cases h
  · cases h
  · cases h

theorem code_bind_of_ok {σ α β : Type} {m : Code σ α} {f : α → Code σ β} {s s1 : σ} {a : α}
    (h : m s = .ok a s1) : (m >>= f) s = f a s1 := by
  change Code.bind m f s = f a s1
  unfold Code.bind
  rw [h]

/-! ### dpaa_bus.c: the device list -/

theorem rte_zmalloc_device_ok (W : World) (s s1 : BusGlobals) (b : Bool)
    (h : rte_zmalloc_device W s = .ok b s1) :
    b = W.rte_malloc s.fman.heap_allocs ∧
    s1 = { s with fman := { s.fman with heap_allocs := s.fman.heap_allocs + 1 } } := by
  cases h
  exact ⟨rfl, rfl⟩

/-- The first loop of `dpaa_create_device_list`: when it runs to its end it
has appended one device per port, built from the interface the port points
to. -/
theorem dpaa_create_eth_devices_spec (W : World) (B : rte_dpaa_bus_h) :
    ∀ (n i : Nat) (s s1 : BusGlobals) (r : Option Int),
      dpaa_create_eth_devices W B n i s = .ok r s1 →
      s1.dpaa_netcfg = s.dpaa_netcfg ∧ s1.fman.__ifs = s.fman.__ifs ∧
      s1.device_count = s.device_count ∧ s1.rta_sec_era = s.rta_sec_era ∧
      (r ≠ none → r = some (- ENOMEM)) ∧
      (r = none → ∃ new, s1.device_list = s.device_list ++ new ∧ new.length = n ∧
        ∀ j, j < n → ∃ netcfg cfg p intf, s.dpaa_netcfg = some netcfg ∧
          netcfg.port_cfg.get? (i + j) = some cfg ∧ cfg.fman_if = some p ∧
          s.fman.__ifs.get? p = some intf ∧
          new.get? j = some
            { id := { fman_id := (intf.__if.fman_idx + 1) % 2 ^ B.fman_id_bits,
                      mac_id := intf.__if.mac_idx % 2 ^ B.mac_id_bits,
                      device_type := B.FSL_DPAA_ETH,
                      dev_id := (i + j) % 2 ^ B.dev_id_bits },
              name := "fm" ++ sprintf_d (intf.__if.fman_idx + 1) ++ "-mac" ++
                sprintf_d intf.__if.mac_idx }) := by
  intro n
  induction n with
  | zero =>
    intro i s s1 r h
    cases h
    exact ⟨rfl, rfl, rfl, rfl, fun h => absurd rfl h,
      fun _ => ⟨[], by simp, rfl, fun j hj => absurd hj (Nat.not_lt_zero j)⟩⟩
  | succ n ih =>
    intro i s s1 r h
    unfold dpaa_create_eth_devices at h
    obtain ⟨b, sa, hz, h⟩ := code_bind_ok h
    obtain ⟨hb, hsa⟩ := rte_zmalloc_device_ok W s sa b hz
    subst hsa
    cases b with
    | false =>
      simp only [Bool.not_false, if_true] at h
      cases h
      exact ⟨rfl, rfl, rfl, rfl, fun _ => rfl, fun h => by cases h⟩
    | true =>
      simp only [Bool.not_true, Bool.false_eq_true, if_false] at h
      obtain ⟨s0, sb, hget, h⟩ := code_bind_ok h
      cases hget
      dsimp only at h
      cases hn : s.dpaa_netcfg with
      | none =>
        simp only [hn] at h
        cases h
      | some netcfg =>
        simp only [hn] at h
        cases hc : netcfg.port_cfg.get? i with
        | none =>
          simp only [hc] at h
          cases h
        | some cfg =>
          simp only [hc] at h
          cases hp : cfg.fman_if with
          | none =>
            simp only [hp] at h
            cases h
          | some p =>
            simp only [hp] at h
            cases hi : s.fman.__ifs.get? p with
            | none =>
              simp only [hi] at h
              cases h
            | some intf =>
              simp only [hi] at h
              obtain ⟨u, sc, hadd, h⟩ := code_bind_ok h
              cases hadd
              obtain ⟨k1, k2, k3, k4, k5, k6⟩ := ih (i + 1) _ s1 r h
              refine ⟨k1.trans hn.symm ▸ hn, k2, k3, k4, k5, ?_⟩
              intro hr
              obtain ⟨new, hl, hlen, hget⟩ := k6 hr
              refine ⟨{ id := { fman_id := (intf.__if.fman_idx + 1) % 2 ^ B.fman_id_bits,
                                mac_id := intf.__if.mac_idx % 2 ^ B.mac_id_bits,
                                device_type := B.FSL_DPAA_ETH,
                                dev_id := i % 2 ^ B.dev_id_bits },
                        name := "fm" ++ sprintf_d (intf.__if.fman_idx + 1) ++ "-mac" ++
                          sprintf_d intf.__if.mac_idx } :: new, ?_, by simp [hlen], ?_⟩
              · rw [hl]
                simp
              · intro j hj
                cases j with
                | zero =>
                  exact ⟨netcfg, cfg, p, intf, rfl, hc, hp, hi, rfl⟩
                | succ j =>
                  obtain ⟨netcfg1, cfg1, p1, intf1, e1, e2, e3, e4, e5⟩ := hget j (by omega)
                  refine ⟨netcfg1, cfg1, p1, intf1, ?_, ?_, e3, e4, ?_⟩
                  · exact e1
                  · rw [show i + (j + 1) = i + 1 + j by omega]
                    exact e2
                  · rw [show i + (j + 1) = i + 1 + j by omega]
                    simpa using e5

/-- The second loop of `dpaa_create_device_list`: when it runs to its end it
has appended `n` crypto devices numbered from `i`. -/
theorem dpaa_create_sec_devices_spec (W : World) (B : rte_dpaa_bus_h) :
    ∀ (n i : Nat) (s s1 : BusGlobals) (r : Option Int),
      dpaa_create_sec_devices W B n i s = .ok r s1 →
      s1.dpaa_netcfg = s.dpaa_netcfg ∧ s1.fman.__ifs = s.fman.__ifs ∧
      s1.device_count = s.device_count ∧ s1.rta_sec_era = s.rta_sec_era ∧
      (r ≠ none → r = some (-1)) ∧
      (r = none → ∃ new, s1.device_list = s.device_list ++ new ∧ new.length = n ∧
        ∀ j, j < n → new.get? j = some
          { id := { fman_id := 0, mac_id := 0, device_type := B.FSL_DPAA_CRYPTO,
                    dev_id := (s.device_count + (i + j)) % 2 ^ B.dev_id_bits },
            name := "dpaa-sec" ++ sprintf_d (i + j) }) := by
  intro n
  induction n with
  | zero =>
    intro i s s1 r h
    cases h
    exact ⟨rfl, rfl, rfl, rfl, fun h => absurd rfl h,
      fun _ => ⟨[], by simp, rfl, fun j hj => absurd hj (Nat.not_lt_zero j)⟩⟩
  | succ n ih =>
    intro i s s1 r h
    unfold dpaa_create_sec_devices at h
    obtain ⟨b, sa, hz, h⟩ := code_bind_ok h
    obtain ⟨hb, hsa⟩ := rte_zmalloc_device_ok W s sa b hz
    subst hsa
    cases b with
    | false =>
      simp only [Bool.not_false, if_true] at h
      cases h
      exact ⟨rfl, rfl, rfl, rfl, fun _ => rfl, fun h => by cases h⟩
    | true =>
      simp only [Bool.not_true, Bool.false_eq_true, if_false] at h
      obtain ⟨s0, sb, hget, h⟩ := code_bind_ok h
      cases hget
      obtain ⟨u, sc, hadd, h⟩ := code_bind_ok h
      cases hadd
      obtain ⟨k1, k2, k3, k4, k5, k6⟩ := ih (i + 1) _ s1 r h
      refine ⟨k1, k2, k3, k4, k5, ?_⟩
      intro hr
      obtain ⟨new, hl, hlen, hget⟩ := k6 hr
      refine ⟨{ id := { fman_id := 0, mac_id := 0, device_type := B.FSL_DPAA_CRYPTO,
                        dev_id := (s.device_count + i) % 2 ^ B.dev_id_bits },
                name := "dpaa-sec" ++ sprintf_d i } :: new, ?_, by simp [hlen], ?_⟩
      · rw [hl]
        simp [rte_dpaa_device.zeroed]
      · intro j hj
        cases j with
        | zero => rfl
        | succ j =>
          have e := hget j (by omega)
          rw [show i + (j + 1) = i + 1 + j by omega]
          simpa using e

theorem dpaa_sec_available_ok (W : World) (s s1 : BusGlobals) (r : Int)
    (h : dpaa_sec_available W s = .ok r s1) :
    s1.dpaa_netcfg = s.dpaa_netcfg ∧ s1.fman = s.fman ∧ s1.device_list = s.device_list ∧
    s1.device_count = s.device_count ∧
    (r ≠ 0 ↔ for_each_compatible_node W.tree "fsl,sec-v4.0" = []) := by
  unfold dpaa_sec_available at h
  cases hfe : for_each_compatible_node W.tree "fsl,sec-v4.0" with
  | nil =>
    simp only [hfe] at h
    cases h
    exact ⟨rfl, rfl, rfl, rfl, by simp⟩
  | cons caam_node rest =>
    simp only [hfe] at h
    obtain ⟨u, sa, hset, h⟩ := code_bind_ok h
    have hsa : sa.dpaa_netcfg = s.dpaa_netcfg ∧ sa.fman = s.fman ∧
        sa.device_list = s.device_list ∧ sa.device_count = s.device_count := by
      cases hp : of_get_property caam_node "fsl,sec-era" with
      | none =>
        simp only [hp] at hset
        cases hset
        exact ⟨rfl, rfl, rfl, rfl⟩
      | some prop =>
        simp only [hp] at hset
        cases hb : be32 prop 0 with
        | none =>
          simp only [hb] at hset
          cases hset
        | some era =>
          simp only [hb] at hset
          cases hset
          exact ⟨rfl, rfl, rfl, rfl⟩
    cases h
    exact ⟨hsa.1, hsa.2.1, hsa.2.2.1, hsa.2.2.2, by simp⟩

/-- What a call of `dpaa_create_device_list` that returns 0 has done: one
network device per port, then the crypto devices when a node compatible with
"fsl,sec-v4.0" exists. -/
theorem dpaa_create_device_list_ok (W : World) (B : rte_dpaa_bus_h) (s s1 : BusGlobals)
    (h : dpaa_create_device_list W B s = .ok 0 s1) :
    ∃ netcfg eth sec, s.dpaa_netcfg = some netcfg ∧
      s1.device_list = s.device_list ++ eth ++ sec ∧
      eth.length = netcfg.num_ethports ∧
      (∀ j, j < netcfg.num_ethports → ∃ cfg p intf,
          netcfg.port_cfg.get? j = some cfg ∧ cfg.fman_if = some p ∧
          s.fman.__ifs.get? p = some intf ∧
          eth.get? j = some
            { id := { fman_id := (intf.__if.fman_idx + 1) % 2 ^ B.fman_id_bits,
                      mac_id := intf.__if.mac_idx % 2 ^ B.mac_id_bits,
                      device_type := B.FSL_DPAA_ETH,
                      dev_id := j % 2 ^ B.dev_id_bits },
              name := "fm" ++ sprintf_d (intf.__if.fman_idx + 1) ++ "-mac" ++
                sprintf_d intf.__if.mac_idx }) ∧
      ((for_each_compatible_node W.tree "fsl,sec-v4.0" = [] ∧ sec = [] ∧
          s1.device_count = netcfg.num_ethports) ∨
       (for_each_compatible_node W.tree "fsl,sec-v4.0" ≠ [] ∧
          sec.length = B.FSL_DPAA_MAX_CRYPTO_DEV ∧
          s1.device_count = netcfg.num_ethports + B.FSL_DPAA_MAX_CRYPTO_DEV ∧
          ∀ j, j < B.FSL_DPAA_MAX_CRYPTO_DEV → sec.get? j = some
            { id := { fman_id := 0, mac_id := 0, device_type := B.FSL_DPAA_CRYPTO,
                      dev_id := (netcfg.num_ethports + j) % 2 ^ B.dev_id_bits },
              name := "dpaa-sec" ++ sprintf_d j })) := by
  unfold dpaa_create_device_list at h
  obtain ⟨s0, sa, hget, h⟩ := code_bind_ok h
  cases hget
  cases hn : s.dpaa_netcfg with
  | none =>
    simp only [hn] at h
    cases h
  | some netcfg =>
    simp only [hn] at h
    obtain ⟨r, sb, heth, h⟩ := code_bind_ok h
    obtain ⟨e1, e2, e3, e4, e5, e6⟩ := dpaa_create_eth_devices_spec W B _ 0 s sb r heth
    cases r with
    | some ret =>
      have hret := e5 (by simp)
      injection hret with hret
      subst hret
      dsimp only at h
      obtain ⟨u, sc, _, h⟩ := code_bind_ok h
      cases h
    | none =>
      dsimp only at h
      obtain ⟨eth, hl, hlen, hget⟩ := e6 rfl
      obtain ⟨u, sc, hmod, h⟩ := code_bind_ok h
      cases hmod
      obtain ⟨sec, sd, hsec, h⟩ := code_bind_ok h
      obtain ⟨a1, a2, a3, a4, a5⟩ := dpaa_sec_available_ok W _ sd sec hsec
      have heth : ∀ j, j < netcfg.num_ethports → ∃ cfg p intf,
          netcfg.port_cfg.get? j = some cfg ∧ cfg.fman_if = some p ∧
          s.fman.__ifs.get? p = some intf ∧
          eth.get? j = some
            { id := { fman_id := (intf.__if.fman_idx + 1) % 2 ^ B.fman_id_bits,
                      mac_id := intf.__if.mac_idx % 2 ^ B.mac_id_bits,
                      device_type := B.FSL_DPAA_ETH,
                      dev_id := j % 2 ^ B.dev_id_bits },
              name := "fm" ++ sprintf_d (intf.__if.fman_idx + 1) ++ "-mac" ++
                sprintf_d intf.__if.mac_idx } := by
        intro j hj
        obtain ⟨netcfg1, cfg, p, intf, q1, q2, q3, q4, q5⟩ := hget j hj
        rw [hn] at q1
        cases q1
        rw [Nat.zero_add] at q2 q5
        exact ⟨cfg, p, intf, q2, q3, q4, q5⟩
      by_cases hs : (sec != 0) = true
      · simp only [hs, if_true] at h
        cases h
        refine ⟨netcfg, eth, [], rfl, ?_, hlen, heth, Or.inl ⟨?_, rfl, ?_⟩⟩
        · rw [a3]
          simp [hl]
        · exact a5.1 (by simpa using hs)
        · rw [a4]
      · simp only [hs] at h
        have hs0 : sec = 0 := by simpa using hs
        obtain ⟨r2, se, hsl, h⟩ := code_bind_ok h
        obtain ⟨c1, c2, c3, c4, c5, c6⟩ := dpaa_create_sec_devices_spec W B _ 0 sd se r2 hsl
        cases r2 with
        | some ret =>
          have hret := c5 (by simp)
          injection hret with hret
          subst hret
          dsimp only at h
          obtain ⟨u, sc, _, h⟩ := code_bind_ok h
          cases h
        | none =>
          dsimp only at h
          obtain ⟨new, hl2, hlen2, hget2⟩ := c6 rfl
          obtain ⟨u, sf, hmod, h⟩ := code_bind_ok h
          cases hmod
          cases h
          refine ⟨netcfg, eth, new, rfl, ?_, hlen, heth, Or.inr ⟨?_, hlen2, ?_, ?_⟩⟩
          · show se.device_list = _
            rw [hl2, a3]
            simp [hl]
          · intro hfe
            exact absurd hs0 (a5.2 hfe)
          · show se.device_count + _ = _
            rw [c3, a4]
          · intro j hj
            have := hget2 j hj
            rw [a4, Nat.zero_add] at this
            exact this

/-! ### Decimal text -/

theorem toDigitsCore_append (fuel : Nat) : ∀ (n : Nat) (ds : List Char),
    Nat.toDigitsCore 10 fuel n ds = Nat.toDigitsCore 10 fuel n [] ++ ds := by
  induction fuel with
  | zero =>
    intro n ds
    simp [Nat.toDigitsCore]
  | succ fuel ih =>
    intro n ds
    simp only [Nat.toDigitsCore]
    split
    · simp
    · rw [ih (n / 10) (Nat.digitChar (n % 10) :: ds), ih (n / 10) [Nat.digitChar (n % 10)]]
      simp

theorem digitChar_value (k : Nat) (hk : k < 10) :
    (Nat.digitChar k).toNat - 48 = k ∧ Nat.digitChar k ≠ '-' := by
  interval_cases k <;> exact ⟨by decide, by decide⟩

/-- Reading the digits of `sprintf_d` back gives the number. -/
theorem toDigitsCore_value (fuel : Nat) : ∀ n, n < fuel →
    (Nat.toDigitsCore 10 fuel n []).foldl (fun a c => 10 * a + (c.toNat - 48)) 0 = n := by
  induction fuel with
  | zero =>
    intro n hn
    exact absurd hn (Nat.not_lt_zero n)
  | succ fuel ih =>
    intro n hn
    simp only [Nat.toDigitsCore]
    have hd := (digitChar_value (n % 10) (Nat.mod_lt n (by decide))).1
    split
    · rename_i h0
      simp only [List.foldl_cons, List.foldl_nil, hd]
      omega
    · rename_i h0
      rw [toDigitsCore_append, List.foldl_append, ih (n / 10) (by omega)]
      simp only [List.foldl_cons, List.foldl_nil, hd]
      omega

theorem toDigitsCore_no_dash (fuel : Nat) : ∀ n, '-' ∉ Nat.toDigitsCore 10 fuel n [] := by
  induction fuel with
  | zero =>
    intro n
    simp [Nat.toDigitsCore]
  | succ fuel ih =>
    intro n
    simp only [Nat.toDigitsCore]
    have hd := (digitChar_value (n % 10) (Nat.mod_lt n (by decide))).2
    split
    · simpa using hd.symm
    · rw [toDigitsCore_append]
      simp only [List.mem_append, List.mem_singleton, not_or]
      exact ⟨ih (n / 10), hd.symm⟩

theorem toDigits_injective (a b : Nat) (h : Nat.toDigits 10 a = Nat.toDigits 10 b) : a = b := by
  have ha := toDigitsCore_value (a + 1) a (Nat.lt_succ_self a)
  have hb := toDigitsCore_value (b + 1) b (Nat.lt_succ_self b)
  unfold Nat.toDigits at h
  rw [h] at ha
  exact ha.symm.trans hb

theorem append_cons_cancel {α : Type} (x : α) : ∀ (l1 l2 r1 r2 : List α),
    x ∉ l1 → x ∉ l2 → l1 ++ x :: r1 = l2 ++ x :: r2 → l1 = l2 ∧ r1 = r2 := by
  intro l1
  induction l1 with
  | nil =>
    intro l2 r1 r2 _ h2 h
    cases l2 with
    | nil =>
      simp only [List.nil_append, List.cons.injEq, true_and] at h
      exact ⟨rfl, h⟩
    | cons y l2 =>
      simp only [List.nil_append, List.cons_append, List.cons.injEq] at h
      exact absurd (h.1 ▸ List.mem_cons_self _ _) h2
  | cons y l1 ih =>
    intro l2 r1 r2 h1 h2 h
    cases l2 with
    | nil =>
      simp only [List.nil_append, List.cons_append, List.cons.injEq] at h
      exact absurd (h.1 ▸ List.mem_cons_self _ _) h1
    | cons z l2 =>
      simp only [List.cons_append, List.cons.injEq] at h
      obtain ⟨e1, e2⟩ := ih l2 r1 r2 (fun hm => h1 (List.mem_cons_of_mem _ hm))
        (fun hm => h2 (List.mem_cons_of_mem _ hm)) h.2
      exact ⟨by rw [h.1, e1], e2⟩

/-- The name of a network device determines the two numbers printed in it. -/
theorem eth_name_injective (a b c d : Nat)
    (h : "fm" ++ sprintf_d a ++ "-mac" ++ sprintf_d b
       = "fm" ++ sprintf_d c ++ "-mac" ++ sprintf_d d) : a = c ∧ b = d := by
  have hl := congrArg String.data h
  simp only [sprintf_d, String.data_append] at hl
  have hl2 : Nat.toDigits 10 a ++ '-' :: (['m', 'a', 'c'] ++ Nat.toDigits 10 b)
      = Nat.toDigits 10 c ++ '-' :: (['m', 'a', 'c'] ++ Nat.toDigits 10 d) := by
    simpa using hl
  obtain ⟨e1, e2⟩ := append_cons_cancel '-' _ _ _ _ (toDigitsCore_no_dash _ a)
    (toDigitsCore_no_dash _ c) hl2
  exact ⟨toDigits_injective a c e1, toDigits_injective b d (List.append_cancel_left e2)⟩

/-! ### dpaa_bus.c: probing -/

theorem rte_dpaa_bus_probe_drivers_eq (i : Nat) (dev : rte_dpaa_device) :
    ∀ (l : List rte_dpaa_driver) (k : Nat), rte_dpaa_bus_probe_drivers i dev l k =
      ((l.enumFrom k).find? (fun kd =>
          kd.2.driver_type == dev.id.device_type && kd.2.probe.isSome)).bind
        (fun kd => kd.2.probe.map (fun probe => { dev := i, drv := kd.1, ret := probe dev })) := by
  intro l
  induction l with
  | nil =>
    intro k
    rfl
  | cons drv rest ih =>
    intro k
    simp only [rte_dpaa_bus_probe_drivers, rte_dpaa_device_match, List.enumFrom_cons,
      List.find?_cons]
    by_cases ht : (drv.driver_type == dev.id.device_type) = true
    · cases hp : drv.probe with
      | none => simp [ht, hp, ih]
      | some probe => simp [ht, hp]
    · simp [ht, ih]

theorem rte_dpaa_bus_probe_devices_eq (driver_list : List rte_dpaa_driver) :
    ∀ (l : List rte_dpaa_device) (i : Nat), rte_dpaa_bus_probe_devices driver_list l i =
      (l.enumFrom i).filterMap (fun id =>
        ((driver_list.enumFrom 0).find? (fun kd =>
            kd.2.driver_type == id.2.id.device_type && kd.2.probe.isSome)).bind
          (fun kd => kd.2.probe.map
            (fun probe => { dev := id.1, drv := kd.1, ret := probe id.2 }))) := by
  intro l
  induction l with
  | nil =>
    intro i
    rfl
  | cons dev rest ih =>
    intro i
    simp only [rte_dpaa_bus_probe_devices, List.enumFrom_cons, List.filterMap_cons,
      rte_dpaa_bus_probe_drivers_eq, ih]
    split
    · rename_i heq
      rw [heq]
      rfl
    · rename_i b heq
      rw [heq]
      rfl

/-! ### dpaa_bus.c: portals -/

theorem pthread_setaffinity_np_run (P : PortalWorld) (cpu : Nat) (s : PortalState) :
    pthread_setaffinity_np P cpu s = .ok (P.pthread_setaffinity_np cpu)
      (if P.pthread_setaffinity_np cpu = 0 then
         { s with affinity := some cpu,
                  calls := s.calls ++ [PortalEvent.pthread_setaffinity_np cpu] }
       else { s with calls := s.calls ++ [PortalEvent.pthread_setaffinity_np cpu] }) := by
  unfold pthread_setaffinity_np
  by_cases h : P.pthread_setaffinity_np cpu = 0
  · simp only [h, beq_self_eq_true, if_true]
    rfl
  · have hb : (P.pthread_setaffinity_np cpu == 0) = false := by simpa using h
    simp only [h, hb, Bool.false_eq_true, if_false]
    rfl

theorem bman_thread_init_run (P : PortalWorld) (s : PortalState) :
    bman_thread_init P s = .ok P.bman_thread_init
      (if P.bman_thread_init = 0 then
         { s with bman_portal := true, calls := s.calls ++ [PortalEvent.bman_thread_init] }
       else { s with calls := s.calls ++ [PortalEvent.bman_thread_init] }) := by
  unfold bman_thread_init
  by_cases h : P.bman_thread_init = 0
  · simp only [h, beq_self_eq_true, if_true]
    rfl
  · have hb : (P.bman_thread_init == 0) = false := by simpa using h
    simp only [h, hb, Bool.false_eq_true, if_false]
    rfl

theorem qman_thread_init_run (P : PortalWorld) (s : PortalState) :
    qman_thread_init P s = .ok P.qman_thread_init
      (if P.qman_thread_init = 0 then
         { s with qman_portal := true, calls := s.calls ++ [PortalEvent.qman_thread_init] }
       else { s with calls := s.calls ++ [PortalEvent.qman_thread_init] }) := by
  unfold qman_thread_init
  by_cases h : P.qman_thread_init = 0
  · simp only [h, beq_self_eq_true, if_true]
    rfl
  · have hb : (P.qman_thread_init == 0) = false := by simpa using h
    simp only [h, hb, Bool.false_eq_true, if_false]
    rfl

theorem pthread_setspecific_run (P : PortalWorld) (value : Option dpaa_portal)
    (s : PortalState) :
    pthread_setspecific P value s = .ok (P.pthread_setspecific value)
      (if P.pthread_setspecific value = 0 then
         { s with dpaa_portal_key := value,
                  calls := s.calls ++ [PortalEvent.pthread_setspecific value] }
       else { s with calls := s.calls ++ [PortalEvent.pthread_setspecific value] }) := by
  unfold pthread_setspecific
  by_cases h : P.pthread_setspecific value = 0
  · simp only [h, beq_self_eq_true, if_true]
    rfl
  · have hb : (P.pthread_setspecific value == 0) = false := by simpa using h
    simp only [h, hb, Bool.false_eq_true, if_false]
    rfl

theorem ne_zero_bne (v : Int) (h : v ≠ 0) : (v != 0) = true := by simpa using h

/-- The core that `_dpaa_portal_init` chooses is given to the statements
that follow the choice. -/
theorem _dpaa_portal_init_resolved (P : PortalWorld) (arg cpu : Nat)
    (hcpu : ((arg == 1 || P.rte_lcore_id == P.LCORE_ID_ANY) = true ∧
              cpu = P.rte_get_master_lcore) ∨
            ((arg == 1 || P.rte_lcore_id == P.LCORE_ID_ANY) = false ∧
              P.rte_lcore_id < P.RTE_MAX_LCORE ∧ cpu = P.rte_lcore_id)) :
    _dpaa_portal_init P arg = _dpaa_portal_init_on P cpu := by
  unfold _dpaa_portal_init
  rcases hcpu with ⟨h1, h2⟩ | ⟨h1, h2, h3⟩
  · simp only [h1, if_true, h2]
  · have : ¬ (P.rte_lcore_id ≥ P.RTE_MAX_LCORE) := by omega
    simp only [h1, Bool.false_eq_true, if_false, this, h3]

theorem rte_dpaa_portal_init_uninit (P : PortalWorld) (arg : Nat) (s : PortalState)
    (hs : s._dpaa_io = false) : rte_dpaa_portal_init P arg s = _dpaa_portal_init P arg s := by
  unfold rte_dpaa_portal_init
  rw [code_bind_of_ok (show getS s = .ok s s from rfl)]
  simp only [hs, Bool.not_false, if_true]

/-- The run of `_dpaa_portal_init_on` when `bman_thread_init` fails. -/
theorem _dpaa_portal_init_on_bman_fails (P : PortalWorld) (cpu : Nat) (s : PortalState)
    (haff : P.pthread_setaffinity_np cpu = 0) (hb : P.bman_thread_init ≠ 0) :
    _dpaa_portal_init_on P cpu s = .ok P.bman_thread_init
      { s with affinity := some cpu,
               calls := s.calls ++ [PortalEvent.pthread_setaffinity_np cpu,
                                    PortalEvent.bman_thread_init] } := by
  unfold _dpaa_portal_init_on
  rw [code_bind_of_ok (pthread_setaffinity_np_run P cpu s)]
  simp only [haff, bne_self_eq_false, Bool.false_eq_true, if_false, if_true]
  rw [code_bind_of_ok (bman_thread_init_run P _)]
  simp only [ne_zero_bne _ hb, hb, if_true, if_false]
  simp [pure]

/-- The run of `_dpaa_portal_init_on` when `qman_thread_init` fails. -/
theorem _dpaa_portal_init_on_qman_fails (P : PortalWorld) (cpu : Nat) (s : PortalState)
    (haff : P.pthread_setaffinity_np cpu = 0) (hb : P.bman_thread_init = 0)
    (hq : P.qman_thread_init ≠ 0) :
    _dpaa_portal_init_on P cpu s = .ok P.qman_thread_init
      { s with affinity := some cpu, bman_portal := false,
               calls := s.calls ++ [PortalEvent.pthread_setaffinity_np cpu,
                                    PortalEvent.bman_thread_init,
                                    PortalEvent.qman_thread_init,
                                    PortalEvent.bman_thread_finish] } := by
  unfold _dpaa_portal_init_on
  rw [code_bind_of_ok (pthread_setaffinity_np_run P cpu s)]
  simp only [haff, bne_self_eq_false, Bool.false_eq_true, if_false, if_true]
  rw [code_bind_of_ok (bman_thread_init_run P _)]
  simp only [hb, bne_self_eq_false, Bool.false_eq_true, if_false, if_true]
  rw [code_bind_of_ok (qman_thread_init_run P _)]
  simp only [ne_zero_bne _ hq, hq, if_true, if_false]
  simp [pure, bind, Code.bind, bman_thread_finish, called, modifyS]

/-- The run of `_dpaa_portal_init_on` when the handle cannot be allocated. -/
theorem _dpaa_portal_init_on_malloc_fails (P : PortalWorld) (cpu : Nat) (s : PortalState)
    (haff : P.pthread_setaffinity_np cpu = 0) (hb : P.bman_thread_init = 0)
    (hq : P.qman_thread_init = 0) (hm : P.rte_malloc = false) :
    _dpaa_portal_init_on P cpu s = .ok (- ENOMEM)
      { s with affinity := some cpu, bman_portal := false, qman_portal := false,
               calls := s.calls ++ [PortalEvent.pthread_setaffinity_np cpu,
                                    PortalEvent.bman_thread_init,
                                    PortalEvent.qman_thread_init,
                                    PortalEvent.rte_malloc,
                                    PortalEvent.bman_thread_finish,
                                    PortalEvent.qman_thread_finish] } := by
  unfold _dpaa_portal_init_on
  rw [code_bind_of_ok (pthread_setaffinity_np_run P cpu s)]
  simp only [haff, bne_self_eq_false, Bool.false_eq_true, if_false, if_true]
  rw [code_bind_of_ok (bman_thread_init_run P _)]
  simp only [hb, bne_self_eq_false, Bool.false_eq_true, if_false, if_true]
  rw [code_bind_of_ok (qman_thread_init_run P _)]
  simp only [hq, bne_self_eq_false, Bool.false_eq_true, if_false, if_true, hm, Bool.not_false]
  simp [pure, bind, Code.bind, bman_thread_finish, qman_thread_finish, called, modifyS]

/-- The run of `_dpaa_portal_init_on` when everything before the call of
`pthread_setspecific` succeeds; `h` is the handle that is allocated. -/
theorem _dpaa_portal_init_on_bind (P : PortalWorld) (cpu : Nat) (s : PortalState)
    (h : dpaa_portal)
    (hh : h = { qman_idx := P.qman_get_portal_index, bman_idx := P.bman_get_portal_index,
                tid := P.gettid })
    (haff : P.pthread_setaffinity_np cpu = 0) (hb : P.bman_thread_init = 0)
    (hq : P.qman_thread_init = 0) (hm : P.rte_malloc = true) :
    _dpaa_portal_init_on P cpu s =
      (if P.pthread_setspecific (some h) = 0 then
        .ok 0
          { s with _dpaa_io := true, affinity := some cpu, bman_portal := true,
                   qman_portal := true, dpaa_portal_key := some h,
                   handles := s.handles ++ [h],
                   calls := s.calls ++ [PortalEvent.pthread_setaffinity_np cpu,
                     PortalEvent.bman_thread_init, PortalEvent.qman_thread_init,
                     PortalEvent.rte_malloc, PortalEvent.pthread_setspecific (some h)] }
       else
        .ok (P.pthread_setspecific (some h))
          { s with affinity := some cpu, bman_portal := true, qman_portal := true,
                   handles := s.handles ++ [h],
                   calls := s.calls ++ [PortalEvent.pthread_setaffinity_np cpu,
                     PortalEvent.bman_thread_init, PortalEvent.qman_thread_init,
                     PortalEvent.rte_malloc, PortalEvent.pthread_setspecific (some h)] }) := by
  unfold _dpaa_portal_init_on
  rw [code_bind_of_ok (pthread_setaffinity_np_run P cpu s)]
  simp only [haff, bne_self_eq_false, Bool.false_eq_true, if_false, if_true]
  rw [code_bind_of_ok (bman_thread_init_run P _)]
  simp only [hb, bne_self_eq_false, Bool.false_eq_true, if_false, if_true]
  rw [code_bind_of_ok (qman_thread_init_run P _)]
  simp only [hq, bne_self_eq_false, Bool.false_eq_true, if_false, if_true, hm, Bool.not_true]
  rw [code_bind_of_ok (show called PortalEvent.rte_malloc _ = .ok () _ from rfl)]
  rw [code_bind_of_ok (show modifyS _ _ = .ok () _ from rfl)]
  rw [code_bind_of_ok (pthread_setspecific_run P _ _)]
  rw [← hh]
  by_cases hsp : P.pthread_setspecific (some h) = 0
  · simp only [hsp, bne_self_eq_false, Bool.false_eq_true, if_false, if_true]
    simp [pure, bind, Code.bind, modifyS, called]
  · simp only [ne_zero_bne _ hsp, hsp, if_true, if_false]
    simp [pure, bind, Code.bind, dpaa_portal_finish, modifyS, called]

/-- The run of `dpaa_portal_finish` on a handle that is allocated. -/
theorem dpaa_portal_finish_run (P : PortalWorld) (h : dpaa_portal) (s : PortalState)
    (hmem : h ∈ s.handles) :
    dpaa_portal_finish P (some h) s = .ok ()
      { s with _dpaa_io := false, bman_portal := false, qman_portal := false,
               dpaa_portal_key :=
                 (if P.pthread_setspecific none = 0 then none else s.dpaa_portal_key),
               handles := s.handles.erase h,
               calls := s.calls ++ [PortalEvent.bman_thread_finish,
                 PortalEvent.qman_thread_finish, PortalEvent.pthread_setspecific none,
                 PortalEvent.rte_free h] } := by
  unfold dpaa_portal_finish
  dsimp only
  rw [code_bind_of_ok (show bman_thread_finish s = .ok () _ from rfl)]
  rw [code_bind_of_ok (show qman_thread_finish _ = .ok () _ from rfl)]
  rw [code_bind_of_ok (pthread_setspecific_run P _ _)]
  unfold rte_free_portal
  by_cases hsp : P.pthread_setspecific none = 0
  · simp [hsp, pure, bind, Code.bind, modifyS, called, getS, hmem]
  · simp [hsp, pure, bind, Code.bind, modifyS, called, getS, hmem]

/-! ### The dealloc masks -/

theorem keeps_pure {α : Type} (a : α) : KeepsMasks (pure a : M α) := by
  constructor
  intro g b g1 h
  cases h
  exact ⟨rfl, rfl, rfl⟩

theorem keeps_bind {α β : Type} {m : M α} {f : α → M β} (hm : KeepsMasks m)
    (hf : ∀ a, KeepsMasks (f a)) : KeepsMasks (m >>= f) := by
  constructor
  intro g b g2 h
  obtain ⟨a, g1, h1, h2⟩ := bind_ok h
  obtain ⟨p1, p2, p3⟩ := hm.out g a g1 h1
  obtain ⟨q1, q2, q3⟩ := (hf a).out g1 b g2 h2
  exact ⟨q1.trans p1, q2.trans p2, q3.trans p3⟩

theorem keeps_goto_err {α : Type} (rc : Int) : KeepsMasks (goto_err rc : M α) := by
  constructor
  intro g b g1 h
  cases h

theorem keeps_undefined {α : Type} : KeepsMasks (undefined : M α) := by
  constructor
  intro g b g1 h
  cases h

theorem keeps_FMAN_ERR (cond : Bool) (rc : Int) : KeepsMasks (FMAN_ERR cond rc) := by
  unfold FMAN_ERR
  cases cond
  · exact keeps_pure _
  · exact keeps_goto_err rc

theorem keeps_assert (c : Bool) : KeepsMasks (assert c) := by
  constructor
  intro g b g1 h
  unfold assert at h
  cases c
  · cases h
  · cases h
    exact ⟨rfl, rfl, rfl⟩

theorem keeps_rte_malloc (W : World) : KeepsMasks (rte_malloc W) := by
  constructor
  intro g b g1 h
  cases h
  exact ⟨rfl, rfl, rfl⟩

theorem keeps_mmap (W : World) (l o : Nat) : KeepsMasks (mmap W l o) := by
  constructor
  intro g b g1 h
  cases h
  exact ⟨rfl, rfl, rfl⟩

theorem keeps_fman_if_init_bpool (W : World) (mac_node : device_node) (p : Bytes) (i : Nat) :
    KeepsMasks (fman_if_init_bpool W mac_node p i) := by
  unfold fman_if_init_bpool
  repeat (first
    | apply keeps_pure
    | apply keeps_rte_malloc
    | apply keeps_undefined
    | apply keeps_assert
    | apply keeps_FMAN_ERR
    | apply keeps_goto_err
    | apply keeps_bind
    | split
    | intro _
    | dsimp only)

theorem keeps_fman_if_init_bpools (W : World) (mac_node : device_node) (p : Bytes) (n : Nat) :
    ∀ (i : Nat) (__if : __fman_if), KeepsMasks (fman_if_init_bpools W mac_node p n i __if) := by
  induction n with
  | zero => intro i __if; exact keeps_pure _
  | succ n ih =>
    intro i __if
    unfold fman_if_init_bpools
    exact keeps_bind (keeps_fman_if_init_bpool W mac_node p i) (fun b => ih _ _)

theorem keeps_fman_if_init_mac_type (H : fman_h) (mac_node : device_node) (__if : __fman_if) :
    KeepsMasks (fman_if_init_mac_type H mac_node __if) := by
  unfold fman_if_init_mac_type
  repeat (first
    | apply keeps_pure
    | apply keeps_undefined
    | apply keeps_goto_err
    | split
    | dsimp only)

set_option maxRecDepth 4000 in
theorem keeps_fman_if_init_tail (W : World) (n mac_node : device_node) (a : Nat)
    (__if : __fman_if) : KeepsMasks (fman_if_init_tail W n mac_node a __if) := by
  unfold fman_if_init_tail
  repeat (first
    | apply keeps_pure
    | apply keeps_mmap
    | apply keeps_undefined
    | apply keeps_assert
    | apply keeps_fman_if_init_bpools
    | apply keeps_FMAN_ERR
    | apply keeps_goto_err
    | apply keeps_bind
    | split
    | intro _
    | dsimp only)

theorem after_bind {α β : Type} {m : M α} {f : α → M β} {Q : Globals → Prop}
    (hf : ∀ a, After (f a) Q) : After (m >>= f) Q := by
  constructor
  intro g b g2 h
  obtain ⟨a, g1, _, h2⟩ := bind_ok h
  exact (hf a).out g1 b g2 h2

theorem after_goto_err {α : Type} (rc : Int) (Q : Globals → Prop) :
    After (goto_err rc : M α) Q := by
  constructor
  intro g b g1 h
  cases h

theorem after_undefined {α : Type} (Q : Globals → Prop) : After (undefined : M α) Q := by
  constructor
  intro g b g1 h
  cases h

/-- The last statements of `fman_if_init_head`: the test of `fman_ip_rev`
against `FMAN_V3` and the two assignments of the masks in each branch. -/
theorem after_masks {α : Type} (H : fman_h) (r : α) :
    After (getG >>= fun g =>
        (if g.fman_ip_rev ≥ H.FMAN_V3 then
           modifyG (fun g => { g with
             fman_dealloc_bufs_mask_hi :=
               (H.FMAN_V3_CONTEXTA_EN_A2V ||| H.FMAN_V3_CONTEXTA_EN_OVOM) % 2 ^ 32,
             fman_dealloc_bufs_mask_lo := H.FMAN_V3_CONTEXTA_EN_EBD % 2 ^ 32 })
         else
           modifyG (fun g => { g with
             fman_dealloc_bufs_mask_hi := 0, fman_dealloc_bufs_mask_lo := 0 })) >>=
        fun _ => (pure r : M α))
      (fun g =>
        (H.FMAN_V3 ≤ g.fman_ip_rev →
          g.fman_dealloc_bufs_mask_hi =
            (H.FMAN_V3_CONTEXTA_EN_A2V ||| H.FMAN_V3_CONTEXTA_EN_OVOM) % 2 ^ 32 ∧
          g.fman_dealloc_bufs_mask_lo = H.FMAN_V3_CONTEXTA_EN_EBD % 2 ^ 32) ∧
        (g.fman_ip_rev < H.FMAN_V3 →
          g.fman_dealloc_bufs_mask_hi = 0 ∧ g.fman_dealloc_bufs_mask_lo = 0)) := by
  constructor
  intro g b g3 h
  obtain ⟨g0, g1, hget, h⟩ := bind_ok h
  cases hget
  obtain ⟨u, g2, hset, h⟩ := bind_ok h
  cases h
  by_cases hrev : g.fman_ip_rev ≥ H.FMAN_V3
  · simp only [hrev, if_true] at hset
    cases hset
    exact ⟨fun _ => ⟨rfl, rfl⟩, fun hlt => absurd hrev (by simpa using hlt)⟩
  · simp only [hrev, if_false] at hset
    cases hset
    exact ⟨fun hge => absurd hge hrev, fun _ => ⟨rfl, rfl⟩⟩

set_option maxRecDepth 4000 in
/-- When `fman_if_init_head` runs to its end the two masks are as the test of
`fman_ip_rev` against `FMAN_V3` set them. -/
theorem after_fman_if_init_head (W : World) (H : fman_h) (n : device_node) :
    After (fman_if_init_head W H n)
      (fun g =>
        (H.FMAN_V3 ≤ g.fman_ip_rev →
          g.fman_dealloc_bufs_mask_hi =
            (H.FMAN_V3_CONTEXTA_EN_A2V ||| H.FMAN_V3_CONTEXTA_EN_OVOM) % 2 ^ 32 ∧
          g.fman_dealloc_bufs_mask_lo = H.FMAN_V3_CONTEXTA_EN_EBD % 2 ^ 32) ∧
        (g.fman_ip_rev < H.FMAN_V3 →
          g.fman_dealloc_bufs_mask_hi = 0 ∧ g.fman_dealloc_bufs_mask_lo = 0)) := by
  unfold fman_if_init_head
  dsimp only
  repeat' (first
    | exact after_masks H _
    | exact after_goto_err _ _
    | exact after_undefined _
    | refine after_bind (fun _ => ?_)
    | split)

/-- The run of `_dpaa_portal_init_on` when the thread cannot be pinned. -/
theorem _dpaa_portal_init_on_affinity_fails (P : PortalWorld) (cpu : Nat) (s : PortalState)
    (haff : P.pthread_setaffinity_np cpu ≠ 0) :
    _dpaa_portal_init_on P cpu s = .ok (P.pthread_setaffinity_np cpu)
      { s with calls := s.calls ++ [PortalEvent.pthread_setaffinity_np cpu] } := by
  unfold _dpaa_portal_init_on
  rw [code_bind_of_ok (pthread_setaffinity_np_run P cpu s)]
  simp only [ne_zero_bne _ haff, haff, if_true, if_false]
  rfl

/-- Every run of `_dpaa_portal_init_on` returns; its first call is
`pthread_setaffinity_np` for the core it was given, and when that call
succeeds the thread is pinned to the core and `bman_thread_init` is the next
call. -/
theorem _dpaa_portal_init_on_pins (P : PortalWorld) (cpu : Nat) (s : PortalState) :
    ∃ r s1 rest, _dpaa_portal_init_on P cpu s = .ok r s1 ∧
      s1.calls = s.calls ++ PortalEvent.pthread_setaffinity_np cpu :: rest ∧
      (P.pthread_setaffinity_np cpu = 0 →
        s1.affinity = some cpu ∧ rest.head? = some PortalEvent.bman_thread_init) ∧
      (P.pthread_setaffinity_np cpu ≠ 0 →
        r = P.pthread_setaffinity_np cpu ∧ rest = [] ∧ s1.affinity = s.affinity) := by
  by_cases haff : P.pthread_setaffinity_np cpu = 0
  · by_cases hb : P.bman_thread_init = 0
    · by_cases hq : P.qman_thread_init = 0
      · cases hm : P.rte_malloc with
        | false =>
          exact ⟨_, _, [PortalEvent.bman_thread_init, PortalEvent.qman_thread_init,
              PortalEvent.rte_malloc, PortalEvent.bman_thread_finish,
              PortalEvent.qman_thread_finish],
            _dpaa_portal_init_on_malloc_fails P cpu s haff hb hq hm, rfl,
            fun _ => ⟨rfl, rfl⟩, fun h => absurd haff h⟩
        | true =>
          obtain ⟨h, hh⟩ : ∃ h : dpaa_portal,
              h = ⟨P.bman_get_portal_index, P.qman_get_portal_index, P.gettid⟩ := ⟨_, rfl⟩
          have hrun := _dpaa_portal_init_on_bind P cpu s h hh haff hb hq hm
          by_cases hsp : P.pthread_setspecific (some h) = 0
          · simp only [hsp, if_true] at hrun
            exact ⟨_, _, [PortalEvent.bman_thread_init, PortalEvent.qman_thread_init,
                PortalEvent.rte_malloc, PortalEvent.pthread_setspecific (some h)],
              hrun, rfl, fun _ => ⟨rfl, rfl⟩, fun h => absurd haff h⟩
          · simp only [hsp, if_false] at hrun
            exact ⟨_, _, [PortalEvent.bman_thread_init, PortalEvent.qman_thread_init,
                PortalEvent.rte_malloc, PortalEvent.pthread_setspecific (some h)],
              hrun, rfl, fun _ => ⟨rfl, rfl⟩, fun h => absurd haff h⟩
      · exact ⟨_, _, [PortalEvent.bman_thread_init, PortalEvent.qman_thread_init,
            PortalEvent.bman_thread_finish],
          _dpaa_portal_init_on_qman_fails P cpu s haff hb hq, rfl,
          fun _ => ⟨rfl, rfl⟩, fun h => absurd haff h⟩
    · exact ⟨_, _, [PortalEvent.bman_thread_init],
        _dpaa_portal_init_on_bman_fails P cpu s haff hb, rfl,
        fun _ => ⟨rfl, rfl⟩, fun h => absurd haff h⟩
  · exact ⟨_, _, [], _dpaa_portal_init_on_affinity_fails P cpu s haff, rfl,
      fun h => absurd h haff, fun _ => ⟨rfl, rfl, rfl⟩⟩

/-! ## The claims -/


/-- C1: `fman_get_mac_index` sends the ten offsets `0xE0000`, `0xE2000`, ...,
`0xF2000` to the indices 1, 2, ..., 10 and returns 0; for every other 64-bit
offset it returns `-EINVAL` and `*mac_idx` keeps the value it had. -/
theorem fman_get_mac_index_table (m : Nat) :
    fman_get_mac_index 0xE0000 m = (0, 1) ∧ fman_get_mac_index 0xE2000 m = (0, 2) ∧
    fman_get_mac_index 0xE4000 m = (0, 3) ∧ fman_get_mac_index 0xE6000 m = (0, 4) ∧
    fman_get_mac_index 0xE8000 m = (0, 5) ∧ fman_get_mac_index 0xEA000 m = (0, 6) ∧
    fman_get_mac_index 0xEC000 m = (0, 7) ∧ fman_get_mac_index 0xEE000 m = (0, 8) ∧
    fman_get_mac_index 0xF0000 m = (0, 9) ∧ fman_get_mac_index 0xF2000 m = (0, 10) ∧
    (∀ a : Nat, a < 2 ^ 64 → a ∉ mac_offsets →
      fman_get_mac_index a m = (-EINVAL, m)) := by
  refine ⟨rfl, rfl, rfl, rfl, rfl, rfl, rfl, rfl, rfl, rfl, ?_⟩
  intro a _ ha
  simp only [mac_offsets, List.mem_cons, List.mem_singleton, not_or, List.mem_nil_iff,
    not_false_eq_true, and_true] at ha
  obtain ⟨h1, h2, h3, h4, h5, h6, h7, h8, h9, h10⟩ := ha
  unfold fman_get_mac_index
  split <;> first | rfl | contradiction

/-- Witness for C1: offset 0 is a 64-bit value outside the table. -/
theorem fman_get_mac_index_table_witness :
    (0 : Nat) < 2 ^ 64 ∧ (0 : Nat) ∉ mac_offsets ∧
    fman_get_mac_index 0 7 = (-EINVAL, 7) :=
  ⟨by decide, by decide,
    (fman_get_mac_index_table 7).2.2.2.2.2.2.2.2.2.2 0 (by decide) (by decide)⟩

/-- C2: when `fman_if_init` fails on the node at position `pre.length` of the
compatible nodes, after returning 0 on the nodes before it, `fman_init`
returns that same non-zero error, the list `__ifs` is empty afterwards and
`fman_ccsr_map_fd` is -1 again. -/
theorem fman_init_failure_rollback (W : World) (H : fman_h) (g : Globals) (fd : Nat)
    (pre post : List device_node) (K : device_node) (e : Int)
    (hfd : g.fman_ccsr_map_fd = -1) (hopen : W.open_ = some fd)
    (hnodes : for_each_compatible_node W.tree "fsl,dpa-ethernet-init" = pre ++ K :: post)
    (hK : ((fman_init_loop W H pre >>= fun _ => fman_if_init W H K)
            { g with fman_ccsr_map_fd := fd, log := g.log ++ [Event.open_] }).value = some e)
    (he : e ≠ 0) :
    ∃ g3, fman_init W H g = .ok e g3 ∧ g3.__ifs = [] ∧ g3.fman_ccsr_map_fd = -1 := by
  cases hrun : (fman_init_loop W H pre >>= fun _ => fman_if_init W H K)
      { g with fman_ccsr_map_fd := fd, log := g.log ++ [Event.open_] } with
  | ok r gE =>
    rw [hrun] at hK
    cases hK
    obtain ⟨u, gK, hpre, hKrun⟩ := bind_ok hrun
    exact fman_init_err_of_loop W H g gK gE fd pre post K e hfd hopen hnodes hpre hKrun he
  | err e1 gE => rw [hrun] at hK; cases hK
  | abort => rw [hrun] at hK; cases hK
  | undefined => rw [hrun] at hK; cases hK

/-- Witness for C2: on `ex_tree_bad` the second network node lacks its frame
queues, `fman_if_init` returns `-EINVAL` for it and `fman_init` rolls back. -/
theorem fman_init_failure_rollback_witness :
    ∃ g3, fman_init (ex_world ex_tree_bad) hdr Globals.init = .ok (-22) g3 ∧ g3.__ifs = [] ∧
      g3.fman_ccsr_map_fd = -1 :=
  fman_init_failure_rollback (ex_world ex_tree_bad) hdr Globals.init 3
    [ex_dpa "/fsl,dpaa/ethernet@0" 1 true] [] (ex_dpa_bad "/fsl,dpaa/ethernet@1" 2) (-22)
    rfl rfl (by decide!) (by decide!) (by decide)

/-- C3: with the descriptor already open `fman_init` returns 0 and leaves every
variable as it was; so a call of `fman_init` that follows one that returned 0
returns 0 and changes nothing. -/
theorem fman_init_idempotent (W : World) (H : fman_h) (g : Globals) :
    (g.fman_ccsr_map_fd ≠ -1 → fman_init W H g = .ok 0 g) ∧
    (∀ g1, fman_init W H g = .ok 0 g1 → fman_init W H g1 = .ok 0 g1) := by
  have key : ∀ g0 : Globals, g0.fman_ccsr_map_fd ≠ -1 → fman_init W H g0 = .ok 0 g0 := by
    intro g0 h0
    unfold fman_init
    have hb : (g0.fman_ccsr_map_fd != -1) = true := by simpa using h0
    simp only [hb, if_true]
  refine ⟨key g, ?_⟩
  intro g1 h
  apply key
  by_cases hfd : g.fman_ccsr_map_fd = -1
  · unfold fman_init at h
    have h1 : (g.fman_ccsr_map_fd != -1) = false := by simp [hfd]
    simp only [h1, Bool.false_eq_true, if_false] at h
    cases hopen : W.open_ with
    | none =>
      simp only [hopen] at h
      have : ((-1 : Int) < 0) := by decide
      simp only [this, if_true] at h
      cases h
    | some fd =>
      simp only [hopen] at h
      have h2 : ¬ ((fd : Int) < 0) := by omega
      simp only [h2, if_false] at h
      cases hl : fman_init_loop W H (for_each_compatible_node W.tree "fsl,dpa-ethernet-init")
          { g with fman_ccsr_map_fd := fd, log := g.log ++ [Event.open_] } with
      | ok u g2 =>
        rw [hl] at h
        cases h
        rw [(fman_init_loop_ok W H _ _ _ hl).1]
        show (fd : Int) ≠ -1
        omega
      | err e g2 =>
        rw [hl] at h
        dsimp only at h
        have he := (fman_init_loop_err W H _ _ _ _ hl).1
        cases hf : fman_finish W H g2 with
        | ok u g3 => rw [hf] at h; cases h; exact absurd rfl he
        | err e3 g3 => rw [hf] at h; cases h
        | abort => rw [hf] at h; cases h
        | undefined => rw [hf] at h; cases h
      | abort => rw [hl] at h; cases h
      | undefined => rw [hl] at h; cases h
  · rw [key g hfd] at h
    cases h
    exact hfd

/-- Witness for C3: `fman_init` on `ex_tree` from the initial state returns 0
in the state `ex_bound`, whose descriptor is open, and a second call leaves
`ex_bound` as it is. -/
theorem fman_init_idempotent_witness :
    ex_bound.fman_ccsr_map_fd ≠ -1 ∧
    fman_init (ex_world ex_tree) hdr Globals.init = .ok 0 ex_bound ∧
    fman_init (ex_world ex_tree) hdr ex_bound = .ok 0 ex_bound :=
  ⟨by decide!, by decide!,
    (fman_init_idempotent (ex_world ex_tree) hdr Globals.init).2 ex_bound (by decide!)⟩

/-- C4: a call of `fman_init` that starts with the descriptor closed and
returns 0 adds to `__ifs` exactly one interface per available compatible
node, in node order (the paths of the new interfaces are the paths of the
available nodes); for an unavailable node `fman_if_init` returns 0 and
changes nothing. -/
theorem fman_init_one_interface_per_available_node (W : World) (H : fman_h) (g g1 : Globals)
    (hfd : g.fman_ccsr_map_fd = -1) (h : fman_init W H g = .ok 0 g1) :
    (∃ new : List __fman_if, g1.__ifs = g.__ifs ++ new ∧
      new.length = ((for_each_compatible_node W.tree "fsl,dpa-ethernet-init").filter
        of_device_is_available).length ∧
      new.map (fun i => i.node_path) =
        ((for_each_compatible_node W.tree "fsl,dpa-ethernet-init").filter
          of_device_is_available).map
          (fun n => (⟨n.full_name.data.take (PATH_MAX - 1)⟩ : String))) ∧
    (∀ (n : device_node) (g0 : Globals), of_device_is_available n = false →
      fman_if_init W H n g0 = .ok 0 g0) := by
  constructor
  · unfold fman_init at h
    have h1 : (g.fman_ccsr_map_fd != -1) = false := by simp [hfd]
    simp only [h1, Bool.false_eq_true, if_false] at h
    cases hopen : W.open_ with
    | none =>
      simp only [hopen] at h
      have : ((-1 : Int) < 0) := by decide
      simp only [this, if_true] at h
      cases h
    | some fd =>
      simp only [hopen] at h
      have h2 : ¬ ((fd : Int) < 0) := by omega
      simp only [h2, if_false] at h
      cases hl : fman_init_loop W H (for_each_compatible_node W.tree "fsl,dpa-ethernet-init")
          { g with fman_ccsr_map_fd := fd, log := g.log ++ [Event.open_] } with
      | ok u g2 =>
        rw [hl] at h
        cases h
        obtain ⟨_, new, hnew, hpaths⟩ := fman_init_loop_ok W H _ _ _ hl
        refine ⟨new, hnew, ?_, hpaths⟩
        have := congrArg List.length hpaths
        simpa using this
      | err e g2 =>
        rw [hl] at h
        dsimp only at h
        have he := (fman_init_loop_err W H _ _ _ _ hl).1
        cases hf : fman_finish W H g2 with
        | ok u g3 => rw [hf] at h; cases h; exact absurd rfl he
        | err e3 g3 => rw [hf] at h; cases h
        | abort => rw [hf] at h; cases h
        | undefined => rw [hf] at h; cases h
      | abort => rw [hl] at h; cases h
      | undefined => rw [hl] at h; cases h
  · intro n g0 hav
    unfold fman_if_init
    simp [hav]

/-- Witness for C4: `ex_tree` has two available network nodes and one
unavailable node between them; `fman_init` returns 0 in the state `ex_bound`. -/
theorem fman_init_one_interface_per_available_node_witness :
    ∃ new : List __fman_if, ex_bound.__ifs = [] ++ new ∧ new.length = 2 ∧
      new.map (fun i => i.node_path) = ["/fsl,dpaa/ethernet@0", "/fsl,dpaa/ethernet@1"] :=
  (fman_init_one_interface_per_available_node (ex_world ex_tree) hdr Globals.init ex_bound
    rfl (by decide!)).1

/-- C6: `fman_if_init` is all-or-nothing for the list `__ifs`.  When it returns
a non-zero value the list is what it was before the call; the list changes
only on the path that returns 0, by one interface added at the tail; and for
an available node it returns 0 only when the required properties are present,
the phandles resolve and the register banks translate. -/
theorem fman_if_init_all_or_nothing (W : World) (H : fman_h) (n : device_node)
    (g g1 : Globals) (r : Int) (h : fman_if_init W H n g = .ok r g1) :
    (r ≠ 0 → g1.__ifs = g.__ifs) ∧
    (g1.__ifs ≠ g.__ifs → r = 0 ∧ ∃ i, g1.__ifs = g.__ifs ++ [i]) ∧
    (of_device_is_available n = true → r = 0 →
      ∃ mac_node pools, head_requirements W n mac_node ∧ tail_requirements W n mac_node ∧
        of_get_property n "fsl,bman-buffer-pools" = some pools) := by
  obtain ⟨_, hcase⟩ := fman_if_init_ok W H n g g1 r h
  rcases hcase with ⟨hne, hsame⟩ | ⟨hr, hav, hg⟩ | ⟨hr, hav, i, g0, hbody, hifs⟩
  · exact ⟨fun _ => hsame, fun hch => absurd hsame hch, fun _ hr => absurd hr hne⟩
  · subst hg
    refine ⟨fun _ => rfl, fun hch => absurd rfl hch, fun hav2 _ => ?_⟩
    rw [hav] at hav2
    cases hav2
  · refine ⟨fun hne => absurd hr hne, fun _ => ⟨hr, i, hifs⟩, fun _ _ => ?_⟩
    obtain ⟨mac_node, pools, hh, ht, hpools, _⟩ := fman_if_init_body_spec W H n g g0 i hbody
    exact ⟨mac_node, pools, hh, ht, hpools⟩

/-- Witness for C6: the node of `ex_tree_bad` without frame queue properties
makes `fman_if_init` return `-EINVAL` and the list stays empty. -/
theorem fman_if_init_all_or_nothing_witness :
    fman_if_init (ex_world ex_tree_bad) hdr (ex_dpa_bad "/fsl,dpaa/ethernet@1" 2) ex_opened
      = .ok (-22) (ex_after ex_tree_bad (ex_dpa_bad "/fsl,dpaa/ethernet@1" 2) ex_opened) ∧
    (ex_after ex_tree_bad (ex_dpa_bad "/fsl,dpaa/ethernet@1" 2) ex_opened).__ifs
      = ex_opened.__ifs :=
  ⟨by decide!,
    (fman_if_init_all_or_nothing (ex_world ex_tree_bad) hdr
      (ex_dpa_bad "/fsl,dpaa/ethernet@1" 2) ex_opened
      (ex_after ex_tree_bad (ex_dpa_bad "/fsl,dpaa/ethernet@1" 2) ex_opened) (-22)
      (by decide!)).1 (by decide)⟩

/-- C7, the code at a run that binds two nodes: `fman_init` on `ex_tree` binds
the two available nodes and reads the revision register (`FMAN_IP_REV_1` in
the bank mapped at `0x1a00000`) once for each of them, twice in all;
`get_once` is 0 after the run as before it. -/
theorem fman_get_ip_rev_read_for_every_node :
    fman_init (ex_world ex_tree) hdr Globals.init = .ok 0 ex_bound ∧
    ex_bound.__ifs.length = 2 ∧
    register_reads (0x1a00000 + hdr.FMAN_IP_REV_1) ex_bound.log = 2 ∧
    Globals.init.get_once = 0 ∧ ex_bound.get_once = 0 := by
  decide!

/-- C8, the code at a multi-rate MAC whose PHY connection type is
"unknown-phy": `fman_if_init` binds the interface with `is_memac` 1 and
`is_rgmii` 0, and `mac_type` keeps the 0 of the `memset`, which is
`fman_offline` and not `fman_mac_1g` when the enumerators are numbered in
that order; without the property the interface is bound as `fman_mac_1g`. -/
theorem fman_if_init_unknown_phy_keeps_zero :
    (ex_bound_mac hdr "fsl,fman-memac" (some (lit "unknown-phy" ++ [0]))).map
        (fun i => (i.__if.mac_type, i.__if.is_memac, i.__if.is_rgmii))
      = [(0, 1, 0)] ∧
    hdr.fman_offline = 0 ∧ hdr.fman_mac_1g ≠ 0 ∧
    (ex_bound_mac hdr "fsl,fman-memac" none).map
        (fun i => (i.__if.mac_type, i.__if.is_memac, i.__if.is_rgmii))
      = [(hdr.fman_mac_1g, 1, 0)] := by
  decide!

/-- C9: the MAC classification of an interface that `fman_if_init` binds, for
the MAC node `m` that the "fsl,fman-mac" phandle resolves to: compatible with
"fsl,fman-1g-mac" gives 1G, else compatible with "fsl,fman-10g-mac" gives
10G, both with `is_memac` 0; else the node is compatible with
"fsl,fman-memac", `is_memac` is 1, and for the PHY connection type string `s`:
containing "sgmii" gives 1G with `is_rgmii` 0, otherwise containing "rgmii"
gives 1G with `is_rgmii` 1, otherwise containing "xgmii" gives 10G with
`is_rgmii` 0. -/
theorem fman_if_init_mac_classification (W : World) (H : fman_h) (n : device_node)
    (g g1 : Globals) (hav : of_device_is_available n = true)
    (h : fman_if_init W H n g = .ok 0 g1) :
    ∃ (i : __fman_if) (m : device_node), g1.__ifs = g.__ifs ++ [i] ∧
      head_requirements W n m ∧
      (of_device_is_compatible m "fsl,fman-1g-mac" = true →
        i.__if.mac_type = H.fman_mac_1g ∧ i.__if.is_memac = 0) ∧
      (of_device_is_compatible m "fsl,fman-1g-mac" = false →
        of_device_is_compatible m "fsl,fman-10g-mac" = true →
        i.__if.mac_type = H.fman_mac_10g ∧ i.__if.is_memac = 0) ∧
      (of_device_is_compatible m "fsl,fman-1g-mac" = false →
        of_device_is_compatible m "fsl,fman-10g-mac" = false →
        of_device_is_compatible m "fsl,fman-memac" = true ∧ i.__if.is_memac = 1 ∧
        ∀ p, of_get_property m "phy-connection-type" = some p →
          ∃ s, c_string p = some s ∧
            (lit "sgmii" <:+: s →
              i.__if.mac_type = H.fman_mac_1g ∧ i.__if.is_rgmii = 0) ∧
            (¬ lit "sgmii" <:+: s → lit "rgmii" <:+: s →
              i.__if.mac_type = H.fman_mac_1g ∧ i.__if.is_rgmii = 1) ∧
            (¬ lit "sgmii" <:+: s → ¬ lit "rgmii" <:+: s → lit "xgmii" <:+: s →
              i.__if.mac_type = H.fman_mac_10g ∧ i.__if.is_rgmii = 0)) := by
  obtain ⟨_, hcase⟩ := fman_if_init_ok W H n g g1 0 h
  rcases hcase with ⟨hne, _⟩ | ⟨_, hav2, _⟩ | ⟨_, _, i, g0, hbody, hifs⟩
  · exact absurd rfl hne
  · rw [hav] at hav2
    cases hav2
  · obtain ⟨m, hreq, hc1, hc10, hcm⟩ := fman_if_init_body_classified W H n g g0 i hbody
    refine ⟨i, m, hifs, hreq, fun h1 => ⟨(hc1 h1).1, (hc1 h1).2.1⟩,
      fun h1 h10 => ⟨(hc10 h1 h10).1, (hc10 h1 h10).2.1⟩, fun h1 h10 => ?_⟩
    obtain ⟨hm, hmemac, _, hphy⟩ := hcm h1 h10
    refine ⟨hm, hmemac, fun p hp => ?_⟩
    obtain ⟨s, hs, hsg, hrg, hxg, _⟩ := hphy p hp
    have nsome : ∀ needle : Bytes, ¬ needle <:+: s → (strstr s needle).isSome = false := by
      intro needle hn
      cases hb : (strstr s needle).isSome with
      | false => rfl
      | true => exact absurd ((strstr_isSome_iff s needle).mp hb) hn
    refine ⟨s, hs, fun a => hsg ((strstr_isSome_iff s _).mpr a),
      fun a b => hrg (nsome _ a) ((strstr_isSome_iff s _).mpr b),
      fun a b c => hxg (nsome _ a) (nsome _ b) ((strstr_isSome_iff s _).mpr c)⟩

/-- Witness for C9: a multi-rate MAC with PHY connection type "rgmii-id" is
bound as 1G with `is_rgmii` 1. -/
theorem fman_if_init_mac_classification_witness :
    fman_if_init (ex_world (ex_tree_mac "fsl,fman-memac" (some (lit "rgmii-id" ++ [0])))) hdr
        ex_dpa0 ex_opened
      = .ok 0 (ex_after (ex_tree_mac "fsl,fman-memac" (some (lit "rgmii-id" ++ [0])))
          ex_dpa0 ex_opened) ∧
    ∃ (i : __fman_if),
      (ex_after (ex_tree_mac "fsl,fman-memac" (some (lit "rgmii-id" ++ [0])))
        ex_dpa0 ex_opened).__ifs = ex_opened.__ifs ++ [i] := by
  refine ⟨by decide!, ?_⟩
  obtain ⟨i, _, hi, _⟩ :=
    fman_if_init_mac_classification
      (ex_world (ex_tree_mac "fsl,fman-memac" (some (lit "rgmii-id" ++ [0])))) hdr ex_dpa0
      ex_opened
      (ex_after (ex_tree_mac "fsl,fman-memac" (some (lit "rgmii-id" ++ [0]))) ex_dpa0 ex_opened)
      rfl (by decide!)
  exact ⟨i, hi⟩

/-- C10: when the statements of `fman_if_init` before the MAC classification
run to their end for a node whose MAC node is compatible with none of
"fsl,fman-1g-mac", "fsl,fman-10g-mac" and "fsl,fman-memac", `fman_if_init`
returns `-EINVAL` and leaves the list as it was; `fman_init`, scanning that
node after nodes that returned 0, returns `-EINVAL` too and leaves the list
empty and the descriptor closed. -/
theorem fman_if_init_unknown_mac_type (W : World) (H : fman_h) (g gK : Globals) (fd : Nat)
    (pre post : List device_node) (K mac_node : device_node)
    (hfd : g.fman_ccsr_map_fd = -1) (hopen : W.open_ = some fd)
    (hnodes : for_each_compatible_node W.tree "fsl,dpa-ethernet-init" = pre ++ K :: post)
    (hpre : fman_init_loop W H pre
      { g with fman_ccsr_map_fd := fd, log := g.log ++ [Event.open_] } = .ok () gK)
    (hav : of_device_is_available K = true)
    (hhead : (fman_if_init_head W H K gK).value.map (fun r => r.1) = some mac_node)
    (h1g : of_device_is_compatible mac_node "fsl,fman-1g-mac" = false)
    (h10g : of_device_is_compatible mac_node "fsl,fman-10g-mac" = false)
    (hmemac : of_device_is_compatible mac_node "fsl,fman-memac" = false) :
    (∃ g0, fman_if_init W H K gK = .ok (-EINVAL) g0 ∧ g0.__ifs = gK.__ifs) ∧
    (∃ g3, fman_init W H g = .ok (-EINVAL) g3 ∧ g3.__ifs = [] ∧
      g3.fman_ccsr_map_fd = -1) := by
  cases hrun : fman_if_init_head W H K gK with
  | ok r g0 =>
    obtain ⟨m, a, i0⟩ := r
    rw [hrun] at hhead
    cases hhead
    have hbody : fman_if_init_body W H K gK = .err (-EINVAL) g0 := by
      unfold fman_if_init_body
      rw [bind_of_ok hrun]
      show M.bind (fman_if_init_mac_type H m i0) _ g0 = _
      unfold M.bind fman_if_init_mac_type
      simp only [h1g, h10g, hmemac, Bool.false_eq_true, if_false]
      rfl
    have hK : fman_if_init W H K gK = .ok (-EINVAL) g0 := by
      unfold fman_if_init
      simp only [hav, hbody]
      rfl
    have hsame := (frame_fman_if_init_head W H K).ends gK
    rw [hrun] at hsame
    exact ⟨⟨g0, hK, hsame.1⟩,
      fman_init_err_of_loop W H g gK g0 fd pre post K (-EINVAL) hfd hopen hnodes hpre hK
        neg_EINVAL_ne_zero⟩
  | err e g0 => rw [hrun] at hhead; cases hhead
  | abort => rw [hrun] at hhead; cases hhead
  | undefined => rw [hrun] at hhead; cases hhead

/-- Witness for C10: a MAC node compatible with "fsl,fman-xyz" only. -/
theorem fman_if_init_unknown_mac_type_witness :
    (∃ g0, fman_if_init (ex_world (ex_tree_mac "fsl,fman-xyz" none)) hdr ex_dpa0 ex_opened
        = .ok (-EINVAL) g0 ∧ g0.__ifs = ex_opened.__ifs) ∧
    (∃ g3, fman_init (ex_world (ex_tree_mac "fsl,fman-xyz" none)) hdr Globals.init
        = .ok (-EINVAL) g3 ∧ g3.__ifs = [] ∧ g3.fman_ccsr_map_fd = -1) :=
  fman_if_init_unknown_mac_type (ex_world (ex_tree_mac "fsl,fman-xyz" none)) hdr
    Globals.init ex_opened 3 [] [] ex_dpa0 (ex_mac 0xE0000 1 "fsl,fman-xyz" none)
    rfl rfl (by decide!) rfl rfl (by decide!) (by decide!) (by decide!) (by decide!)

/-- C11: when a pool reference of an available node resolves to a pool node
whose configuration property ("fsl,bpool-cfg" when present, otherwise
"fsl,bpool-ethernet-cfg") is present with a length other than 6 cells,
`fman_if_init` never returns 0 for that node and never adds an interface, and
a `fman_init` that scans the node from the state with a closed descriptor and
an empty list never returns 0 and leaves no interface in the list. -/
theorem fman_if_init_bad_pool_cfg (W : World) (H : fman_h) (n pool_node : device_node)
    (pools prop : Bytes) (k ph : Nat)
    (hav : of_device_is_available n = true)
    (hpools : of_get_property n "fsl,bman-buffer-pools" = some pools)
    (hph : be32 pools k = some ph)
    (hnode : of_find_node_by_phandle W.tree ph = some pool_node)
    (hcfg : bpool_cfg_property pool_node = some prop) (hlen : prop.length ≠ 6 * 4) :
    (∀ g g1, fman_if_init W H n g ≠ .ok 0 g1) ∧
    (∀ g r g1, fman_if_init W H n g = .ok r g1 → g1.__ifs = g.__ifs) ∧
    (∀ g r g1, n ∈ for_each_compatible_node W.tree "fsl,dpa-ethernet-init" →
      g.fman_ccsr_map_fd = -1 → g.__ifs = [] → fman_init W H g = .ok r g1 →
      r ≠ 0 ∧ g1.__ifs = []) := by
  have never : ∀ g g1, fman_if_init W H n g ≠ .ok 0 g1 := by
    intro g g1 h
    obtain ⟨_, hcase⟩ := fman_if_init_ok W H n g g1 0 h
    rcases hcase with ⟨hne, _⟩ | ⟨_, hav2, _⟩ | ⟨_, _, i, g0, hbody, _⟩
    · exact hne rfl
    · rw [hav] at hav2
      cases hav2
    · obtain ⟨m, _, _, _, pools2, hpools2, hlen2, hget⟩ :=
        fman_if_init_body_values W H n g g0 i hbody
      rw [hpools] at hpools2
      cases hpools2
      have hk : k < i.__if.bpool_list.length := by
        have := be32_some_le pools k ph hph
        rw [hlen2]
        unfold sizeof_phandle
        omega
      obtain ⟨ga, gb, hab⟩ := hget k hk
      obtain ⟨ph2, pool2, hph2, hnode2, hc⟩ :=
        (fman_if_init_bpool_cfg_spec W m pools k).out ga _ gb hab
      rw [hph] at hph2
      cases hph2
      rw [hnode] at hnode2
      cases hnode2
      rcases hc with ⟨hnone, _⟩ | ⟨prop2, _, _, _, _, _, _, hsome, hl, _⟩
      · rw [hcfg] at hnone
        cases hnone
      · rw [hcfg] at hsome
        cases hsome
        exact hlen (by simpa using hl)
  refine ⟨never, ?_, ?_⟩
  · intro g r g1 h
    obtain ⟨_, hcase⟩ := fman_if_init_ok W H n g g1 r h
    rcases hcase with ⟨_, hsame⟩ | ⟨_, _, hg⟩ | ⟨hr, _, _⟩
    · exact hsame
    · rw [hg]
    · subst hr
      exact absurd h (never g g1)
  · intro g r g1 hmem hfd hifs h
    exact fman_init_never_zero W H n never hmem g g1 r hfd hifs h

/-- Witness for C11: a pool node with a "fsl,bpool-cfg" of five cells; the
`assert` on the length aborts `fman_if_init` and with it `fman_init`. -/
theorem fman_if_init_bad_pool_cfg_witness :
    fman_if_init (ex_world (ex_tree_pool (ex_pool_with [("fsl,bpool-cfg", ex_cfg5)]))) hdr
        ex_dpa0 ex_opened = .abort ∧
    fman_init (ex_world (ex_tree_pool (ex_pool_with [("fsl,bpool-cfg", ex_cfg5)]))) hdr
        Globals.init = .abort ∧
    ∀ g g1, fman_if_init (ex_world (ex_tree_pool (ex_pool_with [("fsl,bpool-cfg", ex_cfg5)])))
        hdr ex_dpa0 g ≠ .ok 0 g1 :=
  ⟨by decide!, by decide!,
    (fman_if_init_bad_pool_cfg (ex_world (ex_tree_pool (ex_pool_with [("fsl,bpool-cfg", ex_cfg5)])))
      hdr ex_dpa0 (ex_pool_with [("fsl,bpool-cfg", ex_cfg5)]) (cell 20) ex_cfg5 0 20
      rfl (by decide!) (by decide!) (by decide!) (by decide!) (by decide!)).1⟩

/-- C13: a call of `dpaa_create_device_list` that starts on an empty device
list and returns 0 leaves, for every port `i` of the configuration, at place
`i` of the device list a device of type `FSL_DPAA_ETH` made from the
interface that port `i` points to: its name is "fm", `fman_idx + 1`, "-mac",
`mac_idx`, and `dev_id`, `fman_id`, `mac_id` hold `i`, `fman_idx + 1`,
`mac_idx` as far as the field is wide, so exactly these values when they fit.
Every device after these is of type `FSL_DPAA_CRYPTO`, and two ports whose
interfaces differ in `fman_idx` or in `mac_idx` get devices with different
names. -/
theorem dpaa_create_device_list_eth (W : World) (B : rte_dpaa_bus_h) (s s1 : BusGlobals)
    (netcfg : netcfg_info) (hempty : s.device_list = [])
    (hcfg : s.dpaa_netcfg = some netcfg)
    (h : dpaa_create_device_list W B s = .ok 0 s1) :
    (∀ i, i < netcfg.num_ethports → ∃ cfg p intf dev,
        netcfg.port_cfg.get? i = some cfg ∧ cfg.fman_if = some p ∧
        s.fman.__ifs.get? p = some intf ∧ s1.device_list.get? i = some dev ∧
        dev.id.device_type = B.FSL_DPAA_ETH ∧
        dev.name = "fm" ++ sprintf_d (intf.__if.fman_idx + 1) ++ "-mac" ++
          sprintf_d intf.__if.mac_idx ∧
        dev.id.dev_id = i % 2 ^ B.dev_id_bits ∧
        dev.id.fman_id = (intf.__if.fman_idx + 1) % 2 ^ B.fman_id_bits ∧
        dev.id.mac_id = intf.__if.mac_idx % 2 ^ B.mac_id_bits ∧
        (i < 2 ^ B.dev_id_bits → dev.id.dev_id = i) ∧
        (intf.__if.fman_idx + 1 < 2 ^ B.fman_id_bits →
          dev.id.fman_id = intf.__if.fman_idx + 1) ∧
        (intf.__if.mac_idx < 2 ^ B.mac_id_bits → dev.id.mac_id = intf.__if.mac_idx)) ∧
    (∀ j dev, netcfg.num_ethports ≤ j → s1.device_list.get? j = some dev →
        dev.id.device_type = B.FSL_DPAA_CRYPTO) ∧
    (∀ i j ci cj pi pj xi xj di dj,
        i < netcfg.num_ethports → j < netcfg.num_ethports →
        netcfg.port_cfg.get? i = some ci → ci.fman_if = some pi →
        s.fman.__ifs.get? pi = some xi → s1.device_list.get? i = some di →
        netcfg.port_cfg.get? j = some cj → cj.fman_if = some pj →
        s.fman.__ifs.get? pj = some xj → s1.device_list.get? j = some dj →
        (xi.__if.fman_idx, xi.__if.mac_idx) ≠ (xj.__if.fman_idx, xj.__if.mac_idx) →
        di.name ≠ dj.name) := by
  obtain ⟨netcfg1, eth, sec, h1, hl, hlen, heth, hsec⟩ := dpaa_create_device_list_ok W B s s1 h
  rw [hcfg] at h1
  cases h1
  rw [hempty, List.nil_append] at hl
  have hat : ∀ i, i < netcfg.num_ethports → s1.device_list.get? i = eth.get? i := by
    intro i hi
    rw [hl]
    simp only [List.get?_eq_getElem?]
    exact List.getElem?_append_left (by omega)
  have hfirst : ∀ i, i < netcfg.num_ethports → ∃ cfg p intf,
      netcfg.port_cfg.get? i = some cfg ∧ cfg.fman_if = some p ∧
      s.fman.__ifs.get? p = some intf ∧ s1.device_list.get? i = some
        { id := { fman_id := (intf.__if.fman_idx + 1) % 2 ^ B.fman_id_bits,
                  mac_id := intf.__if.mac_idx % 2 ^ B.mac_id_bits,
                  device_type := B.FSL_DPAA_ETH,
                  dev_id := i % 2 ^ B.dev_id_bits },
          name := "fm" ++ sprintf_d (intf.__if.fman_idx + 1) ++ "-mac" ++
            sprintf_d intf.__if.mac_idx } := by
    intro i hi
    obtain ⟨cfg, p, intf, q1, q2, q3, q4⟩ := heth i hi
    exact ⟨cfg, p, intf, q1, q2, q3, (hat i hi).trans q4⟩
  refine ⟨?_, ?_, ?_⟩
  · intro i hi
    obtain ⟨cfg, p, intf, q1, q2, q3, q4⟩ := hfirst i hi
    exact ⟨cfg, p, intf, _, q1, q2, q3, q4, rfl, rfl, rfl, rfl, rfl,
      fun hfit => Nat.mod_eq_of_lt hfit, fun hfit => Nat.mod_eq_of_lt hfit,
      fun hfit => Nat.mod_eq_of_lt hfit⟩
  · intro j dev hj hget
    rw [hl] at hget
    simp only [List.get?_eq_getElem?] at hget
    rw [List.getElem?_append_right (by omega)] at hget
    rcases hsec with ⟨_, hnil, _⟩ | ⟨_, hslen, _, hs⟩
    · rw [hnil] at hget
      simp at hget
    · have hlt : j - eth.length < B.FSL_DPAA_MAX_CRYPTO_DEV := by
        by_contra hge
        rw [List.getElem?_eq_none (by omega)] at hget
        cases hget
      have := hs _ hlt
      simp only [List.get?_eq_getElem?] at this
      rw [this] at hget
      cases hget
      rfl
  · intro i j ci cj pi pj xi xj di dj hi hj a1 a2 a3 a4 b1 b2 b3 b4 hne hname
    obtain ⟨cfg, p, intf, q1, q2, q3, q4⟩ := hfirst i hi
    obtain ⟨cfg2, p2, intf2, r1, r2, r3, r4⟩ := hfirst j hj
    rw [a1] at q1
    cases q1
    rw [a2] at q2
    cases q2
    rw [a3] at q3
    cases q3
    rw [a4] at q4
    cases q4
    rw [b1] at r1
    cases r1
    rw [b2] at r2
    cases r2
    rw [b3] at r3
    cases r3
    rw [b4] at r4
    cases r4
    obtain ⟨e1, e2⟩ := eth_name_injective _ _ _ _ hname
    apply hne
    have e3 : xi.__if.fman_idx = xj.__if.fman_idx := by omega
    rw [e3, e2]

/-- Witness for C13: the two ports of `ex_netcfg` give the devices "fm1-mac1"
and "fm1-mac2". -/
theorem dpaa_create_device_list_eth_witness :
    (BusGlobals.init ex_net_bound).device_list = [] ∧
    (BusGlobals.init ex_net_bound).dpaa_netcfg = some ex_netcfg ∧
    dpaa_create_device_list (ex_world ex_tree) ex_bus_h (BusGlobals.init ex_net_bound)
      = .ok 0 ex_bus_bound ∧
    ex_bus_bound.device_list =
      [{ id := { fman_id := 1, mac_id := 1, device_type := 0, dev_id := 0 },
         name := "fm1-mac1" },
       { id := { fman_id := 1, mac_id := 2, device_type := 0, dev_id := 1 },
         name := "fm1-mac2" }] ∧
    ∀ j dev, ex_netcfg.num_ethports ≤ j → ex_bus_bound.device_list.get? j = some dev →
      dev.id.device_type = ex_bus_h.FSL_DPAA_CRYPTO :=
  ⟨by decide!, by decide!, by decide!, by decide!,
   (dpaa_create_device_list_eth (ex_world ex_tree) ex_bus_h (BusGlobals.init ex_net_bound)
     ex_bus_bound ex_netcfg (by decide!) (by decide!) (by decide!)).2.1⟩

/-- C14: a call of `dpaa_create_device_list` that starts on an empty device
list creates crypto devices exactly when a node compatible with
"fsl,sec-v4.0" exists.  When one exists and the call returns 0, the
`FSL_DPAA_MAX_CRYPTO_DEV` devices after the network devices are of type
`FSL_DPAA_CRYPTO`, device `j` of them is named "dpaa-sec" followed by `j` and
has `dev_id` the network count plus `j` (as far as the field is wide), and
`device_count` is the network count plus `FSL_DPAA_MAX_CRYPTO_DEV`.  When none
exists, a call whose first loop runs to its end returns 0 and only sets
`device_count` to the network count, so the list holds the network devices
and nothing else.  Either way `device_count` is the length of the device
list. -/
theorem dpaa_create_device_list_sec (W : World) (B : rte_dpaa_bus_h) (s : BusGlobals)
    (netcfg : netcfg_info) (hempty : s.device_list = [])
    (hcfg : s.dpaa_netcfg = some netcfg) :
    (for_each_compatible_node W.tree "fsl,sec-v4.0" ≠ [] →
      ∀ s1, dpaa_create_device_list W B s = .ok 0 s1 →
        s1.device_list.length = netcfg.num_ethports + B.FSL_DPAA_MAX_CRYPTO_DEV ∧
        s1.device_count = netcfg.num_ethports + B.FSL_DPAA_MAX_CRYPTO_DEV ∧
        s1.device_count = s1.device_list.length ∧
        ∀ j, j < B.FSL_DPAA_MAX_CRYPTO_DEV → ∃ dev,
          s1.device_list.get? (netcfg.num_ethports + j) = some dev ∧
          dev.id.device_type = B.FSL_DPAA_CRYPTO ∧
          dev.name = "dpaa-sec" ++ sprintf_d j ∧
          dev.id.dev_id = (netcfg.num_ethports + j) % 2 ^ B.dev_id_bits ∧
          (netcfg.num_ethports + j < 2 ^ B.dev_id_bits →
            dev.id.dev_id = netcfg.num_ethports + j)) ∧
    (for_each_compatible_node W.tree "fsl,sec-v4.0" = [] →
      (∀ sa, dpaa_create_eth_devices W B netcfg.num_ethports 0 s = .ok none sa →
        dpaa_create_device_list W B s
          = .ok 0 { sa with device_count := netcfg.num_ethports }) ∧
      ∀ s1, dpaa_create_device_list W B s = .ok 0 s1 →
        s1.device_list.length = netcfg.num_ethports ∧
        s1.device_count = netcfg.num_ethports ∧
        s1.device_count = s1.device_list.length ∧
        ∀ dev, dev ∈ s1.device_list → dev.id.device_type = B.FSL_DPAA_ETH) := by
  refine ⟨?_, ?_⟩
  · intro hfe s1 h
    obtain ⟨netcfg1, eth, sec, h1, hl, hlen, heth, hsec⟩ :=
      dpaa_create_device_list_ok W B s s1 h
    rw [hcfg] at h1
    cases h1
    rw [hempty, List.nil_append] at hl
    rcases hsec with ⟨hnone, _, _⟩ | ⟨_, hslen, hcount, hs⟩
    · exact absurd hnone hfe
    · have hlength : s1.device_list.length
          = netcfg.num_ethports + B.FSL_DPAA_MAX_CRYPTO_DEV := by
        rw [hl, List.length_append, hlen, hslen]
      refine ⟨hlength, hcount, hcount.trans hlength.symm, ?_⟩
      intro j hj
      refine ⟨{ id := { fman_id := 0, mac_id := 0, device_type := B.FSL_DPAA_CRYPTO,
                        dev_id := (netcfg.num_ethports + j) % 2 ^ B.dev_id_bits },
                name := "dpaa-sec" ++ sprintf_d j }, ?_, rfl, rfl, rfl,
        fun hfit => Nat.mod_eq_of_lt hfit⟩
      rw [hl]
      simp only [List.get?_eq_getElem?]
      rw [List.getElem?_append_right (by omega)]
      have := hs j hj
      simp only [List.get?_eq_getElem?] at this
      rw [show netcfg.num_ethports + j - eth.length = j by omega]
      exact this
  · intro hfe
    refine ⟨?_, ?_⟩
    · intro sa heth
      unfold dpaa_create_device_list
      rw [code_bind_of_ok (show getS s = .ok s s from rfl)]
      simp only [hcfg]
      rw [code_bind_of_ok heth]
      dsimp only
      rw [code_bind_of_ok (show modifyS _ sa = .ok () _ from rfl)]
      have hsec : dpaa_sec_available W { sa with device_count := netcfg.num_ethports }
          = .ok (-1) { sa with device_count := netcfg.num_ethports } := by
        unfold dpaa_sec_available
        rw [hfe]
        rfl
      rw [code_bind_of_ok hsec]
      rfl
    · intro s1 h
      obtain ⟨netcfg1, eth, sec, h1, hl, hlen, heth, hsec⟩ :=
        dpaa_create_device_list_ok W B s s1 h
      rw [hcfg] at h1
      cases h1
      rw [hempty, List.nil_append] at hl
      rcases hsec with ⟨_, hnil, hcount⟩ | ⟨hsome, _, _, _⟩
      · subst hnil
        rw [List.append_nil] at hl
        subst hl
        refine ⟨hlen, hcount, hcount.trans hlen.symm, ?_⟩
        intro dev hmem
        obtain ⟨j, hj, hget⟩ := List.getElem_of_mem hmem
        obtain ⟨cfg, p, intf, _, _, _, q4⟩ := heth j (by omega)
        simp only [List.get?_eq_getElem?] at q4
        rw [List.getElem?_eq_getElem hj, hget] at q4
        cases q4
        rfl
      · exact absurd hfe hsome

/-- Witness for C14: with the node `ex_sec` in the tree four crypto devices
follow the two network devices; without it the list is `ex_eth_devices`. -/
theorem dpaa_create_device_list_sec_witness :
    (BusGlobals.init ex_net_bound).device_list = [] ∧
    (BusGlobals.init ex_net_bound).dpaa_netcfg = some ex_netcfg ∧
    for_each_compatible_node (ex_world (ex_tree ++ [ex_sec])).tree "fsl,sec-v4.0" ≠ [] ∧
    dpaa_create_device_list (ex_world (ex_tree ++ [ex_sec])) ex_bus_h
      (BusGlobals.init ex_net_bound) = .ok 0 ex_bus_bound_sec ∧
    ex_bus_bound_sec.device_list.map (fun dev => dev.name)
      = ["fm1-mac1", "fm1-mac2", "dpaa-sec0", "dpaa-sec1", "dpaa-sec2", "dpaa-sec3"] ∧
    dpaa_create_device_list (ex_world ex_tree) ex_bus_h (BusGlobals.init ex_net_bound)
      = .ok 0 ex_bus_bound ∧
    ex_bus_bound_sec.device_list.length
      = ex_netcfg.num_ethports + ex_bus_h.FSL_DPAA_MAX_CRYPTO_DEV ∧
    ex_bus_bound_sec.device_count
      = ex_netcfg.num_ethports + ex_bus_h.FSL_DPAA_MAX_CRYPTO_DEV :=
  ⟨by decide!, by decide!, by decide!, by decide!, by decide!, by decide!,
   ((dpaa_create_device_list_sec (ex_world (ex_tree ++ [ex_sec])) ex_bus_h
      (BusGlobals.init ex_net_bound) ex_netcfg (by decide!) (by decide!)).1 (by decide!)
      ex_bus_bound_sec (by decide!)).1,
   ((dpaa_create_device_list_sec (ex_world (ex_tree ++ [ex_sec])) ex_bus_h
      (BusGlobals.init ex_net_bound) ex_netcfg (by decide!) (by decide!)).1 (by decide!)
      ex_bus_bound_sec (by decide!)).2.1⟩

/-- C15 does not hold as stated: the first driver whose type tag equals that
of the device has no probe callback, and `rte_dpaa_bus_probe` goes on to
invoke the probe callback of the next driver of that type, which is not the
first driver in registration order with that type tag. -/
theorem rte_dpaa_bus_probe_skips_null_probe :
    (ex_drivers.findIdx? (fun drv => drv.driver_type == (0 : Nat))) = some 0 ∧
    (rte_dpaa_bus_probe
      [{ id := { fman_id := 1, mac_id := 1, device_type := 0, dev_id := 0 },
         name := "fm1-mac1" }] ex_drivers).2 = [{ dev := 0, drv := 1, ret := -1 }] := by
  decide!

/-- C15, amended: for every device list and every driver list,
`rte_dpaa_bus_probe` returns 0 and makes, for each device in list order, one
probe call, to the first driver in registration order whose type tag equals
that of the device and which has a probe callback; a device without such a
driver is skipped, and what a probe callback returns has no effect on the
calls that follow. -/
theorem rte_dpaa_bus_probe_first_match (device_list : List rte_dpaa_device)
    (driver_list : List rte_dpaa_driver) :
    (rte_dpaa_bus_probe device_list driver_list).1 = 0 ∧
    (rte_dpaa_bus_probe device_list driver_list).2 =
      device_list.enum.filterMap (fun id =>
        (driver_list.enum.find? (fun kd =>
            kd.2.driver_type == id.2.id.device_type && kd.2.probe.isSome)).bind
          (fun kd => kd.2.probe.map
            (fun probe => { dev := id.1, drv := kd.1, ret := probe id.2 }))) :=
  ⟨rfl, rte_dpaa_bus_probe_devices_eq driver_list device_list 0⟩

/-- C16: `rte_dpaa_portal_init` on a thread whose `_dpaa_io` is false, once
the core is chosen and the thread pinned to it, calls `bman_thread_init`
before `qman_thread_init`.  When `bman_thread_init` fails its value is
returned and nothing is called after it; when it succeeds and
`qman_thread_init` fails, `bman_thread_finish` is called and the value of
`qman_thread_init` is returned; in both cases `_dpaa_io` stays false.  On a
thread whose `_dpaa_io` is true the call returns 0 and nothing changes, no call
is made. -/
theorem rte_dpaa_portal_init_order (P : PortalWorld) (arg : Nat) (s : PortalState) :
    (∀ cpu,
      (((arg == 1 || P.rte_lcore_id == P.LCORE_ID_ANY) = true ∧
          cpu = P.rte_get_master_lcore) ∨
       ((arg == 1 || P.rte_lcore_id == P.LCORE_ID_ANY) = false ∧
          P.rte_lcore_id < P.RTE_MAX_LCORE ∧ cpu = P.rte_lcore_id)) →
      P.pthread_setaffinity_np cpu = 0 → s._dpaa_io = false →
      (P.bman_thread_init ≠ 0 →
        rte_dpaa_portal_init P arg s = .ok P.bman_thread_init
          { s with _dpaa_io := false, affinity := some cpu,
                   calls := s.calls ++ [PortalEvent.pthread_setaffinity_np cpu,
                                        PortalEvent.bman_thread_init] }) ∧
      (P.bman_thread_init = 0 → P.qman_thread_init ≠ 0 →
        rte_dpaa_portal_init P arg s = .ok P.qman_thread_init
          { s with _dpaa_io := false, affinity := some cpu, bman_portal := false,
                   calls := s.calls ++ [PortalEvent.pthread_setaffinity_np cpu,
                                        PortalEvent.bman_thread_init,
                                        PortalEvent.qman_thread_init,
                                        PortalEvent.bman_thread_finish] }) ∧
      (P.bman_thread_init = 0 → P.qman_thread_init = 0 →
        ∃ r s1 rest, rte_dpaa_portal_init P arg s = .ok r s1 ∧
          s1.calls = s.calls ++ [PortalEvent.pthread_setaffinity_np cpu,
                                 PortalEvent.bman_thread_init,
                                 PortalEvent.qman_thread_init] ++ rest)) ∧
    (s._dpaa_io = true → rte_dpaa_portal_init P arg s = .ok 0 s) := by
  refine ⟨?_, ?_⟩
  · intro cpu hcpu haff hs
    have hrun : rte_dpaa_portal_init P arg s = _dpaa_portal_init_on P cpu s := by
      rw [rte_dpaa_portal_init_uninit P arg s hs, _dpaa_portal_init_resolved P arg cpu hcpu]
    have hs2 : s = { s with _dpaa_io := false } := by
      cases s
      simp only at hs
      subst hs
      rfl
    refine ⟨?_, ?_, ?_⟩
    · intro hb
      rw [hrun, _dpaa_portal_init_on_bman_fails P cpu s haff hb]
      conv_lhs => rw [hs2]
    · intro hb hq
      rw [hrun, _dpaa_portal_init_on_qman_fails P cpu s haff hb hq]
      conv_lhs => rw [hs2]
    · intro hb hq
      rw [hrun]
      cases hm : P.rte_malloc with
      | false =>
        rw [_dpaa_portal_init_on_malloc_fails P cpu s haff hb hq hm]
        exact ⟨_, _, [PortalEvent.rte_malloc, PortalEvent.bman_thread_finish,
          PortalEvent.qman_thread_finish], rfl, by simp⟩
      | true =>
        obtain ⟨h, hh⟩ : ∃ h : dpaa_portal,
            h = ⟨P.bman_get_portal_index, P.qman_get_portal_index, P.gettid⟩ := ⟨_, rfl⟩
        rw [_dpaa_portal_init_on_bind P cpu s h hh haff hb hq hm]
        split
        · exact ⟨_, _, [PortalEvent.rte_malloc, PortalEvent.pthread_setspecific (some h)],
            rfl, by simp⟩
        · exact ⟨_, _, [PortalEvent.rte_malloc, PortalEvent.pthread_setspecific (some h)],
            rfl, by simp⟩
  · intro hs
    unfold rte_dpaa_portal_init
    rw [code_bind_of_ok (show getS s = .ok s s from rfl)]
    simp only [hs, Bool.not_true, Bool.false_eq_true, if_false]
    rfl

/-- Witness for C16: `qman_thread_init` fails with -5 on a thread that asks
for the master core; on the bound thread `ex_portal_bound` the call changes
nothing. -/
theorem rte_dpaa_portal_init_order_witness :
    rte_dpaa_portal_init (ex_portal_world 0 (-5) true 0) 1 PortalState.init = .ok (-5)
      { PortalState.init with
          _dpaa_io := false, affinity := some 0, bman_portal := false,
          calls := PortalState.init.calls ++ [PortalEvent.pthread_setaffinity_np 0,
            PortalEvent.bman_thread_init, PortalEvent.qman_thread_init,
            PortalEvent.bman_thread_finish] } ∧
    rte_dpaa_portal_init (ex_portal_world 0 (-5) true 0) 1 ex_portal_bound
      = .ok 0 ex_portal_bound :=
  ⟨((rte_dpaa_portal_init_order (ex_portal_world 0 (-5) true 0) 1 PortalState.init).1 0
      (Or.inl ⟨by decide, by decide⟩) (by decide) (by decide)).2.1 (by decide) (by decide),
   (rte_dpaa_portal_init_order (ex_portal_world 0 (-5) true 0) 1 ex_portal_bound).2
      (by decide)⟩

/-- C17 does not hold as stated: `dpaa_portal_finish` on the handle of a
thread with both subsystems initialised calls `bman_thread_finish` first and
`qman_thread_finish` second, so the teardown of subsystem B does not come
before that of subsystem A. -/
theorem dpaa_portal_finish_bman_first :
    dpaa_portal_finish (ex_portal_world 0 0 true 0) (some ex_portal) ex_portal_bound
      = .ok () ex_portal_released ∧
    ex_portal_released.calls.drop ex_portal_bound.calls.length =
      [PortalEvent.bman_thread_finish, PortalEvent.qman_thread_finish,
       PortalEvent.pthread_setspecific none, PortalEvent.rte_free ex_portal] ∧
    ¬ (ex_portal_released.calls.indexOf PortalEvent.qman_thread_finish
        < ex_portal_released.calls.indexOf PortalEvent.bman_thread_finish) := by
  decide!

/-- C17, amended: `dpaa_portal_finish` on a handle that is allocated tears the
two subsystems down in the order of their initialisation, `bman_thread_finish`
first and `qman_thread_finish` second, then calls
`pthread_setspecific(dpaa_portal_key, NULL)`, which clears the binding of the
thread when it succeeds, frees the handle and sets `_dpaa_io` to false. -/
theorem dpaa_portal_finish_order (P : PortalWorld) (h : dpaa_portal) (s : PortalState)
    (hmem : h ∈ s.handles) (hsp : P.pthread_setspecific none = 0) :
    dpaa_portal_finish P (some h) s = .ok ()
      { s with _dpaa_io := false, bman_portal := false, qman_portal := false,
               dpaa_portal_key := none, handles := s.handles.erase h,
               calls := s.calls ++ [PortalEvent.bman_thread_finish,
                 PortalEvent.qman_thread_finish, PortalEvent.pthread_setspecific none,
                 PortalEvent.rte_free h] } := by
  rw [dpaa_portal_finish_run P h s hmem]
  simp only [hsp, if_true]

/-- Witness for C17, amended: the release of `ex_portal` on the thread
`ex_portal_bound`. -/
theorem dpaa_portal_finish_order_witness :
    ex_portal ∈ ex_portal_bound.handles ∧
    (ex_portal_world 0 0 true 0).pthread_setspecific none = 0 ∧
    dpaa_portal_finish (ex_portal_world 0 0 true 0) (some ex_portal) ex_portal_bound = .ok ()
      { ex_portal_bound with
          _dpaa_io := false, bman_portal := false, qman_portal := false,
          dpaa_portal_key := none, handles := ex_portal_bound.handles.erase ex_portal,
          calls := ex_portal_bound.calls ++ [PortalEvent.bman_thread_finish,
            PortalEvent.qman_thread_finish, PortalEvent.pthread_setspecific none,
            PortalEvent.rte_free ex_portal] } :=
  ⟨by decide, by decide,
   dpaa_portal_finish_order (ex_portal_world 0 0 true 0) ex_portal ex_portal_bound
     (by decide) (by decide)⟩

/-- C18, the code when `pthread_setspecific` fails: after the core is chosen,
the thread pinned, both subsystems initialised and the handle `h` allocated,
`_dpaa_portal_init` calls `dpaa_portal_finish(NULL)`, which does nothing, and
returns the value of `pthread_setspecific` with both subsystems still
initialised and `h` still allocated; no teardown call and no `rte_free` is
made.  When the allocation fails instead, both subsystems are torn down
before `-ENOMEM` is returned. -/
theorem _dpaa_portal_init_setspecific_fails (P : PortalWorld) (arg cpu : Nat)
    (s : PortalState) (h : dpaa_portal)
    (hcpu : ((arg == 1 || P.rte_lcore_id == P.LCORE_ID_ANY) = true ∧
              cpu = P.rte_get_master_lcore) ∨
            ((arg == 1 || P.rte_lcore_id == P.LCORE_ID_ANY) = false ∧
              P.rte_lcore_id < P.RTE_MAX_LCORE ∧ cpu = P.rte_lcore_id))
    (hh : h = { qman_idx := P.qman_get_portal_index, bman_idx := P.bman_get_portal_index,
                tid := P.gettid })
    (haff : P.pthread_setaffinity_np cpu = 0) (hb : P.bman_thread_init = 0)
    (hq : P.qman_thread_init = 0) :
    (P.rte_malloc = true → P.pthread_setspecific (some h) ≠ 0 →
      _dpaa_portal_init P arg s = .ok (P.pthread_setspecific (some h))
        { s with affinity := some cpu, bman_portal := true, qman_portal := true,
                 handles := s.handles ++ [h],
                 calls := s.calls ++ [PortalEvent.pthread_setaffinity_np cpu,
                   PortalEvent.bman_thread_init, PortalEvent.qman_thread_init,
                   PortalEvent.rte_malloc, PortalEvent.pthread_setspecific (some h)] }) ∧
    (P.rte_malloc = false →
      _dpaa_portal_init P arg s = .ok (- ENOMEM)
        { s with affinity := some cpu, bman_portal := false, qman_portal := false,
                 calls := s.calls ++ [PortalEvent.pthread_setaffinity_np cpu,
                   PortalEvent.bman_thread_init, PortalEvent.qman_thread_init,
                   PortalEvent.rte_malloc, PortalEvent.bman_thread_finish,
                   PortalEvent.qman_thread_finish] }) := by
  rw [_dpaa_portal_init_resolved P arg cpu hcpu]
  refine ⟨?_, ?_⟩
  · intro hm hsp
    rw [_dpaa_portal_init_on_bind P cpu s h hh haff hb hq hm]
    simp only [hsp, if_false]
  · intro hm
    exact _dpaa_portal_init_on_malloc_fails P cpu s haff hb hq hm

/-- Witness for C18: `pthread_setspecific` returns 22 on core 2; both
subsystems stay initialised and `ex_portal` stays allocated. -/
theorem _dpaa_portal_init_setspecific_fails_witness :
    _dpaa_portal_init (ex_portal_world 0 0 true 22) 0 PortalState.init = .ok 22
      { PortalState.init with
          affinity := some 2, bman_portal := true, qman_portal := true,
          handles := PortalState.init.handles ++ [ex_portal],
          calls := PortalState.init.calls ++ [PortalEvent.pthread_setaffinity_np 2,
            PortalEvent.bman_thread_init, PortalEvent.qman_thread_init,
            PortalEvent.rte_malloc, PortalEvent.pthread_setspecific (some ex_portal)] } :=
  (_dpaa_portal_init_setspecific_fails (ex_portal_world 0 0 true 22) 0 2 PortalState.init
    ex_portal (Or.inr ⟨by decide, by decide, by decide⟩) (by decide) (by decide) (by decide)
    (by decide)).1 (by decide) (by decide)

/-- C19: an interface that `fman_if_init` binds comes from a node whose rx
and tx frame queue properties are four cells with 1 in the cells 1 and 3, and
its `fqid_rx_err`, `fqid_rx_def`, `fqid_tx_err` and `fqid_tx_confirm` are the
big-endian values of rx cell 0, rx cell 2, tx cell 0 and tx cell 2, whatever
`of_n_addr_cells` reports for the MAC node (a bound interface has a MAC node
that reports 1); a node with a four-cell rx or tx property whose cell 1 or
cell 3 is not 1 is never bound. -/
theorem fman_if_init_fqids (W : World) (H : fman_h) (n : device_node)
    (hav : of_device_is_available n = true) :
    (∀ g g1, fman_if_init W H n g = .ok 0 g1 →
      ∃ (i : __fman_if) (m : device_node) (rxq txq : Bytes),
        g1.__ifs = g.__ifs ++ [i] ∧ head_requirements W n m ∧ of_n_addr_cells m = 1 ∧
        of_get_property n "fsl,qman-frame-queues-rx" = some rxq ∧ rxq.length = 16 ∧
        be32 rxq 0 = some i.__if.fqid_rx_err ∧ be32 rxq 1 = some 1 ∧
        be32 rxq 2 = some i.__if.fqid_rx_def ∧ be32 rxq 3 = some 1 ∧
        of_get_property n "fsl,qman-frame-queues-tx" = some txq ∧ txq.length = 16 ∧
        be32 txq 0 = some i.__if.fqid_tx_err ∧ be32 txq 1 = some 1 ∧
        be32 txq 2 = some i.__if.fqid_tx_confirm ∧ be32 txq 3 = some 1) ∧
    (∀ q, (of_get_property n "fsl,qman-frame-queues-rx" = some q ∨
           of_get_property n "fsl,qman-frame-queues-tx" = some q) →
      (be32 q 1 ≠ some 1 ∨ be32 q 3 ≠ some 1) →
      ∀ g g1, fman_if_init W H n g ≠ .ok 0 g1) := by
  have main : ∀ g g1, fman_if_init W H n g = .ok 0 g1 →
      ∃ (i : __fman_if) (m : device_node) (rxq txq : Bytes),
        g1.__ifs = g.__ifs ++ [i] ∧ head_requirements W n m ∧ of_n_addr_cells m = 1 ∧
        of_get_property n "fsl,qman-frame-queues-rx" = some rxq ∧ rxq.length = 16 ∧
        be32 rxq 0 = some i.__if.fqid_rx_err ∧ be32 rxq 1 = some 1 ∧
        be32 rxq 2 = some i.__if.fqid_rx_def ∧ be32 rxq 3 = some 1 ∧
        of_get_property n "fsl,qman-frame-queues-tx" = some txq ∧ txq.length = 16 ∧
        be32 txq 0 = some i.__if.fqid_tx_err ∧ be32 txq 1 = some 1 ∧
        be32 txq 2 = some i.__if.fqid_tx_confirm ∧ be32 txq 3 = some 1 := by
    intro g g1 h
    obtain ⟨_, hcase⟩ := fman_if_init_ok W H n g g1 0 h
    rcases hcase with ⟨hne, _⟩ | ⟨_, hav2, _⟩ | ⟨_, _, i, g0, hbody, hifs⟩
    · exact absurd rfl hne
    · rw [hav] at hav2
      cases hav2
    · obtain ⟨m, hreq, hrx, htx, _⟩ := fman_if_init_body_values W H n g g0 i hbody
      obtain ⟨rxq, rx0, rx1, rx2, rx3, hrxq, hrl, r0, r1, r2, r3, rone, erx, drx⟩ := hrx
      obtain ⟨txq, tx0, tx1, tx2, tx3, htxq, htl, t0, t1, t2, t3, tone, etx, ctx⟩ := htx
      obtain ⟨hna, hl, c0, c1, c2, c3⟩ :=
        quadruple_cells rxq _ rx0 rx1 rx2 rx3 hrl r0 r1 r2 r3 rone
      obtain ⟨_, hl2, d0, d1, d2, d3⟩ :=
        quadruple_cells txq _ tx0 tx1 tx2 tx3 htl t0 t1 t2 t3 tone
      rw [← erx] at c0
      rw [← drx] at c2
      rw [← etx] at d0
      rw [← ctx] at d2
      exact ⟨i, m, rxq, txq, hifs, hreq, hna, hrxq, hl, c0, c1, c2, c3, htxq, hl2, d0, d1,
        d2, d3⟩
  refine ⟨main, ?_⟩
  intro q hq hbad g g1 h
  obtain ⟨i, m, rxq, txq, _, _, _, hrxq, _, _, c1, _, c3, htxq, _, _, d1, _, d3⟩ := main g g1 h
  rcases hq with hq | hq
  · rw [hrxq] at hq
    cases hq
    rcases hbad with hb | hb
    · exact hb c1
    · exact hb c3
  · rw [htxq] at hq
    cases hq
    rcases hbad with hb | hb
    · exact hb d1
    · exact hb d3

/-- Witness for C19: the first network node of `ex_tree` has the quadruples
`[0x50, 1, 0x51, 1]` and `[0x52, 1, 0x53, 1]`. -/
theorem fman_if_init_fqids_witness :
    ∃ (i : __fman_if), (ex_after ex_tree ex_dpa0 ex_opened).__ifs = ex_opened.__ifs ++ [i] ∧
      i.__if.fqid_rx_err = 0x50 ∧ i.__if.fqid_rx_def = 0x51 ∧
      i.__if.fqid_tx_err = 0x52 ∧ i.__if.fqid_tx_confirm = 0x53 := by
  obtain ⟨i, m, rxq, txq, hi, _, _, hrx, _, r0, _, r2, _, htx, _, t0, _, t2, _⟩ :=
    (fman_if_init_fqids (ex_world ex_tree) hdr ex_dpa0 rfl).1 ex_opened
      (ex_after ex_tree ex_dpa0 ex_opened) (by decide!)
  have e1 : of_get_property ex_dpa0 "fsl,qman-frame-queues-rx"
      = some (cell 0x50 ++ cell 1 ++ cell 0x51 ++ cell 1) := by decide!
  have e2 : of_get_property ex_dpa0 "fsl,qman-frame-queues-tx"
      = some (cell 0x52 ++ cell 1 ++ cell 0x53 ++ cell 1) := by decide!
  rw [e1] at hrx
  rw [e2] at htx
  cases hrx
  cases htx
  refine ⟨i, hi, ?_, ?_, ?_, ?_⟩
  · have : be32 (cell 0x50 ++ cell 1 ++ cell 0x51 ++ cell 1) 0 = some 0x50 := by decide!
    rw [this] at r0
    exact (Option.some.inj r0).symm
  · have : be32 (cell 0x50 ++ cell 1 ++ cell 0x51 ++ cell 1) 2 = some 0x51 := by decide!
    rw [this] at r2
    exact (Option.some.inj r2).symm
  · have : be32 (cell 0x52 ++ cell 1 ++ cell 0x53 ++ cell 1) 0 = some 0x52 := by decide!
    rw [this] at t0
    exact (Option.some.inj t0).symm
  · have : be32 (cell 0x52 ++ cell 1 ++ cell 0x53 ++ cell 1) 2 = some 0x53 := by decide!
    rw [this] at t2
    exact (Option.some.inj t2).symm

/-- C20: every pool of an interface that `fman_if_init` binds is built from
the node its cell refers to.  When that node has a configuration property
("fsl,bpool-cfg" when present, otherwise "fsl,bpool-ethernet-cfg") the
property has six cells `c0 .. c5`, each a 32-bit big-endian value, and
`count = c0 * 2^32 + c1`, `size = c2 * 2^32 + c3`, `addr = c4 * 2^32 + c5`;
when it has neither property, count, size and addr are 0.  The absence of
both properties does not make the pool step fail: with the pool id read, it
ends with the pool object. -/
theorem fman_if_init_bpool_cfg (W : World) (H : fman_h) :
    (∀ (n : device_node) (g g1 : Globals), of_device_is_available n = true →
      fman_if_init W H n g = .ok 0 g1 →
      ∃ (i : __fman_if) (pools : Bytes), g1.__ifs = g.__ifs ++ [i] ∧
        of_get_property n "fsl,bman-buffer-pools" = some pools ∧
        ∀ k (hk : k < i.__if.bpool_list.length), ∃ ph pool_node,
          be32 pools k = some ph ∧ of_find_node_by_phandle W.tree ph = some pool_node ∧
          (bpool_cfg_property pool_node = none →
            (i.__if.bpool_list.get ⟨k, hk⟩).count = 0 ∧
            (i.__if.bpool_list.get ⟨k, hk⟩).size = 0 ∧
            (i.__if.bpool_list.get ⟨k, hk⟩).addr = 0) ∧
          (∀ prop, bpool_cfg_property pool_node = some prop →
            prop.length = 6 * 4 ∧
            ∃ c0 c1 c2 c3 c4 c5, be32 prop 0 = some c0 ∧ be32 prop 1 = some c1 ∧
              be32 prop 2 = some c2 ∧ be32 prop 3 = some c3 ∧ be32 prop 4 = some c4 ∧
              be32 prop 5 = some c5 ∧
              (i.__if.bpool_list.get ⟨k, hk⟩).count = c0 * 2 ^ 32 + c1 ∧
              (i.__if.bpool_list.get ⟨k, hk⟩).size = c2 * 2 ^ 32 + c3 ∧
              (i.__if.bpool_list.get ⟨k, hk⟩).addr = c4 * 2 ^ 32 + c5)) ∧
    (∀ (m pool_node : device_node) (pools bpid : Bytes) (k ph v : Nat) (g : Globals),
      W.rte_malloc g.heap_allocs = true → be32 pools k = some ph →
      of_find_node_by_phandle W.tree ph = some pool_node →
      of_get_property pool_node "fsl,bpid" = some bpid → bpid.length = 4 →
      of_read_number bpid 0 (of_n_addr_cells m) = some v →
      bpool_cfg_property pool_node = none →
      fman_if_init_bpool W m pools k g
        = .ok { bpid := v % 2 ^ 32, count := 0, size := 0, addr := 0 }
            { g with heap_allocs := g.heap_allocs + 1 }) := by
  constructor
  · intro n g g1 hav h
    obtain ⟨_, hcase⟩ := fman_if_init_ok W H n g g1 0 h
    rcases hcase with ⟨hne, _⟩ | ⟨_, hav2, _⟩ | ⟨_, _, i, g0, hbody, hifs⟩
    · exact absurd rfl hne
    · rw [hav] at hav2
      cases hav2
    · obtain ⟨m, _, hrx, _, pools, hpools, _, hget⟩ :=
        fman_if_init_body_values W H n g g0 i hbody
      obtain ⟨rxq, rx0, rx1, rx2, rx3, _, hrl, r0, r1, r2, r3, rone, _, _⟩ := hrx
      have hna := (quadruple_cells rxq _ rx0 rx1 rx2 rx3 hrl r0 r1 r2 r3 rone).1
      refine ⟨i, pools, hifs, hpools, fun k hk => ?_⟩
      obtain ⟨ga, gb, hab⟩ := hget k hk
      obtain ⟨ph, pool_node, hph, hnode, hc⟩ :=
        (fman_if_init_bpool_cfg_spec W m pools k).out ga _ gb hab
      refine ⟨ph, pool_node, hph, hnode, ?_, ?_⟩
      · intro hnone
        rcases hc with ⟨_, z1, z2, z3⟩ | ⟨prop, _, _, _, _, _, _, hsome, _⟩
        · exact ⟨z1, z2, z3⟩
        · rw [hnone] at hsome
          cases hsome
      · intro prop hprop
        rcases hc with ⟨hnone, _⟩ | ⟨prop2, h0, h1, h2, h3, h4, h5, hsome, hl, e0, e1, e2,
            e3, e4, e5, ec, es, ea⟩
        · rw [hprop] at hnone
          cases hnone
        · rw [hprop] at hsome
          cases hsome
          rw [hna, of_read_number_one] at e0 e1 e2 e3 e4 e5
          refine ⟨by simpa using hl, h0, h1, h2, h3, h4, h5, e0, e1, e2, e3, e4, e5, ?_, ?_, ?_⟩
          · rw [ec]
            exact hi_lo_pair h0 h1 (be32_lt _ _ _ e0) (be32_lt _ _ _ e1)
          · rw [es]
            exact hi_lo_pair h2 h3 (be32_lt _ _ _ e2) (be32_lt _ _ _ e3)
          · rw [ea]
            exact hi_lo_pair h4 h5 (be32_lt _ _ _ e4) (be32_lt _ _ _ e5)
  · intro m pool_node pools bpid k ph v g hmalloc hph hnode hbpid hlen hv hcfg
    have hc1 : of_get_property pool_node "fsl,bpool-cfg" = none := by
      unfold bpool_cfg_property at hcfg
      split at hcfg
      · cases hcfg
      · assumption
    have hc2 : of_get_property pool_node "fsl,bpool-ethernet-cfg" = none := by
      unfold bpool_cfg_property at hcfg
      rw [hc1] at hcfg
      exact hcfg
    unfold fman_if_init_bpool
    simp only [bind, M.bind, rte_malloc, hmalloc, FMAN_ERR, hph, hnode, hbpid, hlen, hv, hc1,
      hc2, assert, pure]
    rfl

/-- Witness for C20: a pool with the six-cell configuration `ex_cfg6` in
"fsl,bpool-ethernet-cfg" and a pool with no configuration property. -/
theorem fman_if_init_bpool_cfg_witness :
    (ex_after (ex_tree_pool (ex_pool_with [("fsl,bpool-ethernet-cfg", ex_cfg6)])) ex_dpa0
        ex_opened).__ifs.map (fun i => i.__if.bpool_list)
      = [[{ bpid := 7, count := 2 * 2 ^ 32 + 64, size := 1728, addr := 1 * 2 ^ 32 + 0x2000 }]] ∧
    (ex_after (ex_tree_pool (ex_pool_with [])) ex_dpa0 ex_opened).__ifs.map
        (fun i => i.__if.bpool_list)
      = [[{ bpid := 7, count := 0, size := 0, addr := 0 }]] ∧
    ∃ (i : __fman_if) (pools : Bytes),
      (ex_after (ex_tree_pool (ex_pool_with [])) ex_dpa0 ex_opened).__ifs
        = ex_opened.__ifs ++ [i] ∧
      of_get_property ex_dpa0 "fsl,bman-buffer-pools" = some pools := by
  refine ⟨by decide!, by decide!, ?_⟩
  obtain ⟨i, pools, h1, h2, _⟩ :=
    (fman_if_init_bpool_cfg (ex_world (ex_tree_pool (ex_pool_with []))) hdr).1 ex_dpa0
      ex_opened (ex_after (ex_tree_pool (ex_pool_with [])) ex_dpa0 ex_opened) rfl (by decide!)
  exact ⟨i, pools, h1, h2⟩

/-- C21: after `fman_if_init` has bound an interface for an available node,
the two dealloc masks follow `fman_ip_rev`: with `fman_ip_rev >= FMAN_V3` the
mask `fman_dealloc_bufs_mask_hi` is `FMAN_V3_CONTEXTA_EN_A2V |
FMAN_V3_CONTEXTA_EN_OVOM` and `fman_dealloc_bufs_mask_lo` is
`FMAN_V3_CONTEXTA_EN_EBD`, both as 32-bit values, so exactly these when the
constants fit in 32 bits; with `fman_ip_rev < FMAN_V3` both masks are 0. -/
theorem fman_if_init_masks (W : World) (H : fman_h) (n : device_node) (g g1 : Globals)
    (hav : of_device_is_available n = true) (h : fman_if_init W H n g = .ok 0 g1) :
    (∃ i, g1.__ifs = g.__ifs ++ [i]) ∧
    (H.FMAN_V3 ≤ g1.fman_ip_rev →
      g1.fman_dealloc_bufs_mask_hi =
        (H.FMAN_V3_CONTEXTA_EN_A2V ||| H.FMAN_V3_CONTEXTA_EN_OVOM) % 2 ^ 32 ∧
      g1.fman_dealloc_bufs_mask_lo = H.FMAN_V3_CONTEXTA_EN_EBD % 2 ^ 32) ∧
    (H.FMAN_V3 ≤ g1.fman_ip_rev → H.FMAN_V3_CONTEXTA_EN_A2V < 2 ^ 32 →
      H.FMAN_V3_CONTEXTA_EN_OVOM < 2 ^ 32 → H.FMAN_V3_CONTEXTA_EN_EBD < 2 ^ 32 →
      g1.fman_dealloc_bufs_mask_hi =
        H.FMAN_V3_CONTEXTA_EN_A2V ||| H.FMAN_V3_CONTEXTA_EN_OVOM ∧
      g1.fman_dealloc_bufs_mask_lo = H.FMAN_V3_CONTEXTA_EN_EBD) ∧
    (g1.fman_ip_rev < H.FMAN_V3 →
      g1.fman_dealloc_bufs_mask_hi = 0 ∧ g1.fman_dealloc_bufs_mask_lo = 0) := by
  have hav2 : (of_device_is_available n == false) = false := by simp [hav]
  unfold fman_if_init at h
  simp only [hav2, Bool.false_eq_true, if_false] at h
  cases hbody : fman_if_init_body W H n g with
  | err e g0 =>
    rw [hbody] at h
    have := (frame_fman_if_init_body W H n).ends g
    rw [hbody] at this
    injection h with he hg
    exact absurd he this.2
  | abort =>
    rw [hbody] at h
    cases h
  | undefined =>
    rw [hbody] at h
    cases h
  | ok i g0 =>
    rw [hbody] at h
    injection h with _ hg
    subst hg
    have hsame := (frame_fman_if_init_body W H n).ends g
    rw [hbody] at hsame
    have hifs : g0.__ifs = g.__ifs := hsame.1
    unfold fman_if_init_body at hbody
    obtain ⟨⟨mac_node, a, i0⟩, ga, hhead, hrest⟩ := bind_ok hbody
    obtain ⟨i1, gb, hmac, htail⟩ := bind_ok hrest
    obtain ⟨p1, p2⟩ := (after_fman_if_init_head W H n).out g _ ga hhead
    obtain ⟨m1, m2, m3⟩ := (keeps_fman_if_init_mac_type H mac_node i0).out ga i1 gb hmac
    obtain ⟨t1, t2, t3⟩ := (keeps_fman_if_init_tail W n mac_node a i1).out gb i g0 htail
    have hrev : g0.fman_ip_rev = ga.fman_ip_rev := t1.trans m1
    have hhi : g0.fman_dealloc_bufs_mask_hi = ga.fman_dealloc_bufs_mask_hi := t2.trans m2
    have hlo : g0.fman_dealloc_bufs_mask_lo = ga.fman_dealloc_bufs_mask_lo := t3.trans m3
    have hfront : H.FMAN_V3 ≤ g0.fman_ip_rev →
        g0.fman_dealloc_bufs_mask_hi =
          (H.FMAN_V3_CONTEXTA_EN_A2V ||| H.FMAN_V3_CONTEXTA_EN_OVOM) % 2 ^ 32 ∧
        g0.fman_dealloc_bufs_mask_lo = H.FMAN_V3_CONTEXTA_EN_EBD % 2 ^ 32 := by
      intro hge
      rw [hrev] at hge
      rw [hhi, hlo]
      exact p1 hge
    refine ⟨⟨i, by rw [← hifs]⟩, hfront, ?_, ?_⟩
    · intro hge ha ho he
      obtain ⟨q1, q2⟩ := hfront hge
      refine ⟨?_, ?_⟩
      · show g0.fman_dealloc_bufs_mask_hi = _
        rw [q1, Nat.mod_eq_of_lt (Nat.or_lt_two_pow ha ho)]
      · show g0.fman_dealloc_bufs_mask_lo = _
        rw [q2, Nat.mod_eq_of_lt he]
    · intro hlt
      show g0.fman_dealloc_bufs_mask_hi = 0 ∧ g0.fman_dealloc_bufs_mask_lo = 0
      have hlt2 : g0.fman_ip_rev < H.FMAN_V3 := hlt
      rw [hrev] at hlt2
      rw [hhi, hlo]
      exact p2 hlt2

/-- Witness for C21: on `ex_tree` the register reads `0x0603`, revision 6, and
the masks are `0x12000000` and `0x80000000`; with a register that reads
`0x0203`, revision 2, both masks are 0. -/
theorem fman_if_init_masks_witness :
    fman_if_init (ex_world ex_tree) hdr ex_dpa0 ex_opened
      = .ok 0 (ex_after ex_tree ex_dpa0 ex_opened) ∧
    (ex_after ex_tree ex_dpa0 ex_opened).fman_ip_rev = 6 ∧
    (ex_after ex_tree ex_dpa0 ex_opened).fman_dealloc_bufs_mask_hi = 0x12000000 ∧
    (ex_after ex_tree ex_dpa0 ex_opened).fman_dealloc_bufs_mask_lo = 0x80000000 ∧
    ((fman_if_init (ex_world_v2 ex_tree) hdr ex_dpa0 ex_opened).globals.map
        (fun g => (g.fman_ip_rev, g.fman_dealloc_bufs_mask_hi, g.fman_dealloc_bufs_mask_lo,
          g.__ifs.length))) = some (2, 0, 0, 1) ∧
    (hdr.FMAN_V3 ≤ (ex_after ex_tree ex_dpa0 ex_opened).fman_ip_rev →
      (ex_after ex_tree ex_dpa0 ex_opened).fman_dealloc_bufs_mask_hi =
        (hdr.FMAN_V3_CONTEXTA_EN_A2V ||| hdr.FMAN_V3_CONTEXTA_EN_OVOM) % 2 ^ 32 ∧
      (ex_after ex_tree ex_dpa0 ex_opened).fman_dealloc_bufs_mask_lo =
        hdr.FMAN_V3_CONTEXTA_EN_EBD % 2 ^ 32) :=
  ⟨by decide!, by decide!, by decide!, by decide!, by decide!,
   (fman_if_init_masks (ex_world ex_tree) hdr ex_dpa0 ex_opened
     (ex_after ex_tree ex_dpa0 ex_opened) (by decide!) (by decide!)).2.1⟩

/-- C22 does not hold as stated: for a thread whose logical core id is 200,
not below `RTE_MAX_LCORE = 128` and not `LCORE_ID_ANY`, and a hint other than
1, `_dpaa_portal_init` returns -1 and makes no call, so the thread is pinned
neither to the master core nor to its own logical core. -/
theorem _dpaa_portal_init_out_of_range :
    ex_portal_world_far.RTE_MAX_LCORE ≤ ex_portal_world_far.rte_lcore_id ∧
    _dpaa_portal_init ex_portal_world_far 0 PortalState.init = .ok (-1) PortalState.init ∧
    rte_dpaa_portal_init ex_portal_world_far 0 PortalState.init
      = .ok (-1) PortalState.init ∧
    PortalState.init.affinity = none ∧ PortalState.init.calls = [] := by
  decide!

/-- C22, amended: `_dpaa_portal_init` chooses the core as follows.  When the
hint is 1 or the logical core id of the thread is `LCORE_ID_ANY`, its first
call is `pthread_setaffinity_np` for the master core; when that call succeeds
the thread is pinned to the master core and `bman_thread_init` is called
next.  Otherwise, when the logical core id is not below `RTE_MAX_LCORE`, it
returns -1 and nothing is called or changed.  Otherwise its first call is
`pthread_setaffinity_np` for the logical core of the thread, with the same
continuation. -/
theorem _dpaa_portal_init_core (P : PortalWorld) (arg : Nat) (s : PortalState) :
    ((arg == 1 || P.rte_lcore_id == P.LCORE_ID_ANY) = true →
      ∃ r s1 rest, _dpaa_portal_init P arg s = .ok r s1 ∧
        s1.calls = s.calls ++
          PortalEvent.pthread_setaffinity_np P.rte_get_master_lcore :: rest ∧
        (P.pthread_setaffinity_np P.rte_get_master_lcore = 0 →
          s1.affinity = some P.rte_get_master_lcore ∧
          rest.head? = some PortalEvent.bman_thread_init) ∧
        (P.pthread_setaffinity_np P.rte_get_master_lcore ≠ 0 →
          r = P.pthread_setaffinity_np P.rte_get_master_lcore ∧ rest = [] ∧
          s1.affinity = s.affinity)) ∧
    ((arg == 1 || P.rte_lcore_id == P.LCORE_ID_ANY) = false →
      P.RTE_MAX_LCORE ≤ P.rte_lcore_id → _dpaa_portal_init P arg s = .ok (-1) s) ∧
    ((arg == 1 || P.rte_lcore_id == P.LCORE_ID_ANY) = false →
      P.rte_lcore_id < P.RTE_MAX_LCORE →
      ∃ r s1 rest, _dpaa_portal_init P arg s = .ok r s1 ∧
        s1.calls = s.calls ++ PortalEvent.pthread_setaffinity_np P.rte_lcore_id :: rest ∧
        (P.pthread_setaffinity_np P.rte_lcore_id = 0 →
          s1.affinity = some P.rte_lcore_id ∧
          rest.head? = some PortalEvent.bman_thread_init) ∧
        (P.pthread_setaffinity_np P.rte_lcore_id ≠ 0 →
          r = P.pthread_setaffinity_np P.rte_lcore_id ∧ rest = [] ∧
          s1.affinity = s.affinity)) := by
  refine ⟨?_, ?_, ?_⟩
  · intro hc
    rw [_dpaa_portal_init_resolved P arg P.rte_get_master_lcore (Or.inl ⟨hc, rfl⟩)]
    exact _dpaa_portal_init_on_pins P P.rte_get_master_lcore s
  · intro hc hge
    unfold _dpaa_portal_init
    have : P.rte_lcore_id ≥ P.RTE_MAX_LCORE := hge
    simp only [hc, Bool.false_eq_true, if_false, this, if_true]
    rfl
  · intro hc hlt
    rw [_dpaa_portal_init_resolved P arg P.rte_lcore_id (Or.inr ⟨hc, hlt, rfl⟩)]
    exact _dpaa_portal_init_on_pins P P.rte_lcore_id s

/-- Witness for C22, amended: with the hint 1 a thread on core 2 is pinned to
the master core 0; the thread on core 200 gets -1. -/
theorem _dpaa_portal_init_core_witness :
    (∃ r s1 rest, _dpaa_portal_init (ex_portal_world 0 0 true 0) 1 PortalState.init
        = .ok r s1 ∧
      s1.calls = PortalState.init.calls ++
        PortalEvent.pthread_setaffinity_np
          (ex_portal_world 0 0 true 0).rte_get_master_lcore :: rest ∧
      ((ex_portal_world 0 0 true 0).pthread_setaffinity_np
          (ex_portal_world 0 0 true 0).rte_get_master_lcore = 0 →
        s1.affinity = some (ex_portal_world 0 0 true 0).rte_get_master_lcore ∧
        rest.head? = some PortalEvent.bman_thread_init) ∧
      ((ex_portal_world 0 0 true 0).pthread_setaffinity_np
          (ex_portal_world 0 0 true 0).rte_get_master_lcore ≠ 0 →
        r = (ex_portal_world 0 0 true 0).pthread_setaffinity_np
          (ex_portal_world 0 0 true 0).rte_get_master_lcore ∧ rest = [] ∧
        s1.affinity = PortalState.init.affinity)) ∧
    (ex_portal_world 0 0 true 0).rte_get_master_lcore = 0 ∧
    _dpaa_portal_init (ex_portal_world 0 0 true 0) 1 PortalState.init
      = .ok 0 ex_portal_bound_master :=
  ⟨(_dpaa_portal_init_core (ex_portal_world 0 0 true 0) 1 PortalState.init).1 (by decide),
   by decide, by decide!⟩

end Dpaa
